import Mathlib

/-!
# Inventory manager: sessions, authorisation wrappers and the stock ledger

A shallow embedding of the backend of the inventory application:

* `middleware/errorHandler.js` and `utils/helpers.js`: the error translator,
* `middleware/auth.js`: `requireAuth`, `requireAdmin`, `withAuth`, `withAdminAuth`,
* `services/AuthService.js`: the session registry,
* `services/ProductService.js`: the stock ledger,
* `services/ReportService.js` (`SalesService.registrarVenta`): the sale coordinator.

JavaScript values are modelled by `JsVal`, objects by association lists of
properties, thrown exceptions by `Except Thrown`, and the relational store by
lists of rows with explicit transactions. Numbers are IEEE 754 doubles
(`Double`), held as exact fractions: arithmetic rounds to the nearest double,
and `parseInt` and `parseFloat` read the text that `String(v)` prints. The
stock ledger counts in integers, which an integer column holds exactly.
-/

namespace Inventario

/-! ## Numbers -/

/-- A number of the engine, an IEEE 754 double: NaN, an infinity, or a finite
number, held as the fraction `num / den` in lowest terms. The two zeros are
not told apart. -/
inductive Double where
  | nan
  | inf (negative : Bool)
  | fin (num : Int) (den : Nat)
  deriving DecidableEq, Repr

/-- The power `2 ^ k`. -/
def pow2 (k : Nat) : Nat := 1 <<< k

/-- The power `10 ^ k`. -/
def pow10 : Nat → Nat
  | 0 => 1
  | k + 1 => 10 * pow10 k

/-- The number of binary digits of `n`, counted in at most `fuel` steps. -/
def bitLengthAux : Nat → Nat → Nat
  | 0, _ => 0
  | fuel + 1, n => if n = 0 then 0 else bitLengthAux fuel (n / 2) + 1

/-- The number of binary digits of `n`; 0 for 0. -/
def bitLength (n : Nat) : Nat := bitLengthAux n n

/-- The fraction `num / den` in lowest terms. -/
def Double.ofFraction (num : Int) (den : Nat) : Double :=
  .fin (num / (Nat.gcd num.natAbs den : Nat)) (den / Nat.gcd num.natAbs den)

/-- The quotient `n / d` rounded to the nearest integer, a tie to the even one. -/
def divRound (n d : Nat) : Nat :=
  if 2 * (n % d) < d then n / d
  else if d < 2 * (n % d) then n / d + 1
  else n / d + (n / d) % 2

/-- The exponent `p` with `2 ^ p ≤ n / d < 2 ^ (p + 1)`, for `n` and `d`
positive. -/
def floorLog2 (n d : Nat) : Int :=
  let l : Int := (bitLength n : Int) - (bitLength d : Int)
  if 0 ≤ l then (if d * pow2 l.toNat ≤ n then l else l - 1)
  else (if d ≤ n * pow2 (-l).toNat then l else l - 1)

/-- The factor of a sign: -1 for negative, 1 otherwise. -/
def Double.sign (negative : Bool) : Int := if negative then -1 else 1

/-- The double nearest to the fraction `n / d` with the given sign, for `d`
positive: round to nearest with 53 binary digits, a tie to the even mantissa,
the exponent not below -1074, and an infinity when the result reaches
`2 ^ 1024`. -/
def Double.round (negative : Bool) (n d : Nat) : Double :=
  if n = 0 then .fin 0 1
  else
    let e : Int := max (floorLog2 n d - 52) (-1074)
    let m : Nat := if 0 ≤ e then divRound n (d * pow2 e.toNat) else divRound (n * pow2 (-e).toNat) d
    if 971 < e ∨ (e = 971 ∧ pow2 53 ≤ m) then .inf negative
    else if 0 ≤ e then .fin (Double.sign negative * ((m * pow2 e.toNat : Nat) : Int)) 1
    else Double.ofFraction (Double.sign negative * (m : Int)) (pow2 (-e).toNat)

/-- The double nearest to the fraction `num / den`, for `den` positive. -/
def Double.ofRatio (num : Int) (den : Nat) : Double :=
  Double.round (decide (num < 0)) num.natAbs den

/-- The number whose value is the integer `n`, or the double nearest to it. -/
def Double.ofInt (n : Int) : Double := Double.ofRatio n 1

namespace Double

/-- The test `Number.isNaN`. -/
def isNaN : Double → Bool
  | nan => true
  | _ => false

/-- The test `isFinite`. -/
def isFinite : Double → Bool
  | fin _ _ => true
  | _ => false

/-- The test `Number.isInteger`. -/
def isInteger : Double → Bool
  | fin _ den => den == 1
  | _ => false

/-- The integer part of a finite number, towards zero; 0 for the others. -/
def trunc : Double → Int
  | fin num den => if 0 ≤ num then num / (den : Int) else -((-num) / (den : Int))
  | _ => 0

/-- The operator `-x`. -/
def neg : Double → Double
  | nan => nan
  | inf negative => inf (!negative)
  | fin num den => fin (-num) den

/-- The operator `x * y`. -/
def mul : Double → Double → Double
  | nan, _ => nan
  | _, nan => nan
  | inf a, inf b => inf (a != b)
  | inf a, fin num _ => if num = 0 then nan else inf (a != decide (num < 0))
  | fin num _, inf b => if num = 0 then nan else inf (decide (num < 0) != b)
  | fin a b, fin c d => ofRatio (a * c) (b * d)

/-- The operator `x + y`. -/
def add : Double → Double → Double
  | nan, _ => nan
  | _, nan => nan
  | inf a, inf b => if a = b then inf a else nan
  | inf a, fin _ _ => inf a
  | fin _ _, inf b => inf b
  | fin a b, fin c d => ofRatio (a * (d : Int) + c * (b : Int)) (b * d)

/-- The operator `x - y`. -/
def sub (x y : Double) : Double := add x (neg y)

/-- The comparison `x < y`, false when either is NaN. -/
def lt : Double → Double → Bool
  | nan, _ => false
  | _, nan => false
  | inf a, inf b => a && !b
  | inf a, fin _ _ => a
  | fin _ _, inf b => !b
  | fin a b, fin c d => decide (a * (d : Int) < c * (b : Int))

/-- The comparison `x >= y`, false when either is NaN. -/
def ge : Double → Double → Bool
  | nan, _ => false
  | _, nan => false
  | x, y => !lt x y

/-- Truthiness of a number: neither zero nor NaN. -/
def truthy : Double → Bool
  | nan => false
  | inf _ => true
  | fin num _ => num != 0

end Double

/-! ### Printing of numbers -/

/-- The number of decimal digits of `n`; 1 for 0. -/
def digitCount (n : Nat) : Nat := (Nat.toDigits 10 n).length

/-- The exponent `k` with `10 ^ (k - 1) ≤ n / d < 10 ^ k`, for `n` and `d`
positive. -/
def decimalExponent (n d : Nat) : Int :=
  let l : Int := (digitCount n : Int) - (digitCount d : Int)
  if 0 ≤ l then (if d * pow10 l.toNat ≤ n then l + 1 else l)
  else (if d ≤ n * pow10 (-l).toNat then l + 1 else l)

/-- The fraction `s * 10 ^ e` as numerator and denominator. -/
def scaleDecimal (s : Nat) (e : Int) : Nat × Nat :=
  if 0 ≤ e then (s * pow10 e.toNat, 1) else (s, pow10 (-e).toNat)

/-- Whether the decimal `s * 10 ^ e` reads back as the positive double `n / d`. -/
def readsBack (n d s : Nat) (e : Int) : Bool :=
  Double.round false (scaleDecimal s e).1 (scaleDecimal s e).2 == Double.ofFraction n d

/-- The distance between `s * 10 ^ e` and `n / d`, over the common denominator
`d * (scaleDecimal s e).2`. -/
def decimalDistance (n d s : Nat) (e : Int) : Nat :=
  ((scaleDecimal s e).1 * d : Int) - (n * (scaleDecimal s e).2 : Int) |>.natAbs

/-- The digits `s` of the positive double `n / d` at the length `k`, if a
decimal of `k` digits reads back as the double: `s * 10 ^ (exp - k)` is the one
of the two decimals around the double that is nearer to it, the even one at a
tie. The second component is the exponent, raised by one when the digits
carry into `10 ^ k`. -/
def digitsAt (n d : Nat) (exp : Int) (k : Nat) : Option (Nat × Int) :=
  let e : Int := exp - k
  let lo : Nat := if 0 ≤ e then n / (d * pow10 e.toNat) else (n * pow10 (-e).toNat) / d
  let hi : Nat := lo + 1
  let okLo : Bool := decide (pow10 (k - 1) ≤ lo) && readsBack n d lo e
  let okHi : Bool := readsBack n d hi e
  let pick : Option Nat :=
    if okLo && okHi then
      (if decimalDistance n d lo e < decimalDistance n d hi e then some lo
       else if decimalDistance n d hi e < decimalDistance n d lo e then some hi
       else if lo % 2 = 0 then some lo else some hi)
    else if okLo then some lo
    else if okHi then some hi
    else none
  match pick with
  | none => none
  | some s => if s = pow10 k then some (pow10 (k - 1), exp + 1) else some (s, exp)

/-- The shortest digits of the positive double `n / d`: the first length from
`k` on, in at most `fuel` steps, at which `digitsAt` finds digits. -/
def shortestDigits (n d : Nat) (exp : Int) : Nat → Nat → Option (Nat × Nat × Int)
  | 0, _ => none
  | fuel + 1, k =>
    match digitsAt n d exp k with
    | some (s, e) => some (s, k, e)
    | none => shortestDigits n d exp fuel (k + 1)

/-- The text of `Number::toString` for the digits `s` of length `k` and the
exponent `n`: the value is `s * 10 ^ (n - k)`. -/
def formatDigits (s k : Nat) (n : Int) : String :=
  let ds : List Char := Nat.toDigits 10 s
  if (k : Int) ≤ n ∧ n ≤ 21 then
    String.mk (ds ++ List.replicate (n - k).toNat '0')
  else if 0 < n ∧ n ≤ 21 then
    String.mk (ds.take n.toNat ++ ['.'] ++ ds.drop n.toNat)
  else if -6 < n ∧ n ≤ 0 then
    String.mk (['0', '.'] ++ List.replicate (-n).toNat '0' ++ ds)
  else
    let e : Int := n - 1
    let sign : String := if 0 ≤ e then "+" else "-"
    let mant : List Char := if k = 1 then ds else ds.take 1 ++ ['.'] ++ ds.drop 1
    String.mk mant ++ "e" ++ sign ++ String.mk (Nat.toDigits 10 e.natAbs)

/-- The text of the positive double `n / d`. -/
def positiveToString (n d : Nat) : String :=
  match shortestDigits n d (decimalExponent n d) 17 1 with
  | some (s, k, e) => formatDigits s k e
  | none => "NaN"

/-- The conversion `String(x)` of a number (`Number::toString`). -/
def Double.toString : Double → String
  | .nan => "NaN"
  | .inf negative => if negative then "-Infinity" else "Infinity"
  | .fin num den =>
    if num = 0 then "0"
    else if num < 0 then "-" ++ positiveToString num.natAbs den
    else positiveToString num.natAbs den

/-! ## JavaScript values -/

/-- A JavaScript value as far as the backend inspects it. `num n` is the number
whose value is the integer `n`, the double nearest to `n` when `n` is beyond
`2 ^ 53` in size; `double x` is any number, and stands for the fractions, the
infinities and NaN. `object` is an object whose properties are
not modelled: it is truthy, prints as a plain object and has none of the
string methods. -/
inductive JsVal where
  | undefined
  | null
  | bool (b : Bool)
  | num (n : Int)
  | double (x : Double)
  | str (s : String)
  | object
  deriving DecidableEq, Repr

namespace JsVal

/-- Truthiness, as tested by `!v`, `v && w` and `v || w`. -/
def truthy : JsVal → Bool
  | undefined => false
  | null => false
  | bool b => b
  | num n => n != 0
  | double x => x.truthy
  | str s => s != ""
  | object => true

/-- The test `v === undefined || v === null`, which is also what `v?.p` checks. -/
def nullish : JsVal → Bool
  | undefined => true
  | null => true
  | _ => false

/-- The expression `a || b`. -/
def or (a b : JsVal) : JsVal := if a.truthy then a else b

/-- The conversion `String(v)`, applied by `new Error(v)` to a message that is
not `undefined` and by `parseInt` and `parseFloat` to their argument. An
integer up to `2 ^ 53` in size is a double and prints as its decimal digits;
any other number prints as `Number::toString` has it, a larger integer `n` as
the double nearest to it. -/
def toStr : JsVal → String
  | undefined => "undefined"
  | null => "null"
  | bool true => "true"
  | bool false => "false"
  | num n =>
    if n.natAbs ≤ 9007199254740992 then toString n
    else Double.toString (Double.ofInt n)
  | double x => Double.toString x
  | str s => s
  | object => "[object Object]"

end JsVal

/-- Own properties of a plain object, in insertion order. -/
abbrev Payload := List (String × JsVal)

/-- Property read `o.k` on a plain object: `undefined` when the key is absent. -/
def Payload.get (o : Payload) (k : String) : JsVal :=
  match o.lookup k with
  | some v => v
  | none => .undefined

/-- Whether the object has an own property named `k`. -/
def Payload.has (o : Payload) (k : String) : Bool := (o.lookup k).isSome

/-- Substring test on character lists. -/
def includesChars : List Char → List Char → Bool
  | [], sub => sub.isEmpty
  | c :: cs, sub => sub.isPrefixOf (c :: cs) || includesChars cs sub

/-- The method `s.includes(sub)` of a string. -/
def strIncludes (s sub : String) : Bool := includesChars s.toList sub.toList

/-- The method `s.startsWith(p)` of a string. -/
def strStartsWith (s p : String) : Bool := p.toList.isPrefixOf s.toList

/-! ## Thrown values -/

/-- The properties of a thrown value that the error translator reads. A thrown
primitive other than `null` and `undefined` has all four `undefined`. -/
structure ErrorObject where
  name : JsVal
  message : JsVal
  code : JsVal
  validationErrors : JsVal
  deriving DecidableEq, Repr

/-- Anything a `throw` statement can raise. -/
inductive Thrown where
  | nullish
  | error (e : ErrorObject)
  deriving DecidableEq, Repr

deriving instance DecidableEq for Except

/-- The object built by `new Error(message)` followed by `error.name = type`
(`ErrorHandler.createError`). `new Error(undefined)` has the empty message. -/
def createError (type : String) (message : JsVal) : ErrorObject :=
  { name := .str type
    message := .str (if message = .undefined then "" else message.toStr)
    code := .undefined
    validationErrors := .undefined }

/-- The `TypeError` the engine raises for a failed call or property access. -/
def typeError (message : String) : Thrown :=
  .error (createError "TypeError" (.str message))

/-- Messages of `config/constants.js` (`ERROR_MESSAGES`). -/
def INVALID_CREDENTIALS : String := "Credenciales incorrectas"
def UNAUTHORIZED : String := "No autorizado"
def FORBIDDEN : String := "Acceso denegado"
def DUPLICATE_ENTRY : String := "Ya existe un registro con esos datos"
def FK_CONSTRAINT : String := "No se puede eliminar porque tiene registros relacionados"
def INTERNAL_ERROR : String := "Error interno del servidor"
def DATABASE_CONNECTION_ERROR : String := "Error de conexión a la base de datos"

/-- The role constant `USER_ROLES.ADMIN`. -/
def ADMIN : String := "admin"

/-- The function `ErrorHandler.createAuthError`. -/
def createAuthError (message : JsVal) : ErrorObject :=
  createError "AuthenticationError" message

/-- The function `ErrorHandler.createAuthorizationError`. -/
def createAuthorizationError (message : JsVal) : ErrorObject :=
  createError "AuthorizationError" message

/-- The function `ErrorHandler.createBusinessError`. -/
def createBusinessError (message : JsVal) : ErrorObject :=
  createError "BusinessError" message

/-- The function `ErrorHandler.createValidationError` called with a message only. -/
def createValidationError (message : JsVal) : ErrorObject :=
  createError "ValidationError" message

/-! ## Responses (`utils/helpers.js`) -/

/-- What the process environment contributes to a response: the clock reading
used for `timestamp` and whether `NODE_ENV` is `production`. -/
structure Env where
  timestamp : String
  isProduction : Bool
  deriving DecidableEq, Repr

/-- An optional property of a response: it is set only when the value is not
`null`; an `undefined` argument takes the default `null`. -/
def optField (k : String) (v : JsVal) : Payload :=
  if v.nullish then [] else [(k, v)]

/-- The function `Helpers.createApiResponse`. -/
def createApiResponse (env : Env) (success : Bool) (data message errors pagination : JsVal) :
    Payload :=
  [("success", .bool success), ("timestamp", .str env.timestamp)]
    ++ optField "data" data ++ optField "message" message
    ++ optField "errors" errors ++ optField "pagination" pagination

/-- The function `Helpers.errorResponse`. -/
def errorResponse (env : Env) (message : JsVal) (errors : JsVal) (data : JsVal) : Payload :=
  createApiResponse env false data message errors .null

/-! ## Error translator (`middleware/errorHandler.js`) -/

/-- The function `ErrorHandler.handleValidationError`. -/
def handleValidationError (env : Env) (e : ErrorObject) : Payload :=
  errorResponse env e.message (e.validationErrors.or .null) .null

/-- The function `ErrorHandler.handleDatabaseError`: a `switch` on `error.code`. -/
def handleDatabaseError (env : Env) (e : ErrorObject) : Payload :=
  if e.code = .str "23505" then errorResponse env (.str DUPLICATE_ENTRY) .null .null
  else if e.code = .str "23503" then errorResponse env (.str FK_CONSTRAINT) .null .null
  else if e.code = .str "23502" then errorResponse env (.str "Campo requerido faltante") .null .null
  else if e.code = .str "42P01" then errorResponse env (.str "Recurso no encontrado") .null .null
  else if e.code = .str "ECONNREFUSED" ∨ e.code = .str "08006" then
    errorResponse env (.str DATABASE_CONNECTION_ERROR) .null .null
  else errorResponse env (.str INTERNAL_ERROR) .null .null

/-- The function `ErrorHandler.handleAuthError`. -/
def handleAuthError (env : Env) (e : ErrorObject) : Payload :=
  errorResponse env (e.message.or (.str UNAUTHORIZED)) .null .null

/-- The function `ErrorHandler.handleAuthorizationError`. -/
def handleAuthorizationError (env : Env) (e : ErrorObject) : Payload :=
  errorResponse env (e.message.or (.str FORBIDDEN)) .null .null

/-- The function `ErrorHandler.handleBusinessError`. -/
def handleBusinessError (env : Env) (e : ErrorObject) : Payload :=
  errorResponse env e.message .null .null

/-- The function `ErrorHandler.handleGenericError`. -/
def handleGenericError (env : Env) (e : ErrorObject) : Payload :=
  errorResponse env (if env.isProduction then .str INTERNAL_ERROR else e.message) .null .null

/-- The method call `v.startsWith(p)`: only a string has the method; on any
other value the call raises a `TypeError`. -/
def callStartsWith (v : JsVal) (p : String) : Except Thrown Bool :=
  match v with
  | .str s => .ok (strStartsWith s p)
  | _ => .error (typeError "error.code.startsWith is not a function")

/-- The optional call `v?.includes(sub)` as a condition: `undefined` (falsy) on a
nullish value, the substring test on a string, a `TypeError` otherwise. -/
def callIncludesOpt (v : JsVal) (sub : String) : Except Thrown Bool :=
  match v with
  | .undefined => .ok false
  | .null => .ok false
  | .str s => .ok (strIncludes s sub)
  | _ => .error (typeError "error.message?.includes is not a function")

/-- The condition `error.code && (error.code.startsWith('23') ||
error.code === 'ECONNREFUSED' || error.code.startsWith('08'))`. -/
def isDatabaseCode (code : JsVal) : Except Thrown Bool :=
  if code.truthy then
    match callStartsWith code "23" with
    | .error t => .error t
    | .ok true => .ok true
    | .ok false =>
      if code = .str "ECONNREFUSED" then .ok true else callStartsWith code "08"
  else .ok false

/-- The condition that selects `handleAuthError`. -/
def isAuthError (e : ErrorObject) : Except Thrown Bool :=
  if e.name = .str "AuthenticationError" then .ok true
  else
    match callIncludesOpt e.message "credenciales" with
    | .error t => .error t
    | .ok true => .ok true
    | .ok false => callIncludesOpt e.message "sesión"

/-- The condition that selects `handleAuthorizationError`. -/
def isAuthorizationError (e : ErrorObject) : Except Thrown Bool :=
  if e.name = .str "AuthorizationError" then .ok true
  else
    match callIncludesOpt e.message "autorizado" with
    | .error t => .error t
    | .ok true => .ok true
    | .ok false => callIncludesOpt e.message "permisos"

/-- The function `ErrorHandler.handle`. Reading a property of `null` or
`undefined` raises a `TypeError`, so the translator itself can throw. -/
def handle (env : Env) (error : Thrown) : Except Thrown Payload :=
  match error with
  | .nullish => .error (typeError "Cannot read properties of undefined (reading name)")
  | .error e =>
    if e.name = .str "ValidationError" ∨ e.validationErrors.truthy then
      .ok (handleValidationError env e)
    else
      match isDatabaseCode e.code with
      | .error t => .error t
      | .ok true => .ok (handleDatabaseError env e)
      | .ok false =>
        match isAuthError e with
        | .error t => .error t
        | .ok true => .ok (handleAuthError env e)
        | .ok false =>
          match isAuthorizationError e with
          | .error t => .error t
          | .ok true => .ok (handleAuthorizationError env e)
          | .ok false =>
            if e.name = .str "BusinessError" then .ok (handleBusinessError env e)
            else .ok (handleGenericError env e)

/-! ## Authorisation wrappers (`middleware/auth.js`) -/

/-- The user object of a session: `id`, `username` and `rol`. -/
structure User where
  id : JsVal
  username : JsVal
  rol : JsVal
  deriving DecidableEq, Repr

/-- The object a session validator resolves to. `user` is `none` when the
property is missing. -/
structure SessionResult where
  success : JsVal
  error : JsVal
  user : Option User
  deriving DecidableEq, Repr

/-- A session validator: given the token it resolves to a result or rejects. -/
abbrev SessionValidator := JsVal → Except Thrown SessionResult

/-- One run of the function built inside `requireAuth`: the tokens the
validator was called with, and the user returned or the value thrown. -/
structure AuthRun where
  validatorCalls : List JsVal
  outcome : Except Thrown (Option User)
  deriving DecidableEq, Repr

/-- The `catch` block of the function built inside `requireAuth`: it logs
`token?.substring(0, 8) + '...'` and `error.message`, then rethrows. The log
line itself raises a `TypeError` when the token is neither nullish nor a
string, or when the caught value is `null` or `undefined`. -/
def requireAuthCatch (token : JsVal) (error : Thrown) : Thrown :=
  match token with
  | .undefined | .null | .str _ =>
    match error with
    | .nullish => typeError "Cannot read properties of undefined (reading message)"
    | .error e => .error e
  | _ => typeError "token?.substring is not a function"

/-- The arrow function `async (token) => ...` built inside `requireAuth`. -/
def requireAuthCheck (sessionValidator : SessionValidator) (token : JsVal) : AuthRun :=
  if !token.truthy then
    ⟨[], .error (requireAuthCatch token (.error (createAuthError (.str "Token de sesión requerido"))))⟩
  else
    match sessionValidator token with
    | .error e => ⟨[token], .error (requireAuthCatch token e)⟩
    | .ok sessionResult =>
      if !sessionResult.success.truthy then
        ⟨[token], .error (requireAuthCatch token
          (.error (createAuthError (sessionResult.error.or (.str "Sesión inválida")))))⟩
      else ⟨[token], .ok sessionResult.user⟩

/-- The promise object that a call of an `async` function evaluates to; `value`
is what the promise resolves to. -/
structure Promise (α : Type) where
  value : α

/-- The method `static async requireAuth(sessionValidator)`. Being declared
`async`, a call evaluates to a promise of the checking function, not to the
checking function. -/
def requireAuth (sessionValidator : SessionValidator) : Promise (JsVal → AuthRun) :=
  ⟨requireAuthCheck sessionValidator⟩

/-- The call expression `p(arg)` whose callee `p` is a promise object: a
promise is not callable, so the engine raises a `TypeError` whatever the
promise resolves to. This is how `this.requireAuth(sessionValidator)(token)`
evaluates (the `await` in front applies to the result of the whole call). -/
def Promise.call {α β : Type} (_p : Promise (α → β)) (_arg : α) : Except Thrown β :=
  .error (typeError "this.requireAuth(...) is not a function")

/-- The function `AuthMiddleware.requireAdmin`. -/
def requireAdmin (user : Option User) : Except Thrown Bool :=
  match user with
  | none => .error (.error (createAuthError (.str "Usuario no autenticado")))
  | some u =>
    if u.rol ≠ .str ADMIN then
      .error (.error (createAuthorizationError (.str "Se requieren permisos de administrador")))
    else .ok true

/-- The second argument `data` of a handler: `none` when it is `undefined`,
`null` or a primitive, otherwise its own properties. -/
abbrev RequestData := Option Payload

/-- Property read `data?.k`. -/
def RequestData.get (data : RequestData) (k : String) : JsVal :=
  match data with
  | none => .undefined
  | some o => o.get k

/-- The object `{ ...data, user }` handed to the wrapped operation: the own
properties of `data` other than `user`, and the resolved user as `user`. -/
structure AuthedData where
  fields : Payload
  user : Option User
  deriving DecidableEq, Repr

/-- The spread expression `{ ...data, user }`. -/
def spreadUser (data : RequestData) (user : Option User) : AuthedData :=
  ⟨(data.getD []).filter (fun kv => kv.1 != "user"), user⟩

/-- A wrapped operation `async (event, data) => ...`: it resolves to a result
object or rejects with a thrown value. -/
abbrev Operation := JsVal → AuthedData → Except Thrown Payload

/-- One run of a handler built by `withAuth` or `withAdminAuth`: the calls made
to the validator and to the wrapped operation, and what the handler resolved
to (`ok`) or rejected with (`error`). -/
structure HandlerRun where
  validatorCalls : List JsVal
  operationCalls : List (JsVal × AuthedData)
  outcome : Except Thrown Payload
  deriving DecidableEq, Repr

/-- The handler `async (event, data) => ...` returned by
`AuthMiddleware.withAuth(sessionValidator, operation)`. -/
def withAuth (env : Env) (sessionValidator : SessionValidator) (operation : Operation)
    (event : JsVal) (data : RequestData) : HandlerRun :=
  let token := (data.get "token").or (data.get "sessionToken")
  match (requireAuth sessionValidator).call token with
  | .error e => ⟨[], [], handle env e⟩
  | .ok auth =>
    match auth.outcome with
    | .error e => ⟨auth.validatorCalls, [], handle env e⟩
    | .ok user =>
      match operation event (spreadUser data user) with
      | .error e => ⟨auth.validatorCalls, [(event, spreadUser data user)], handle env e⟩
      | .ok r => ⟨auth.validatorCalls, [(event, spreadUser data user)], .ok r⟩

/-- The handler `async (event, data) => ...` returned by
`AuthMiddleware.withAdminAuth(sessionValidator, operation)`. -/
def withAdminAuth (env : Env) (sessionValidator : SessionValidator) (operation : Operation)
    (event : JsVal) (data : RequestData) : HandlerRun :=
  let token := (data.get "token").or (data.get "sessionToken")
  match (requireAuth sessionValidator).call token with
  | .error e => ⟨[], [], handle env e⟩
  | .ok auth =>
    match auth.outcome with
    | .error e => ⟨auth.validatorCalls, [], handle env e⟩
    | .ok user =>
      match requireAdmin user with
      | .error e => ⟨auth.validatorCalls, [], handle env e⟩
      | .ok _ =>
        match operation event (spreadUser data user) with
        | .error e => ⟨auth.validatorCalls, [(event, spreadUser data user)], handle env e⟩
        | .ok r => ⟨auth.validatorCalls, [(event, spreadUser data user)], .ok r⟩

/-! ## Built-in string functions used by the services -/

/-- White space and line terminators, as skipped by `trim` and `parseInt`. -/
def isJsWhitespace (c : Char) : Bool :=
  let n := c.toNat
  n == 9 || n == 10 || n == 11 || n == 12 || n == 13 || n == 32 || n == 160
    || n == 0x1680 || (0x2000 ≤ n && n ≤ 0x200A) || n == 0x2028 || n == 0x2029
    || n == 0x202F || n == 0x205F || n == 0x3000 || n == 0xFEFF

/-- The method `s.trim()`. -/
def jsTrim (s : String) : String :=
  String.mk ((s.toList.dropWhile isJsWhitespace).reverse.dropWhile isJsWhitespace).reverse

/-- Value of a character as a digit of the given radix (10 or 16). -/
def digitValue (radix : Nat) (c : Char) : Option Nat :=
  let n := c.toNat
  if 48 ≤ n ∧ n ≤ 57 then some (n - 48)
  else if radix = 16 ∧ 97 ≤ n ∧ n ≤ 102 then some (n - 87)
  else if radix = 16 ∧ 65 ≤ n ∧ n ≤ 70 then some (n - 55)
  else none

/-- Reads the longest prefix of digits, continuing from the value `acc`. -/
def readDigits (radix : Nat) : List Char → Nat → Nat
  | [], acc => acc
  | c :: cs, acc =>
    match digitValue radix c with
    | some d => readDigits radix cs (acc * radix + d)
    | none => acc

/-- The number denoted by the longest prefix of digits; `none` (NaN) when the
text does not start with a digit. -/
def parseDigits (radix : Nat) (cs : List Char) : Option Nat :=
  match cs with
  | [] => none
  | c :: _ => if (digitValue radix c).isSome then some (readDigits radix cs 0) else none

/-- After the sign: an optional `0x` or `0X` prefix selects radix 16. -/
def parseUnsigned (cs : List Char) : Option Nat :=
  match cs with
  | '0' :: 'x' :: rest => parseDigits 16 rest
  | '0' :: 'X' :: rest => parseDigits 16 rest
  | _ => parseDigits 10 cs

/-- The built-in `parseInt` on the text of a string; `none` is NaN. -/
def parseIntChars (cs : List Char) : Option Int :=
  match cs.dropWhile isJsWhitespace with
  | '-' :: rest => (parseUnsigned rest).map (fun n => -(n : Int))
  | '+' :: rest => (parseUnsigned rest).map (fun n => (n : Int))
  | rest => (parseUnsigned rest).map (fun n => (n : Int))

/-- The integer that the built-in `parseInt(v)` reads: the argument is first
printed, then read as a text; `none` is NaN. The number that `parseInt`
returns is this integer as a double (`parseIntNumber`). -/
def parseInt (v : JsVal) : Option Int := parseIntChars v.toStr.toList

/-- The built-in `parseInt(v)`: the double nearest to the integer read. -/
def parseIntNumber (v : JsVal) : Double :=
  match parseInt v with
  | none => .nan
  | some n => Double.ofInt n

/-! ### Reading of numbers -/

/-- The value of a decimal digit. -/
def decimalDigit (c : Char) : Option Nat :=
  if 48 ≤ c.toNat ∧ c.toNat ≤ 57 then some (c.toNat - 48) else none

/-- Splits off the longest prefix of decimal digits: its value continued from
`acc`, the number of digits, and the rest. -/
def takeDigits : List Char → Nat → Nat → Nat × Nat × List Char
  | [], acc, count => (acc, count, [])
  | c :: cs, acc, count =>
    match decimalDigit c with
    | some v => takeDigits cs (acc * 10 + v) (count + 1)
    | none => (acc, count, c :: cs)

/-- The exponent part of a decimal literal: `e` or `E`, an optional sign and at
least one digit; 0 when the text does not start with one. -/
def readExponent (cs : List Char) : Int :=
  match cs with
  | c :: rest =>
    if c = 'e' ∨ c = 'E' then
      match rest with
      | '+' :: ds => if (takeDigits ds 0 0).2.1 = 0 then 0 else ((takeDigits ds 0 0).1 : Int)
      | '-' :: ds => if (takeDigits ds 0 0).2.1 = 0 then 0 else -((takeDigits ds 0 0).1 : Int)
      | ds => if (takeDigits ds 0 0).2.1 = 0 then 0 else ((takeDigits ds 0 0).1 : Int)
    else 0
  | [] => 0

/-- The double that the decimal `m * 10 ^ e` reads as. The decimals that lie
far outside the range of the doubles are settled by their length. -/
def decimalToDouble (negative : Bool) (m : Nat) (e : Int) : Double :=
  if m = 0 then .fin 0 1
  else if 400 < e + (digitCount m : Int) then .inf negative
  else if e + (digitCount m : Int) < -400 then .fin 0 1
  else Double.round negative (scaleDecimal m e).1 (scaleDecimal m e).2

/-- The longest prefix that is an unsigned decimal literal: digits, an
optional point with digits, an optional exponent; NaN when there is no digit. -/
def readUnsignedDecimal (negative : Bool) (cs : List Char) : Double :=
  let entera := takeDigits cs 0 0
  match entera.2.2 with
  | '.' :: rest =>
    let fraccion := takeDigits rest entera.1 0
    if entera.2.1 + fraccion.2.1 = 0 then .nan
    else decimalToDouble negative fraccion.1 (readExponent fraccion.2.2 - (fraccion.2.1 : Int))
  | rest =>
    if entera.2.1 = 0 then .nan
    else decimalToDouble negative entera.1 (readExponent rest)

/-- After the sign: `Infinity` or an unsigned decimal literal. -/
def readUnsignedFloat (negative : Bool) (cs : List Char) : Double :=
  if "Infinity".toList.isPrefixOf cs then .inf negative else readUnsignedDecimal negative cs

/-- The built-in `parseFloat` on the text of a string. -/
def parseFloatChars (cs : List Char) : Double :=
  match cs.dropWhile isJsWhitespace with
  | '-' :: rest => readUnsignedFloat true rest
  | '+' :: rest => readUnsignedFloat false rest
  | rest => readUnsignedFloat false rest

/-- The built-in `parseFloat(v)`: the argument is first printed, then read as
a text. -/
def parseFloat (v : JsVal) : Double := parseFloatChars v.toStr.toList

/-! ## The store -/

/-- A row of `productos`: the columns the ledger reads. `nombre` is `none` for
SQL `NULL`. The other columns are not tracked. -/
structure Producto where
  id : Nat
  nombre : Option String
  stock : Int
  deriving DecidableEq, Repr

/-- The column `tipo_movimiento` (`MOVEMENT_TYPES`). -/
inductive TipoMovimiento where
  | entrada
  | salida
  | ajuste
  deriving DecidableEq, Repr

/-- A row of `movimientos_stock`. -/
structure Movimiento where
  producto_id : Nat
  tipo_movimiento : TipoMovimiento
  cantidad : Int
  stock_anterior : Int
  stock_nuevo : Int
  motivo : String
  deriving DecidableEq, Repr

/-- A row of `ventas`. -/
structure Venta where
  id : Nat
  producto_id : Nat
  cantidad : Int
  precio_unitario : Int
  precio_total : Int
  metodo_pago : JsVal
  usuario_id : Int
  descuento : Int
  deriving DecidableEq, Repr

/-- The committed contents of the database. `productoSeq` and `ventaSeq` are
the last values drawn from the id sequences; a sequence is not rolled back. -/
structure Db where
  productos : List Producto
  movimientos : List Movimiento
  ventas : List Venta
  productoSeq : Nat
  ventaSeq : Nat
  deriving DecidableEq, Repr

/-- The statements the services send, as far as the store can reject them. -/
inductive Stmt where
  | selectProducto (id : Nat)
  | insertProducto
  | insertMovimiento (productoId : Nat)
  | updateProducto (id : Nat)
  | deleteProducto (id : Nat)
  | insertVenta (productoId : Nat)
  deriving DecidableEq, Repr

/-- What the store does with a statement: `none` when it executes it, `some e`
when `query` rejects with the error `e` (constraint violation, lost
connection). Acquiring a client and `BEGIN`, `COMMIT`, `ROLLBACK` are taken
to succeed. -/
abbrev Faults := Stmt → Option ErrorObject

/-- A store that executes every statement. -/
def noFaults : Faults := fun _ => none

/-- The method `ProductService.obtenerProductoPorId`: it reads the committed
rows through the pool and returns `null` when the query fails. -/
def obtenerProductoPorId (faults : Faults) (db : Db) (id : Nat) : Option Producto :=
  match faults (.selectProducto id) with
  | some _ => none
  | none => db.productos.find? (fun p => p.id == id)

/-- The result `{ success: false, error: error.message }` of a `catch` block. -/
def failureOf (error : ErrorObject) : Payload :=
  [("success", .bool false), ("error", error.message)]

/-- The object thrown by `throw new Error(message)`. -/
def plainError (message : String) : ErrorObject :=
  createError "Error" (.str message)

/-! ## Stock ledger (`services/ProductService.js`) -/

/-- The argument of `agregarProducto`, as far as it decides the tracked
columns: `stock` is absent or an integer number. -/
structure ProductoData where
  nombre : JsVal
  categoria_id : JsVal
  stock : Option Int
  deriving DecidableEq, Repr

/-- The check `!nombre?.trim()` followed by `nombre.trim()`: the trimmed name,
or the error thrown. -/
def nombreRequerido (nombre : JsVal) : Except ErrorObject String :=
  match nombre with
  | .undefined => .error (plainError "El nombre del producto es requerido")
  | .null => .error (plainError "El nombre del producto es requerido")
  | .str s =>
    if jsTrim s = "" then .error (plainError "El nombre del producto es requerido")
    else .ok (jsTrim s)
  | _ => .error (createError "TypeError" (.str "nombre?.trim is not a function"))

/-- The body of the `try` block of `agregarProducto`, run against the
committed rows: the new contents to commit and the new id, or the error
thrown. -/
def agregarProductoTry (faults : Faults) (db : Db) (data : ProductoData) :
    Except ErrorObject (Db × Nat) :=
  match nombreRequerido data.nombre with
  | .error e => .error e
  | .ok nombre =>
    if !data.categoria_id.truthy then .error (plainError "La categoría es requerida")
    else
      match faults .insertProducto with
      | some e => .error e
      | none =>
        let id := db.productoSeq + 1
        let fila : Producto := ⟨id, some nombre, data.stock.getD 0⟩
        if data.stock.getD 0 > 0 then
          match faults (.insertMovimiento id) with
          | some e => .error e
          | none =>
            .ok ({ db with
              productos := db.productos ++ [fila]
              movimientos := db.movimientos ++
                [⟨id, .entrada, data.stock.getD 0, 0, data.stock.getD 0, "Stock inicial"⟩]
              productoSeq := id }, id)
        else
          .ok ({ db with productos := db.productos ++ [fila], productoSeq := id }, id)

/-- Whether `agregarProducto` got as far as a successful `INSERT INTO
productos`, which draws an id from the sequence even if the transaction is
rolled back afterwards. -/
def agregarProductoDrawsId (faults : Faults) (data : ProductoData) : Bool :=
  match nombreRequerido data.nombre with
  | .error _ => false
  | .ok _ => data.categoria_id.truthy && (faults .insertProducto).isNone

/-- The method `ProductService.agregarProducto`: commit on success, roll back
and report `{ success: false, error }` on any error. -/
def agregarProducto (faults : Faults) (db : Db) (data : ProductoData) : Db × Payload :=
  match agregarProductoTry faults db data with
  | .ok (db', id) => (db', [("success", .bool true), ("id", .num id)])
  | .error e =>
    ({ db with productoSeq :=
        if agregarProductoDrawsId faults data then db.productoSeq + 1 else db.productoSeq },
      failureOf e)

/-- The keys of `allowedFields` in `actualizarProducto`. -/
def allowedFields : List String :=
  ["nombre", "descripcion", "stock", "cantidad", "precio_usd", "precio_cup", "oprecio_cup",
   "pxg_cup", "extracciones", "defectuosos", "categoria_id", "subcategoria_id"]

/-- Property names every object literal inherits: `allowedFields[key]` is truthy
for them although they are no allowed field, and has no `validate`. -/
def inheritedKeys : List String :=
  ["constructor", "__proto__", "hasOwnProperty", "isPrototypeOf", "propertyIsEnumerable",
   "toLocaleString", "toString", "valueOf", "__defineGetter__", "__defineSetter__",
   "__lookupGetter__", "__lookupSetter__"]

/-- The `validate` of `stock`, `extracciones` and `defectuosos`:
`parseInt(v) >= 0 ? parseInt(v) : 0`, as the integer read. The number handed
to the `UPDATE` is the double of this integer (`validateNonNegIntNumber`), the
same integer up to `2 ^ 53`, which is beyond what an integer column holds. -/
def validateNonNegInt (v : JsVal) : Int :=
  match parseInt v with
  | some n => if n ≥ 0 then n else 0
  | none => 0

/-- The `validate` of `nombre`: `v?.trim()`. The result is `none` for
`undefined`, which is written as SQL `NULL`. -/
def validateNombre (v : JsVal) : Except ErrorObject (Option String) :=
  match v with
  | .undefined => .ok none
  | .null => .ok none
  | .str s => .ok (some (jsTrim s))
  | _ => .error (createError "TypeError" (.str "v?.trim is not a function"))

/-- What the loop over `Object.entries(updateData)` has gathered: the columns
pushed to `fields`, the values bound for `stock` and `nombre`, and the
movements inserted inside the transaction. -/
structure UpdateAcc where
  fields : List String
  stock : Option Int
  nombre : Option (Option String)
  movimientos : List Movimiento
  deriving DecidableEq, Repr

/-- The movement inserted by `actualizarProducto` when the validated stock
differs from the current one. -/
def movimientoAjuste (id : Nat) (actual nuevo : Int) : Movimiento :=
  { producto_id := id
    tipo_movimiento := if nuevo - actual > 0 then .entrada else .salida
    cantidad := |nuevo - actual|
    stock_anterior := actual
    stock_nuevo := nuevo
    motivo := "Ajuste manual" }

/-- One iteration of the loop over `Object.entries(updateData)`. -/
def procesarCampo (faults : Faults) (id : Nat) (currentProduct : Producto) (acc : UpdateAcc)
    (key : String) (value : JsVal) : Except ErrorObject UpdateAcc :=
  if key = "stock" then
    let validatedValue := validateNonNegInt value
    let acc := { acc with fields := acc.fields ++ ["stock"], stock := some validatedValue }
    if validatedValue ≠ currentProduct.stock then
      match faults (.insertMovimiento id) with
      | some e => .error e
      | none => .ok { acc with movimientos :=
          acc.movimientos ++ [movimientoAjuste id currentProduct.stock validatedValue] }
    else .ok acc
  else if key = "nombre" then
    match validateNombre value with
    | .error e => .error e
    | .ok validatedValue =>
      .ok { acc with fields := acc.fields ++ ["nombre"], nombre := some validatedValue }
  else if key = "descripcion" then
    match validateNombre value with
    | .error e => .error e
    | .ok _ => .ok { acc with fields := acc.fields ++ ["descripcion"] }
  else if key ∈ allowedFields then
    .ok { acc with fields := acc.fields ++ [key] }
  else if key ∈ inheritedKeys then
    .error (createError "TypeError" (.str "fieldConfig.validate is not a function"))
  else .ok acc

/-- The loop over `Object.entries(updateData)`. -/
def procesarCampos (faults : Faults) (id : Nat) (currentProduct : Producto) :
    List (String × JsVal) → UpdateAcc → Except ErrorObject UpdateAcc
  | [], acc => .ok acc
  | (key, value) :: rest, acc =>
    match procesarCampo faults id currentProduct acc key value with
    | .error e => .error e
    | .ok acc' => procesarCampos faults id currentProduct rest acc'

/-- The error of the store for an `UPDATE` whose `SET` list names a column
twice. -/
def multipleAssignments : ErrorObject :=
  { name := .str "error"
    message := .str "multiple assignments to same column"
    code := .str "42601"
    validationErrors := .undefined }

/-- The statement `UPDATE productos SET ... WHERE id = $n` on the tracked
columns of one row. -/
def aplicarUpdate (acc : UpdateAcc) (id : Nat) (p : Producto) : Producto :=
  if p.id = id then
    { p with stock := acc.stock.getD p.stock, nombre := acc.nombre.getD p.nombre }
  else p

/-- The body of the `try` block of `actualizarProducto`: the contents to
commit, or the error thrown. -/
def actualizarProductoTry (faults : Faults) (db : Db) (id : Nat) (updateData : Payload) :
    Except ErrorObject Db :=
  if id = 0 then .error (plainError "ID de producto requerido")
  else
    match obtenerProductoPorId faults db id with
    | none => .error (plainError "Producto no encontrado")
    | some currentProduct =>
      match procesarCampos faults id currentProduct updateData ⟨[], none, none, []⟩ with
      | .error e => .error e
      | .ok acc =>
        if acc.fields.length = 0 then
          .error (plainError "No hay campos válidos para actualizar")
        else
          match faults (.updateProducto id) with
          | some e => .error e
          | none =>
            if ¬ acc.fields.Nodup then .error multipleAssignments
            else
              .ok { db with
                productos := db.productos.map (aplicarUpdate acc id)
                movimientos := db.movimientos ++ acc.movimientos }

/-- The method `ProductService.actualizarProducto` called with
`{ id, ...updateData }`: it runs in a transaction of its own client, commits
on success, and on any error rolls back and reports `{ success: false, error }`. -/
def actualizarProducto (faults : Faults) (db : Db) (id : Nat) (updateData : Payload) :
    Db × Payload :=
  match actualizarProductoTry faults db id updateData with
  | .ok db' => (db', [("success", .bool true)])
  | .error e => (db, failureOf e)

/-- The statement `DELETE FROM productos WHERE id = $1` with the check of
`rowCount`, followed by `COMMIT` of the deletion and of the closing movement
`cierre` inserted before it (if any). -/
def borrarFila (faults : Faults) (db : Db) (id : Nat) (cierre : List Movimiento) :
    Except ErrorObject Db :=
  match faults (.deleteProducto id) with
  | some e => .error e
  | none =>
    if (db.productos.filter (fun p => p.id == id)).length = 0 then
      .error (plainError "No se pudo eliminar el producto")
    else
      .ok { db with
        productos := db.productos.filter (fun p => p.id != id)
        movimientos := db.movimientos ++ cierre }

/-- The body of the `try` block of `eliminarProducto`. -/
def eliminarProductoTry (faults : Faults) (db : Db) (id : Nat) : Except ErrorObject Db :=
  if id = 0 then .error (plainError "ID de producto requerido")
  else
    match obtenerProductoPorId faults db id with
    | none => .error (plainError "Producto no encontrado")
    | some producto =>
      if producto.stock > 0 then
        match faults (.insertMovimiento id) with
        | some e => .error e
        | none =>
          borrarFila faults db id
            [⟨id, .salida, producto.stock, producto.stock, 0, "Producto eliminado"⟩]
      else borrarFila faults db id []

/-- The method `ProductService.eliminarProducto`. -/
def eliminarProducto (faults : Faults) (db : Db) (id : Nat) : Db × Payload :=
  match eliminarProductoTry faults db id with
  | .ok db' => (db', [("success", .bool true)])
  | .error e => (db, failureOf e)

/-! ## Sale coordinator (`SalesService.registrarVenta`) -/

/-- One element of `data.productos`; the three values are integer numbers. -/
structure LineItem where
  productoId : Int
  cantidad : Int
  precioUnitario : Int
  deriving DecidableEq, Repr

/-- The argument of `registrarVenta`. `descuentoTotal` is `none` when the
property is missing; `usuarioId` is an integer number. -/
structure VentaData where
  productos : List LineItem
  metodoPago : JsVal
  descuentoTotal : Option Int
  usuarioId : Int
  deriving DecidableEq, Repr

/-- The validator `Validators.number(value, fieldName, min)` on an integer
number, which is neither NaN nor infinite; `min` is `none` for the default
`-Infinity`, and the default `max` is `Infinity`. -/
def Validators.number (value : Int) (fieldName : String) (min : Option Int) :
    Except ErrorObject Int :=
  match min with
  | some m =>
    if value < m then
      .error (plainError (fieldName ++ " debe ser mayor o igual a " ++ toString m))
    else .ok value
  | none => .ok value

/-- The validator `Validators.integer(value, fieldName, min)` on an integer
number: the test `Number.isInteger` passes. -/
def Validators.integer (value : Int) (fieldName : String) (min : Option Int) :
    Except ErrorObject Int :=
  Validators.number value fieldName min

/-- The validator `Validators.id(value, fieldName)`. -/
def Validators.id (value : Int) (fieldName : String) : Except ErrorObject Int :=
  Validators.integer value fieldName (some 1)

/-- The validator `Validators.positiveNumber(value, fieldName, true)` on an
integer number. -/
def Validators.positiveNumber (value : Int) (fieldName : String) : Except ErrorObject Int :=
  match Validators.number value fieldName none with
  | .error e => .error e
  | .ok numValue =>
    if numValue < 0 then
      .error (plainError (fieldName ++ " No puede ser un número negativo"))
    else .ok numValue

/-- The values validated before the loop over the lines. -/
structure Cabecera where
  usuarioId : Int
  metodoPago : JsVal
  descuento : Int
  deriving DecidableEq, Repr

/-- The validations of `registrarVenta` that precede the loop. -/
def validarCabecera (data : VentaData) : Except ErrorObject Cabecera :=
  if data.productos.length = 0 then
    .error (createValidationError (.str "Se requiere al menos un producto para la venta"))
  else if data.usuarioId = 0 then
    .error (createValidationError (.str "ID de usuario requerido"))
  else
    match Validators.id data.usuarioId "Usuario" with
    | .error e => .error e
    | .ok validatedUserId =>
      match Validators.positiveNumber (data.descuentoTotal.getD 0) "Descuento" with
      | .error e => .error e
      | .ok validatedDescuento =>
        .ok ⟨validatedUserId, data.metodoPago.or (.str "efectivo"), validatedDescuento⟩

/-- An element of the returned `ventaItems`. -/
structure VentaItem where
  ventaId : Nat
  productoId : Nat
  nombreProducto : Option String
  cantidad : Int
  precioUnitario : Int
  subtotal : Int
  deriving DecidableEq, Repr

/-- The state of the loop of `registrarVenta`: the committed contents of the
database (which the stock updates change), the sale rows inserted inside the
open transaction of the sale, and the local variables. -/
structure VentaAcc where
  db : Db
  pendientes : List Venta
  ventaItems : List VentaItem
  totalVenta : Int
  deriving DecidableEq, Repr

/-- The text of a product name inside a template string. -/
def nombreTexto (nombre : Option String) : String := nombre.getD "null"

/-- One iteration of the loop of `registrarVenta`. The sale row is inserted
through the client of the sale; the stock is then changed by
`ProductService.actualizarProducto`, which opens and commits a transaction of
its own and whose result is not inspected. -/
def procesarItem (faults : Faults) (cab : Cabecera) (acc : VentaAcc) (item : LineItem) :
    Except ErrorObject VentaAcc :=
  match Validators.id item.productoId "Producto ID" with
  | .error e => .error e
  | .ok validatedProductoId =>
  match Validators.integer item.cantidad "Cantidad" (some 1) with
  | .error e => .error e
  | .ok validatedCantidad =>
  match Validators.positiveNumber item.precioUnitario "Precio unitario" with
  | .error e => .error e
  | .ok validatedPrecio =>
  match obtenerProductoPorId faults acc.db validatedProductoId.toNat with
  | none => .error (createBusinessError (.str
      ("Producto con ID " ++ toString validatedProductoId ++ " no encontrado")))
  | some producto =>
    if producto.stock < validatedCantidad then
      .error (createBusinessError (.str
        ("Stock insuficiente para " ++ nombreTexto producto.nombre ++ ". Stock disponible: "
          ++ toString producto.stock ++ ", solicitado: " ++ toString validatedCantidad)))
    else
      let subtotal := validatedCantidad * validatedPrecio
      match faults (.insertVenta validatedProductoId.toNat) with
      | some e => .error e
      | none =>
        let ventaId := acc.db.ventaSeq + 1
        let fila : Venta :=
          ⟨ventaId, validatedProductoId.toNat, validatedCantidad, validatedPrecio, subtotal,
            cab.metodoPago, cab.usuarioId, cab.descuento⟩
        let db := (actualizarProducto faults { acc.db with ventaSeq := ventaId }
          validatedProductoId.toNat [("stock", .num (producto.stock - validatedCantidad))]).1
        .ok { db := db
              pendientes := acc.pendientes ++ [fila]
              ventaItems := acc.ventaItems ++
                [⟨ventaId, validatedProductoId.toNat, producto.nombre, validatedCantidad,
                  validatedPrecio, subtotal⟩]
              totalVenta := acc.totalVenta + subtotal }

/-- The loop `for (const item of productos)`: the state reached, and the error
thrown by the first failing line if there is one. -/
def procesarItems (faults : Faults) (cab : Cabecera) :
    List LineItem → VentaAcc → VentaAcc × Option ErrorObject
  | [], acc => (acc, none)
  | item :: rest, acc =>
    match procesarItem faults cab acc item with
    | .error e => (acc, some e)
    | .ok acc' => procesarItems faults cab rest acc'

/-- What `registrarVenta` resolves to: the success object, or the response of
`ErrorHandler.handle`. -/
inductive VentaResult where
  | success (ventaItems : List VentaItem) (total totalSinDescuento descuento : Int)
  | failure (response : Payload)
  deriving DecidableEq, Repr

/-- The method `SalesService.registrarVenta`: the committed contents of the
database afterwards, and the value resolved (`ok`) or the rejection
(`error`, when `ErrorHandler.handle` itself throws). `COMMIT` appends the
pending sale rows; `ROLLBACK` drops them and nothing else, the stock updates
having been committed by their own transactions. -/
def registrarVenta (env : Env) (faults : Faults) (db : Db) (data : VentaData) :
    Db × Except Thrown VentaResult :=
  match validarCabecera data with
  | .error e => (db, (handle env (.error e)).map .failure)
  | .ok cab =>
    match procesarItems faults cab data.productos ⟨db, [], [], 0⟩ with
    | (acc, some e) => (acc.db, (handle env (.error e)).map .failure)
    | (acc, none) =>
      ({ acc.db with ventas := acc.db.ventas ++ acc.pendientes },
        .ok (.success acc.ventaItems (acc.totalVenta - cab.descuento) acc.totalVenta
          cab.descuento))

/-! ## Sale coordinator on numbers (`SalesService.registrarVenta`)

The coordinator once more, with the values of a sale as the engine has them:
any value may arrive in a line, and quantities, prices and totals are doubles. -/

namespace Doble

/-- A value that is not a string: what
`typeof value === 'string' ? parseFloat(value) : value` leaves. -/
inductive NumValue where
  | undefined
  | null
  | bool (b : Bool)
  | number (x : Double)
  | object
  deriving DecidableEq, Repr

/-- The expression `typeof value === 'string' ? parseFloat(value) : value`. -/
def numValue (value : JsVal) : NumValue :=
  match value with
  | .str s => .number (parseFloat (.str s))
  | .num n => .number (Double.ofInt n)
  | .double x => .number x
  | .undefined => .undefined
  | .null => .null
  | .bool b => .bool b
  | .object => .object

/-- The conversion `ToNumber` of a value that is not a string, applied by
`isNaN`, `isFinite`, the comparisons and the arithmetic operators. -/
def NumValue.toNumber : NumValue → Double
  | .undefined => .nan
  | .null => .fin 0 1
  | .bool true => .fin 1 1
  | .bool false => .fin 0 1
  | .number x => x
  | .object => .nan

/-- The validator `Validators.number(value, fieldName, min, max)`; the
defaults of `min` and `max` are the two infinities. -/
def Validators.number (value : JsVal) (fieldName : String) (min max : Double) :
    Except ErrorObject NumValue :=
  if (numValue value).toNumber.isNaN ∨ ¬ (numValue value).toNumber.isFinite then
    .error (plainError (fieldName ++ " Debe ser un número válido"))
  else if (numValue value).toNumber.lt min then
    .error (plainError (fieldName ++ " debe ser mayor o igual a " ++ Double.toString min))
  else if max.lt (numValue value).toNumber then
    .error (plainError (fieldName ++ " debe ser menor o igual a " ++ Double.toString max))
  else .ok (numValue value)

/-- The validator `Validators.integer(value, fieldName, min, max)`: only a
number passes the test `Number.isInteger`. -/
def Validators.integer (value : JsVal) (fieldName : String) (min max : Double) :
    Except ErrorObject Double :=
  match Validators.number value fieldName min max with
  | .error e => .error e
  | .ok (.number x) =>
    if x.isInteger then .ok x
    else .error (plainError (fieldName ++ " debe ser un número entero"))
  | .ok _ => .error (plainError (fieldName ++ " debe ser un número entero"))

/-- The validator `Validators.id(value, fieldName)`. -/
def Validators.id (value : JsVal) (fieldName : String) : Except ErrorObject Double :=
  Validators.integer value fieldName (Double.ofInt 1) (.inf false)

/-- The validator `Validators.positiveNumber(value, fieldName, true)`. -/
def Validators.positiveNumber (value : JsVal) (fieldName : String) :
    Except ErrorObject NumValue :=
  match Validators.number value fieldName (.inf true) (.inf false) with
  | .error e => .error e
  | .ok numValue =>
    if numValue.toNumber.lt (Double.ofInt 0) then
      .error (plainError (fieldName ++ " No puede ser un número negativo"))
    else .ok numValue

/-- One element of `data.productos`; a property that is missing is
`undefined`. -/
structure LineItem where
  productoId : JsVal
  cantidad : JsVal
  precioUnitario : JsVal
  deriving DecidableEq, Repr

/-- The argument of `registrarVenta`, with `productos` an array. -/
structure VentaData where
  productos : List LineItem
  metodoPago : JsVal
  descuentoTotal : JsVal
  usuarioId : JsVal
  deriving DecidableEq, Repr

/-- The values validated before the loop over the lines. -/
structure Cabecera where
  usuarioId : Double
  metodoPago : JsVal
  descuento : NumValue
  deriving DecidableEq, Repr

/-- The validations of `registrarVenta` that precede the loop. -/
def validarCabecera (data : VentaData) : Except ErrorObject Cabecera :=
  if data.productos.length = 0 then
    .error (createValidationError (.str "Se requiere al menos un producto para la venta"))
  else if ¬ data.usuarioId.truthy then
    .error (createValidationError (.str "ID de usuario requerido"))
  else
    match Validators.id data.usuarioId "Usuario" with
    | .error e => .error e
    | .ok validatedUserId =>
      match Validators.positiveNumber (data.descuentoTotal.or (.num 0)) "Descuento" with
      | .error e => .error e
      | .ok validatedDescuento =>
        .ok ⟨validatedUserId, data.metodoPago.or (.str "efectivo"), validatedDescuento⟩

/-- The parameters of one `INSERT INTO ventas`, with the id the row gets. -/
structure Venta where
  id : Nat
  producto_id : Double
  cantidad : Double
  precio_unitario : NumValue
  precio_total : Double
  metodo_pago : JsVal
  usuario_id : Double
  descuento : NumValue
  deriving DecidableEq, Repr

/-- An element of the returned `ventaItems`. -/
structure VentaItem where
  ventaId : Nat
  productoId : Double
  nombreProducto : Option String
  cantidad : Double
  precioUnitario : NumValue
  subtotal : Double
  deriving DecidableEq, Repr

/-- The state of the loop of `registrarVenta`: the committed contents of the
database (which the stock updates change), the sale rows inserted inside the
open transaction of the sale, and the local variables. -/
structure VentaAcc where
  db : Db
  pendientes : List Venta
  ventaItems : List VentaItem
  totalVenta : Double
  deriving DecidableEq, Repr

/-- One iteration of the loop of `registrarVenta`. The stock read from the
database is an integer number; the stock handed to
`ProductService.actualizarProducto` is the difference `producto.stock -
validatedCantidad` of two numbers. -/
def procesarItem (faults : Faults) (cab : Cabecera) (acc : VentaAcc) (item : LineItem) :
    Except ErrorObject VentaAcc :=
  match Validators.id item.productoId "Producto ID" with
  | .error e => .error e
  | .ok validatedProductoId =>
  match Validators.integer item.cantidad "Cantidad" (Double.ofInt 1) (.inf false) with
  | .error e => .error e
  | .ok validatedCantidad =>
  match Validators.positiveNumber item.precioUnitario "Precio unitario" with
  | .error e => .error e
  | .ok validatedPrecio =>
  match obtenerProductoPorId faults acc.db validatedProductoId.trunc.toNat with
  | none => .error (createBusinessError (.str
      ("Producto con ID " ++ Double.toString validatedProductoId ++ " no encontrado")))
  | some producto =>
    if (Double.ofInt producto.stock).lt validatedCantidad then
      .error (createBusinessError (.str
        ("Stock insuficiente para " ++ nombreTexto producto.nombre ++ ". Stock disponible: "
          ++ (JsVal.num producto.stock).toStr ++ ", solicitado: "
          ++ Double.toString validatedCantidad)))
    else
      let subtotal := validatedCantidad.mul validatedPrecio.toNumber
      match faults (.insertVenta validatedProductoId.trunc.toNat) with
      | some e => .error e
      | none =>
        let ventaId := acc.db.ventaSeq + 1
        let fila : Venta :=
          ⟨ventaId, validatedProductoId, validatedCantidad, validatedPrecio, subtotal,
            cab.metodoPago, cab.usuarioId, cab.descuento⟩
        let db := (actualizarProducto faults { acc.db with ventaSeq := ventaId }
          validatedProductoId.trunc.toNat
          [("stock", .double ((Double.ofInt producto.stock).sub validatedCantidad))]).1
        .ok { db := db
              pendientes := acc.pendientes ++ [fila]
              ventaItems := acc.ventaItems ++
                [⟨ventaId, validatedProductoId, producto.nombre, validatedCantidad,
                  validatedPrecio, subtotal⟩]
              totalVenta := acc.totalVenta.add subtotal }

/-- The loop `for (const item of productos)`: the state reached, and the error
thrown by the first failing line if there is one. -/
def procesarItems (faults : Faults) (cab : Cabecera) :
    List LineItem → VentaAcc → VentaAcc × Option ErrorObject
  | [], acc => (acc, none)
  | item :: rest, acc =>
    match procesarItem faults cab acc item with
    | .error e => (acc, some e)
    | .ok acc' => procesarItems faults cab rest acc'

/-- What `registrarVenta` resolves to: the success object, or the response of
`ErrorHandler.handle`. -/
inductive VentaResult where
  | success (ventaItems : List VentaItem) (total totalSinDescuento : Double)
      (descuento : NumValue)
  | failure (response : Payload)
  deriving DecidableEq, Repr

/-- The method `SalesService.registrarVenta`: the committed contents of the
tables of products and movements afterwards, the rows of `ventas` the call
commits, and the value resolved (`ok`) or the rejection (`error`, when
`ErrorHandler.handle` itself throws). `ROLLBACK` drops the pending sale rows
and nothing else, the stock updates having been committed by their own
transactions. -/
def registrarVenta (env : Env) (faults : Faults) (db : Db) (data : VentaData) :
    Db × List Venta × Except Thrown VentaResult :=
  match validarCabecera data with
  | .error e => (db, [], (handle env (.error e)).map .failure)
  | .ok cab =>
    match procesarItems faults cab data.productos ⟨db, [], [], Double.ofInt 0⟩ with
    | (acc, some e) => (acc.db, [], (handle env (.error e)).map .failure)
    | (acc, none) =>
      (acc.db, acc.pendientes,
        .ok (.success acc.ventaItems (acc.totalVenta.sub cab.descuento.toNumber)
          acc.totalVenta cab.descuento))

/-- The sum of the subtotals of the lines as the loop computes it: from the
number 0, each product `cantidad * precioUnitario` is rounded to a double and
added to the running total, which is rounded again, in the order of the
lines. -/
def sumaSubtotales (productos : List LineItem) : Double :=
  productos.foldl
    (fun total item =>
      total.add ((numValue item.cantidad).toNumber.mul (numValue item.precioUnitario).toNumber))
    (Double.ofInt 0)

end Doble

/-! ## Session registry (`services/AuthService.js`) -/

/-- A row of `usuarios`, as read by the session query. -/
structure Usuario where
  id : Nat
  username : String
  rol : String
  deriving DecidableEq, Repr

/-- A row of `sesiones`. Times are instants on the clock of the database. -/
structure Sesion where
  usuario_id : Nat
  token : String
  activa : Bool
  fecha_expiracion : Nat
  deriving DecidableEq, Repr

/-- The value stored in the map `sesionesActivas` under a token. -/
structure SesionActiva where
  id : Nat
  username : String
  rol : String
  timestamp : Nat
  deriving DecidableEq, Repr

/-- The state of the session registry: the in-memory map `sesionesActivas`
(keyed by token) and the durable tables. -/
structure AuthState where
  sesionesActivas : List (String × SesionActiva)
  sesiones : List Sesion
  usuarios : List Usuario
  deriving DecidableEq, Repr

/-- The method `sesionesActivas.has(token)`: the keys of the map are strings. -/
def enIndice (st : AuthState) (token : JsVal) : Bool :=
  match token with
  | .str t => st.sesionesActivas.any (fun kv => kv.1 == t)
  | _ => false

/-- The method `sesionesActivas.delete(token)`. -/
def borrarDeIndice (st : AuthState) (token : JsVal) : AuthState :=
  match token with
  | .str t => { st with sesionesActivas := st.sesionesActivas.filter (fun kv => kv.1 != t) }
  | _ => st

/-- The rows of `SELECT s.*, u.username, u.rol FROM sesiones s JOIN usuarios u
ON s.usuario_id = u.id WHERE s.token = $1 AND s.activa = true AND
s.fecha_expiracion > NOW()`. -/
def consultaSesion (st : AuthState) (now : Nat) (token : String) : List (Sesion × Usuario) :=
  (st.sesiones.filter
      (fun s => s.token == token && s.activa && decide (s.fecha_expiracion > now))).flatMap
    (fun s => (st.usuarios.filter (fun u => u.id == s.usuario_id)).map (fun u => (s, u)))

/-- The method `AuthService.validarSesion`. `queryFault` is `some e` when the
session query rejects with `e`; `now` is the reading of `NOW()`. -/
def validarSesion (queryFault : Option ErrorObject) (st : AuthState) (now : Nat)
    (token : JsVal) : AuthState × SessionResult :=
  if !token.truthy || !enIndice st token then
    (st, ⟨.bool false, .str "Sesión inválida", none⟩)
  else
    match queryFault with
    | some e => (st, ⟨.bool false, e.message, none⟩)
    | none =>
      match consultaSesion st now token.toStr with
      | [] => (borrarDeIndice st token, ⟨.bool false, .str "Sesión expirada", none⟩)
      | (sesion, u) :: _ =>
        (st, ⟨.bool true, .undefined,
          some ⟨.num sesion.usuario_id, .str u.username, .str u.rol⟩⟩)

/-- The registry is well formed when no key of the in-memory map is the empty
string (login stores generated tokens only) and every session row refers to
an existing user (the foreign key of `sesiones.usuario_id`). -/
def AuthState.wellFormed (st : AuthState) : Bool :=
  st.sesionesActivas.all (fun kv => kv.1 != "") &&
    st.sesiones.all (fun s => st.usuarios.any (fun u => u.id == s.usuario_id))

/-! ## Sequences of ledger operations -/

/-- One call of the stock ledger. -/
inductive Op where
  | agregar (data : ProductoData)
  | actualizar (id : Nat) (updateData : Payload)
  | eliminar (id : Nat)
  deriving DecidableEq, Repr

/-- The committed contents after one call, made while the store behaves as
`faults` says. -/
def Op.run (faults : Faults) (db : Db) : Op → Db
  | .agregar data => (agregarProducto faults db data).1
  | .actualizar id updateData => (actualizarProducto faults db id updateData).1
  | .eliminar id => (eliminarProducto faults db id).1

/-- The committed contents after a sequence of calls, each with the behaviour
of the store during that call. -/
def runOps : List (Faults × Op) → Db → Db
  | [], db => db
  | (faults, op) :: rest, db => runOps rest (op.run faults db)

/-- The empty database. -/
def Db.vacia : Db := ⟨[], [], [], 0, 0⟩

/-- The signed quantity of a movement: an entry counts positive, an exit
negative. No service writes an adjustment; it counts as zero. -/
def Movimiento.conSigno (m : Movimiento) : Int :=
  match m.tipo_movimiento with
  | .entrada => m.cantidad
  | .salida => -m.cantidad
  | .ajuste => 0


/-- The movements one entry of the patch inserts: one for a `stock` entry whose
validated value differs from the current stock, none otherwise. -/
def movimientosDeCampo (id : Nat) (actual : Int) (kv : String × JsVal) : List Movimiento :=
  if kv.1 = "stock" ∧ validateNonNegInt kv.2 ≠ actual then
    [movimientoAjuste id actual (validateNonNegInt kv.2)]
  else []

/-- The value bound for `stock` after one entry of the patch. -/
def stockDeCampo (previo : Option Int) (kv : String × JsVal) : Option Int :=
  if kv.1 = "stock" then some (validateNonNegInt kv.2) else previo

/-- The sum of the signed quantities of the movements of a list that are
recorded for a product. -/
def saldoLista (ms : List Movimiento) (id : Nat) : Int :=
  ((ms.filter (fun m => m.producto_id == id)).map Movimiento.conSigno).sum

/-- The stock a list of product rows holds for an id: the stock of the row with
that id, zero when there is none. -/
def stockEnLista (ps : List Producto) (id : Nat) : Int :=
  match ps.find? (fun p => p.id == id) with
  | some p => p.stock
  | none => 0

/-- The sum of the signed quantities of the movements recorded for a product. -/
def saldoMovimientos (db : Db) (id : Nat) : Int := saldoLista db.movimientos id

/-- The ledger invariant: ids come from the sequence and are not repeated, no
stock is negative, and for every id the signed movements add up to the stock on
record (zero once the product is deleted). -/
structure LedgerInv (db : Db) : Prop where
  ids_le : ∀ p ∈ db.productos, p.id ≤ db.productoSeq
  movs_le : ∀ m ∈ db.movimientos, m.producto_id ≤ db.productoSeq
  nodup : (db.productos.map (fun p => p.id)).Nodup
  nonneg : ∀ p ∈ db.productos, 0 ≤ p.stock
  saldo : ∀ id, saldoLista db.movimientos id = stockEnLista db.productos id

/-- The stocks passed to the `agregarProducto` calls of a sequence are not
negative. -/
def altasNoNegativas (ops : List (Faults × Op)) : Bool :=
  ops.all (fun fo =>
    match fo.2 with
    | .agregar data => decide (0 ≤ data.stock.getD 0)
    | _ => true)

/-! ## Session registry: login, logout and the sweep -/

/-- A hexadecimal digit in lower case, as `toString('hex')` writes it. -/
def hexDigit (n : Nat) : Char :=
  if n < 10 then Char.ofNat (48 + n) else Char.ofNat (87 + n)

/-- The two hexadecimal digits of a byte. -/
def hexByte (b : Fin 256) : List Char := [hexDigit (b.val / 16), hexDigit (b.val % 16)]

/-- The method `buffer.toString('hex')`. -/
def toHex (bytes : List (Fin 256)) : String := String.mk (bytes.flatMap hexByte)

/-- The method `AuthService.generarToken`: `crypto.randomBytes(32).toString('hex')`,
where `randomBytes` gives the 32 bytes drawn. -/
def generarToken (randomBytes : Fin 32 → Fin 256) : String := toHex (List.ofFn randomBytes)

/-- What surrounds one call of `login`. `verifica u password` tells whether the
row `u` of `usuarios` passes `password_hash = crypt($2, password_hash)`;
`selectFault` and `insertFault` are `some e` when the store rejects the
`SELECT` or the `INSERT INTO sesiones` with `e`; `randomBytes` is what
`crypto.randomBytes(32)` draws; `dateNow` is the reading of `Date.now()`;
`activaDefault` and `expiracionDefault` are the values the store gives to the
columns `activa` and `fecha_expiracion`, which the `INSERT` does not name. -/
structure LoginEnv where
  verifica : Usuario → String → Bool
  selectFault : Option ErrorObject
  insertFault : Option ErrorObject
  randomBytes : Fin 32 → Fin 256
  dateNow : Nat
  activaDefault : Bool
  expiracionDefault : Nat

/-- What `login` resolves to: `{ success: true, user, token, rol }` or
`{ success: false, error }`. -/
inductive LoginResult where
  | success (user : Usuario) (token : String) (rol : String)
  | failure (error : String)
  deriving DecidableEq, Repr

/-- The method `sesionesActivas.set(token, value)`: the value of an existing key
is replaced, a new key is added at the end. -/
def ponerEnIndice (indice : List (String × SesionActiva)) (token : String)
    (value : SesionActiva) : List (String × SesionActiva) :=
  if indice.any (fun kv => kv.1 == token) then
    indice.map (fun kv => if kv.1 = token then (token, value) else kv)
  else indice ++ [(token, value)]

/-- The rows of `SELECT id, username, rol FROM usuarios WHERE username = $1 AND
password_hash = crypt($2, password_hash)`. -/
def consultaLogin (env : LoginEnv) (st : AuthState) (username password : String) :
    List Usuario :=
  st.usuarios.filter (fun u => u.username == username && env.verifica u password)

/-- The method `AuthService.login` called with two strings. -/
def login (env : LoginEnv) (st : AuthState) (username password : String) :
    AuthState × LoginResult :=
  match env.selectFault with
  | some _ => (st, .failure "Error interno del servidor")
  | none =>
    match consultaLogin env st username password with
    | [] => (st, .failure "Credenciales incorrectas")
    | user :: _ =>
      let token := generarToken env.randomBytes
      match env.insertFault with
      | some _ => (st, .failure "Error interno del servidor")
      | none =>
        ({ st with
            sesiones := st.sesiones ++
              [⟨user.id, token, env.activaDefault, env.expiracionDefault⟩]
            sesionesActivas := ponerEnIndice st.sesionesActivas token
              ⟨user.id, user.username, user.rol, env.dateNow⟩ },
          .success user token user.rol)

/-- The token as a value: `undefined` when it is missing. -/
def tokenVal (token : Option String) : JsVal :=
  match token with
  | some t => .str t
  | none => .undefined

/-- The statement `UPDATE sesiones SET activa = false WHERE token = $1` on one
row; a missing token is sent as `NULL` and matches no row. -/
def desactivar (token : Option String) (s : Sesion) : Sesion :=
  if some s.token = token then { s with activa := false } else s

/-- The method `AuthService.logout`, called with a string or with no token. -/
def logout (queryFault : Option ErrorObject) (st : AuthState) (token : Option String) :
    AuthState × Payload :=
  match queryFault with
  | some e => (st, failureOf e)
  | none =>
    (borrarDeIndice { st with sesiones := st.sesiones.map (desactivar token) } (tokenVal token),
      [("success", .bool true)])

/-- The body of the timer of `limpiarSesionesExpiradas`: `DELETE FROM sesiones
WHERE fecha_expiracion < NOW()`; a rejected statement is logged and nothing
changes. -/
def limpiarSesionesExpiradas (queryFault : Option ErrorObject) (st : AuthState) (now : Nat) :
    AuthState :=
  match queryFault with
  | some _ => st
  | none =>
    { st with sesiones := st.sesiones.filter (fun s => decide (¬ s.fecha_expiracion < now)) }

/-- A call on the registry other than `login`, with the behaviour of the store
during the call and the reading of the clock. -/
inductive AuthOp where
  | validarSesion (queryFault : Option ErrorObject) (now : Nat) (token : JsVal)
  | logout (queryFault : Option ErrorObject) (token : Option String)
  | limpiarSesionesExpiradas (queryFault : Option ErrorObject) (now : Nat)
  deriving DecidableEq, Repr

/-- The state of the registry after one call. -/
def AuthOp.run (st : AuthState) : AuthOp → AuthState
  | .validarSesion queryFault now token => (Inventario.validarSesion queryFault st now token).1
  | .logout queryFault token => (Inventario.logout queryFault st token).1
  | .limpiarSesionesExpiradas queryFault now =>
    Inventario.limpiarSesionesExpiradas queryFault st now

/-- The state of the registry after a sequence of calls. -/
def runAuthOps : List AuthOp → AuthState → AuthState
  | [], st => st
  | op :: rest, st => runAuthOps rest (op.run st)

/-- Whether the call is made at `now` or later; `logout` reads no clock. -/
def AuthOp.desde (now : Nat) : AuthOp → Bool
  | .validarSesion _ t _ => decide (now ≤ t)
  | .logout _ _ => true
  | .limpiarSesionesExpiradas _ t => decide (now ≤ t)

/-! ## Coercion of the numeric fields of a patch -/

/-- The `validate` of `stock`, `extracciones` and `defectuosos`:
`parseInt(v) >= 0 ? parseInt(v) : 0`, as the number handed to the `UPDATE`. -/
def validateNonNegIntNumber (v : JsVal) : Double :=
  if (parseIntNumber v).ge (Double.ofInt 0) then parseIntNumber v else Double.ofInt 0

/-- The `validate` of `cantidad`: `parseInt(v) >= 1 ? parseInt(v) : 1`. -/
def validateCantidad (v : JsVal) : Double :=
  if (parseIntNumber v).ge (Double.ofInt 1) then parseIntNumber v else Double.ofInt 1

/-- The `validate` of `precio_usd`, `precio_cup`, `oprecio_cup` and `pxg_cup`:
`parseFloat(v) >= 0 ? parseFloat(v) : 0`. -/
def validateNonNegFloat (v : JsVal) : Double :=
  if (parseFloat v).ge (Double.ofInt 0) then parseFloat v else Double.ofInt 0

/-- The `validate` entries of `allowedFields` for the numeric columns: the
number handed to the `UPDATE`; `none` for any other key. -/
def validateNumeric (key : String) (v : JsVal) : Option Double :=
  if key = "stock" ∨ key = "extracciones" ∨ key = "defectuosos" then
    some (validateNonNegIntNumber v)
  else if key = "cantidad" then some (validateCantidad v)
  else if key = "precio_usd" ∨ key = "precio_cup" ∨ key = "oprecio_cup" ∨ key = "pxg_cup" then
    some (validateNonNegFloat v)
  else none

/-- The numeric columns named by the coercion rule. -/
def numericFields : List String :=
  ["stock", "cantidad", "precio_usd", "precio_cup", "oprecio_cup", "pxg_cup", "extracciones",
   "defectuosos"]

/-! ## Rate limiter (`AuthMiddleware.createRateLimit`) -/

/-- The value kept in the map `requests` for a user. -/
structure RateEntry where
  count : Nat
  resetTime : Nat
  deriving DecidableEq, Repr

/-- The map `requests` of one limiter, from the id of a user to the entry; it is
only read and written by key. -/
abbrev RateState := Nat → Option RateEntry

/-- The map of a limiter that has not been called. -/
def RateState.vacio : RateState := fun _ => none

/-- The method `requests.set(userId, entry)`. -/
def RateState.set (st : RateState) (userId : Nat) (entry : RateEntry) : RateState :=
  fun k => if k = userId then some entry else st k

/-- The function returned by `createRateLimit(maxRequests, windowMs)`, called
for the user with the id `userId` when `Date.now()` reads `now`: the map
afterwards, and `true` or the error thrown. -/
def rateLimit (maxRequests windowMs : Nat) (st : RateState) (now userId : Nat) :
    RateState × Except ErrorObject Bool :=
  match st userId with
  | none => (st.set userId ⟨1, now + windowMs⟩, .ok true)
  | some userRequests =>
    if now > userRequests.resetTime then
      (st.set userId ⟨1, now + windowMs⟩, .ok true)
    else if userRequests.count ≥ maxRequests then
      (st, .error (createAuthorizationError (.str "Límite de peticiones excedido")))
    else
      (st.set userId ⟨userRequests.count + 1, userRequests.resetTime⟩, .ok true)

/-- A call of the limiter: the reading of the clock and the id of the user. -/
structure RateCall where
  now : Nat
  userId : Nat
  deriving DecidableEq, Repr

/-- A sequence of calls of one limiter: for each call, whether it was accepted. -/
def runRate (maxRequests windowMs : Nat) : List RateCall → RateState → List Bool
  | [], _ => []
  | c :: rest, st =>
    match rateLimit maxRequests windowMs st c.now c.userId with
    | (st', .ok _) => true :: runRate maxRequests windowMs rest st'
    | (st', .error _) => false :: runRate maxRequests windowMs rest st'

/-- The number of calls of a user that were accepted at a time between `desde`
and `hasta`, both included. -/
def aceptadasEntre (calls : List RateCall) (aceptada : List Bool) (userId desde hasta : Nat) :
    Nat :=
  ((calls.zip aceptada).filter (fun ca =>
    ca.2 && ca.1.userId == userId && decide (desde ≤ ca.1.now) && decide (ca.1.now ≤ hasta))).length

/-- The number of calls of a user in a sequence. -/
def llamadasDe (calls : List RateCall) (userId : Nat) : Nat :=
  (calls.filter (fun c => c.userId == userId)).length

/-- The number of calls of a user that were accepted. -/
def aceptadasDe (calls : List RateCall) (aceptada : List Bool) (userId : Nat) : Nat :=
  ((calls.zip aceptada).filter (fun ca => ca.2 && ca.1.userId == userId)).length

/-! ## The process environment (`config/app.js`) -/

/-- The setting `environment: process.env.NODE_ENV || 'development'`: the mode
the application runs in. An unset variable reads as `undefined`. -/
def environment (NODE_ENV : JsVal) : JsVal := NODE_ENV.or (.str "development")

/-- What a process started with the given `NODE_ENV` contributes to a
response: `handleGenericError` evaluates `process.env.NODE_ENV === 'production'`. -/
def Env.ofNodeEnv (timestamp : String) (NODE_ENV : JsVal) : Env :=
  ⟨timestamp, decide (NODE_ENV = .str "production")⟩

/-! ## Validators of the user fields (`utils/validators.js`) -/

/-- Constants of `config/constants.js` (`ERROR_MESSAGES`, `VALIDATION`). -/
def REQUIRED_FIELD : String := "Este campo es requerido"
def USERNAME_MIN_LENGTH : Nat := 3
def USERNAME_MAX_LENGTH : Nat := 50
def PASSWORD_MIN_LENGTH : Nat := 4

/-- The property `s.length` of a string: its number of UTF-16 code units. -/
def jsLength (s : String) : Nat :=
  (s.toList.map (fun c => if c.toNat < 0x10000 then 1 else 2)).sum

/-- The receiver `this` of a call of a static method of `Validators`: the
class for a call `Validators.m(...)`, and `undefined` for a call `m(...)` of
the function taken off the class, a class body being strict code. -/
inductive Receiver where
  | clase
  | undefined
  deriving DecidableEq, Repr

/-- The `TypeError` of a property read `this.m` on the receiver `undefined`. -/
def undefinedReceiver (m : String) : ErrorObject :=
  createError "TypeError"
    (.str ("Cannot read properties of undefined (reading " ++ m ++ ")"))

/-- The function `Validators.required`. A value other than `null`,
`undefined` and a string is taken not to be an empty array. -/
def Validators.required (value : JsVal) (fieldName : String) : Except ErrorObject Bool :=
  match value with
  | .null => .error (plainError (fieldName ++ " " ++ REQUIRED_FIELD))
  | .undefined => .error (plainError (fieldName ++ " " ++ REQUIRED_FIELD))
  | .str s =>
    if jsTrim s = "" then .error (plainError (fieldName ++ " " ++ REQUIRED_FIELD))
    else .ok true
  | _ => .ok true

/-- The function `Validators.stringLength`; `maxLength` is `none` for the
default `Infinity`. -/
def Validators.stringLength (value : JsVal) (fieldName : String) (minLength : Nat)
    (maxLength : Option Nat) : Except ErrorObject Bool :=
  match value with
  | .str s =>
    if jsLength (jsTrim s) < minLength then
      .error (plainError
        (fieldName ++ " debe tener al menos " ++ toString minLength ++ " caracteres"))
    else
      match maxLength with
      | none => .ok true
      | some m =>
        if jsLength (jsTrim s) > m then
          .error (plainError
            (fieldName ++ " no puede tener más de " ++ toString m ++ " caracteres"))
        else .ok true
  | _ => .error (plainError (fieldName ++ " debe ser texto"))

/-- The character class `[a-zA-Z0-9_]`. -/
def isUsernameChar (c : Char) : Bool :=
  let n := c.toNat
  (97 ≤ n && n ≤ 122) || (65 ≤ n && n ≤ 90) || (48 ≤ n && n ≤ 57) || n == 95

/-- The test of the regular expression `/^[a-zA-Z0-9_]+$/` on a string. -/
def usernameRegexTest (s : String) : Bool :=
  !s.toList.isEmpty && s.toList.all isUsernameChar

/-- The static method `Validators.username`, called on the receiver `self`;
`fieldName` is `none` when the argument is left out. -/
def Validators.username (self : Receiver) (value : JsVal) (fieldName : Option String) :
    Except ErrorObject JsVal :=
  match self with
  | .undefined => .error (undefinedReceiver "required")
  | .clase =>
    match Validators.required value (fieldName.getD "Usuario") with
    | .error e => .error e
    | .ok _ =>
      match Validators.stringLength value (fieldName.getD "Usuario")
          USERNAME_MIN_LENGTH (some USERNAME_MAX_LENGTH) with
      | .error e => .error e
      | .ok _ =>
        match value with
        | .str s =>
          if !usernameRegexTest s then
            .error (plainError
              (fieldName.getD "Usuario" ++ " solo puede contener letras, números y guiones bajos"))
          else .ok (.str (jsTrim s))
        | _ => .error (createError "TypeError" (.str "value.trim is not a function"))

/-- The static method `Validators.password`. -/
def Validators.password (self : Receiver) (value : JsVal) (fieldName : Option String) :
    Except ErrorObject JsVal :=
  match self with
  | .undefined => .error (undefinedReceiver "required")
  | .clase =>
    match Validators.required value (fieldName.getD "Contraseña") with
    | .error e => .error e
    | .ok _ =>
      match Validators.stringLength value (fieldName.getD "Contraseña")
          PASSWORD_MIN_LENGTH none with
      | .error e => .error e
      | .ok _ => .ok value

/-- The static method `Validators.userRole`. -/
def Validators.userRole (self : Receiver) (value : JsVal) : Except ErrorObject JsVal :=
  match self with
  | .undefined => .error (undefinedReceiver "required")
  | .clase =>
    match Validators.required value "Rol de usuario" with
    | .error e => .error e
    | .ok _ =>
      if value = .str "admin" ∨ value = .str "usuario" then .ok value
      else .error (plainError "Rol de usuario debe ser uno de: admin, usuario")

/-- A rule of `validateObject`: a function object, which gets its receiver
from the call. -/
abbrev Rule := Receiver → JsVal → Except ErrorObject JsVal

/-- The loop `for (const rule of rules) value = rule(value)`: every rule is
called as a bare function, so its receiver is `undefined`. -/
def applyRules : List Rule → JsVal → Except ErrorObject JsVal
  | [], value => .ok value
  | rule :: rules, value =>
    match rule .undefined value with
    | .error e => .error e
    | .ok v => applyRules rules v

/-- An element of the array `errors` of `validateObject`. -/
structure FieldError where
  field : String
  message : JsVal
  deriving DecidableEq, Repr

/-- The loop of `validateObject` over the fields of the rules: the object
`validated` and the array `errors` it builds. -/
def validateFields (obj : Payload) : List (String × List Rule) → Payload × List FieldError
  | [] => ([], [])
  | (field, rules) :: rest =>
    match applyRules rules (obj.get field) with
    | .ok v => ((field, v) :: (validateFields obj rest).1, (validateFields obj rest).2)
    | .error e => ((validateFields obj rest).1, ⟨field, e.message⟩ :: (validateFields obj rest).2)

/-- The function `Validators.validateObject`. The array `validationErrors` of
the error it throws is an object, which is truthy. -/
def validateObject (obj : Payload) (validationRules : List (String × List Rule)) :
    Except ErrorObject Payload :=
  if (validateFields obj validationRules).2.length > 0 then
    .error
      { name := .str "Error"
        message := .str ("Errores de validación: " ++ "; ".intercalate
          ((validateFields obj validationRules).2.map
            (fun e => e.field ++ ": " ++ e.message.toStr)))
        code := .undefined
        validationErrors := .object }
  else .ok (validateFields obj validationRules).1

/-! ## User administration (`services/UserService.js`) -/

/-- The parameters of one `INSERT INTO usuarios`: the store hashes the password. -/
structure UsuarioInsert where
  username : JsVal
  password : JsVal
  rol : JsVal
  deriving DecidableEq, Repr

/-- The `catch` block of `agregarUsuario`. -/
def agregarUsuarioCatch (error : ErrorObject) : Payload :=
  if error.code = .str "23505" then
    [("success", .bool false), ("error", .str "El usuario ya existe")]
  else if error.validationErrors.truthy then
    [("success", .bool false), ("error", error.message),
      ("validationErrors", error.validationErrors)]
  else [("success", .bool false), ("error", .str "Error interno del servidor")]

/-- The rules object that `agregarUsuario` passes to `validateObject`: the
three static methods, taken off the class. -/
def agregarUsuarioRules : List (String × List Rule) :=
  [("username", [fun self value => Validators.username self value none]),
    ("password", [fun self value => Validators.password self value none]),
    ("rol", [Validators.userRole])]

/-- The method `UserService.agregarUsuario`: the inserts sent so far and the
result. `insertFault` is the error with which the store rejects the insert. -/
def agregarUsuario (insertFault : Option ErrorObject) (usuarios : List UsuarioInsert)
    (data : Payload) : List UsuarioInsert × Payload :=
  match validateObject data agregarUsuarioRules with
  | .error e => (usuarios, agregarUsuarioCatch e)
  | .ok validatedData =>
    match insertFault with
    | some e => (usuarios, agregarUsuarioCatch e)
    | none =>
      (usuarios ++ [⟨validatedData.get "username", validatedData.get "password",
          validatedData.get "rol"⟩],
        [("success", .bool true)])

/-! ## Client session manager (`public/js/session-manager.js`) -/

/-- The method `s.split(sep)` with a separator of one character, on the
characters of the string. -/
def splitChars (sep : Char) : List Char → List (List Char)
  | [] => [[]]
  | c :: cs =>
    if c = sep then [] :: splitChars sep cs
    else
      match splitChars sep cs with
      | [] => [[c]]
      | part :: parts => (c :: part) :: parts

/-- The session data kept behind `window.api`. -/
structure Almacen where
  currentUser : Option Usuario
  sessionToken : JsVal
  deriving DecidableEq, Repr

/-- The object `window.sessionManager` and the page around it: `api` is
`none` when the page has no `window.api`. `currentUser` is `none` for
`null`. -/
structure SessionManager where
  currentUser : Option Usuario
  currentToken : JsVal
  api : Option Almacen
  deriving DecidableEq, Repr

/-- What the browser contributes to `isTokenExpired`. `payloadExp part` is the
property `exp` of `JSON.parse(atob(part))`: the exception raised by the
decoding or by the property read, `none` for a missing or falsy `exp`, and the
number otherwise, taken to be an integer number of seconds. `dateNow` is the
reading of `Date.now()`, in milliseconds. -/
structure Browser where
  payloadExp : String → Except Thrown (Option Int)
  dateNow : Nat

/-- The method `sessionManager.initSession`. -/
def initSession (sm : SessionManager) (loginResult : LoginResult) : SessionManager × Bool :=
  match loginResult with
  | .success user token _ =>
    ({ currentUser := some user
       currentToken := .str token
       api := sm.api.map (fun _ => ⟨some user, .str token⟩) }, true)
  | .failure _ => (sm, false)

/-- The method `sessionManager.getCurrentUser`. -/
def getCurrentUser (sm : SessionManager) : SessionManager × Option Usuario :=
  match sm.currentUser with
  | some user => (sm, some user)
  | none =>
    match sm.api with
    | some almacen => ({ sm with currentUser := almacen.currentUser }, almacen.currentUser)
    | none => (sm, none)

/-- The method `sessionManager.getSessionToken`. -/
def getSessionToken (sm : SessionManager) : SessionManager × JsVal :=
  if sm.currentToken.truthy then (sm, sm.currentToken)
  else
    match sm.api with
    | some almacen => ({ sm with currentToken := almacen.sessionToken }, almacen.sessionToken)
    | none => (sm, .null)

/-- The body of `isTokenExpired` after the token is read. A truthy token that
is not a string has no method `split`: the `TypeError` is caught and the
answer is `true`. -/
def tokenExpired (browser : Browser) (token : JsVal) : Bool :=
  if !token.truthy then true
  else
    match token with
    | .str t =>
      match splitChars '.' t.toList with
      | [_, payload, _] =>
        match browser.payloadExp (String.mk payload) with
        | .error _ => true
        | .ok none => false
        | .ok (some exp) => decide (exp * 1000 < (browser.dateNow : Int))
      | _ => true
    | _ => true

/-- The method `sessionManager.isTokenExpired`. -/
def isTokenExpired (browser : Browser) (sm : SessionManager) : SessionManager × Bool :=
  ((getSessionToken sm).1, tokenExpired browser (getSessionToken sm).2)

/-- The method `sessionManager.isAuthenticated`: the conjunction evaluates
`isTokenExpired` only when there are a user and a token. -/
def isAuthenticated (browser : Browser) (sm : SessionManager) : SessionManager × Bool :=
  let conUsuario := getCurrentUser sm
  let conToken := getSessionToken conUsuario.1
  if conUsuario.2.isSome && conToken.2.truthy then
    ((isTokenExpired browser conToken.1).1, !(isTokenExpired browser conToken.1).2)
  else (conToken.1, false)

/-! ## Sales listing (`services/ReportService.js`, `listarVentas`) -/

/-- Constants of `config/constants.js` (`VALIDATION`, pagination). -/
def MIN_PAGE_SIZE : Int := 10
def MAX_PAGE_SIZE : Int := 1000
def DEFAULT_PAGE_SIZE : Int := 100

/-- The validator `Validators.paginationParams(page, limit)` on two integer
numbers: the page and the limit. -/
def Validators.paginationParams (page limit : Int) : Except ErrorObject (Int × Int) :=
  match Validators.integer (if page ≠ 0 then page else 1) "Página" (some 1) with
  | .error e => .error e
  | .ok validPage =>
    match Validators.integer (if limit ≠ 0 then limit else DEFAULT_PAGE_SIZE) "Límite"
        (some MIN_PAGE_SIZE) with
    | .error e => .error e
    | .ok validLimit =>
      if validLimit > MAX_PAGE_SIZE then
        .error (plainError ("Límite debe ser menor o igual a " ++ toString MAX_PAGE_SIZE))
      else .ok (validPage, validLimit)

/-- The function `Helpers.calculateOffset`. -/
def calculateOffset (page limit : Int) : Int := (page - 1) * limit

/-- The argument `filtros` of `listarVentas`: each date is absent or a text,
the other three are absent or integer numbers. -/
structure FiltrosVentas where
  fechaInicio : Option String
  fechaFin : Option String
  limit : Option Int
  page : Option Int
  usuarioId : Option Int
  deriving DecidableEq, Repr

/-- A value of the parameter array passed with a statement. -/
inductive Param where
  | fecha (time : Int)
  | num (n : Int)
  deriving DecidableEq, Repr

/-- The validator `Validators.date(value, fieldName)` on a text that is not
empty; `dateParse` is the time value of `new Date(value)`, `none` for an
invalid date. -/
def Validators.date (dateParse : String → Option Int) (value : String) (fieldName : String) :
    Except ErrorObject Int :=
  match dateParse value with
  | none => .error (plainError (fieldName ++ " no es una fecha válida"))
  | some time => .ok time

/-- The variables `conditions`, `params` and `paramCount` of `listarVentas`. -/
structure CondAcc where
  conditions : List String
  params : List Param
  paramCount : Nat
  deriving DecidableEq, Repr

/-- One block `if (filter) ...` of `listarVentas`: the condition on `column`
with the next placeholder, and the validated value. -/
def pushCondition (acc : CondAcc) (condition : String) (value : Param) : CondAcc :=
  { conditions := acc.conditions ++ [condition ++ "$" ++ toString acc.paramCount]
    params := acc.params ++ [value]
    paramCount := acc.paramCount + 1 }

/-- The three blocks that fill `conditions` and `params`. -/
def condicionesVentas (dateParse : String → Option Int) (filtros : FiltrosVentas) :
    Except ErrorObject CondAcc :=
  let acc0 : CondAcc := ⟨[], [], 1⟩
  let paso1 : Except ErrorObject CondAcc :=
    match filtros.fechaInicio with
    | none => .ok acc0
    | some fechaInicio =>
      if fechaInicio = "" then .ok acc0
      else
        match Validators.date dateParse fechaInicio "Fecha de inicio" with
        | .error e => .error e
        | .ok v => .ok (pushCondition acc0 "v.fecha >= " (.fecha v))
  match paso1 with
  | .error e => .error e
  | .ok acc1 =>
    let paso2 : Except ErrorObject CondAcc :=
      match filtros.fechaFin with
      | none => .ok acc1
      | some fechaFin =>
        if fechaFin = "" then .ok acc1
        else
          match Validators.date dateParse fechaFin "Fecha de fin" with
          | .error e => .error e
          | .ok v => .ok (pushCondition acc1 "v.fecha <= " (.fecha v))
    match paso2 with
    | .error e => .error e
    | .ok acc2 =>
      match filtros.usuarioId with
      | none => .ok acc2
      | some usuarioId =>
        if usuarioId = 0 then .ok acc2
        else
          match Validators.id usuarioId "Usuario ID" with
          | .error e => .error e
          | .ok v => .ok (pushCondition acc2 "v.usuario_id = " (.num v))

/-- The template literal that starts `query`. -/
def ventasSelect : String :=
  "\n        SELECT \n          v.*,\n          p.nombre as producto_nombre,\n"
    ++ "          u.username as vendedor,\n          c.nombre as categoria\n"
    ++ "        FROM ventas v\n        LEFT JOIN productos p ON v.producto_id = p.id\n"
    ++ "        LEFT JOIN usuarios u ON v.usuario_id = u.id\n"
    ++ "        LEFT JOIN categorias c ON p.categoria_id = c.id\n      "

/-- The fixed part of the template literal `countQuery`. -/
def ventasCount : String :=
  "\n        SELECT COUNT(*) as total\n        FROM ventas v\n"
    ++ "        LEFT JOIN productos p ON v.producto_id = p.id\n"
    ++ "        LEFT JOIN usuarios u ON v.usuario_id = u.id\n        "

/-- The two statements of `listarVentas`, each with its parameter array. -/
structure ConsultasVentas where
  query : String
  params : List Param
  countQuery : String
  countParams : List Param
  deriving DecidableEq, Repr

/-- The part of `listarVentas` that builds what it passes to `db.query`: the
data statement with `params`, and the count statement with
`params.slice(0, -2)`; or the error thrown by a validator. -/
def listarVentasConsultas (dateParse : String → Option Int) (filtros : FiltrosVentas) :
    Except ErrorObject ConsultasVentas :=
  match Validators.paginationParams (filtros.page.getD 1) (filtros.limit.getD 100) with
  | .error e => .error e
  | .ok (validatedPage, validatedLimit) =>
    match condicionesVentas dateParse filtros with
    | .error e => .error e
    | .ok acc =>
      let params := acc.params ++
        [.num validatedLimit, .num (calculateOffset validatedPage validatedLimit)]
      .ok
        { query := ventasSelect
            ++ (if acc.conditions.length > 0 then
                " WHERE " ++ " AND ".intercalate acc.conditions else "")
            ++ " ORDER BY v.fecha DESC LIMIT " ++ toString acc.paramCount
            ++ " OFFSET " ++ toString (acc.paramCount + 1)
          params := params
          countQuery := ventasCount
            ++ (if acc.conditions.length > 0 then
                "WHERE " ++ " AND ".intercalate acc.conditions else "")
            ++ "\n      "
          countParams := params.take (params.length - 2) }

/-- The positional placeholders `$k` that the text of a statement references,
in the order in which they appear. -/
def placeholders : List Char → List Nat
  | [] => []
  | c :: rest =>
    if c = '$' then
      match parseDigits 10 rest with
      | some k => k :: placeholders rest
      | none => placeholders rest
    else placeholders rest

/-! ## Categories (`services/CategoryService.js`) -/

/-- A row of `categorias`. -/
structure Categoria where
  id : Nat
  nombre : String
  deriving DecidableEq, Repr

/-- A row of `subcategorias`. -/
structure Subcategoria where
  id : Nat
  nombre : String
  categoria_id : Nat
  deriving DecidableEq, Repr

/-- The columns of a row of `productos` that the category service reads; a
column is `none` for SQL `NULL`. -/
structure ProductoRef where
  id : Nat
  categoria_id : Option Nat
  subcategoria_id : Option Nat
  deriving DecidableEq, Repr

/-- The committed rows of the three tables. -/
structure Catalogo where
  categorias : List Categoria
  subcategorias : List Subcategoria
  productos : List ProductoRef
  deriving DecidableEq, Repr

/-- The statements of the two deletions, as far as the store can reject them. -/
inductive CatStmt where
  | countPorCategoria (id : Nat)
  | deleteSubcategorias (categoriaId : Nat)
  | deleteCategoria (id : Nat)
  | countPorSubcategoria (id : Nat)
  | deleteSubcategoria (id : Nat)
  deriving DecidableEq, Repr

/-- What the store does with a statement of the category service: `none` when
it executes it, `some e` when `query` rejects with `e`. -/
abbrev CatFaults := CatStmt → Option ErrorObject

/-- The column `count` of a `SELECT COUNT(*)`: the driver hands the `bigint`
over as its decimal text. -/
def countText (n : Nat) : JsVal := .str (toString n)

/-- The condition `parseInt(count) > 0`; a comparison with NaN is false. -/
def countPositive (count : JsVal) : Bool :=
  match parseInt count with
  | some n => decide (n > 0)
  | none => false

/-- The body of the `try` block of `eliminarCategoria`, run against the
committed rows: the rows to commit, or the error thrown. -/
def eliminarCategoriaTry (faults : CatFaults) (cat : Catalogo) (id : Nat) :
    Except ErrorObject Catalogo :=
  if id = 0 then .error (plainError "ID de categoría requerido")
  else
    match faults (.countPorCategoria id) with
    | some e => .error e
    | none =>
      if countPositive
          (countText (cat.productos.filter (fun p => p.categoria_id == some id)).length) then
        .error (plainError "No se puede eliminar la categoría porque tiene productos asociados")
      else
        match faults (.deleteSubcategorias id) with
        | some e => .error e
        | none =>
          match faults (.deleteCategoria id) with
          | some e => .error e
          | none =>
            if (cat.categorias.filter (fun c => c.id == id)).length = 0 then
              .error (plainError "Categoría no encontrada")
            else
              .ok { cat with
                subcategorias := cat.subcategorias.filter (fun s => s.categoria_id != id)
                categorias := cat.categorias.filter (fun c => c.id != id) }

/-- The method `CategoryService.eliminarCategoria`: commit on success, roll
back and report `{ success: false, error }` on any error. -/
def eliminarCategoria (faults : CatFaults) (cat : Catalogo) (id : Nat) : Catalogo × Payload :=
  match eliminarCategoriaTry faults cat id with
  | .ok cat' => (cat', [("success", .bool true)])
  | .error e => (cat, failureOf e)

/-- The body of the `try` block of `eliminarSubcategoria`; its one `DELETE`
runs through the pool. -/
def eliminarSubcategoriaTry (faults : CatFaults) (cat : Catalogo) (id : Nat) :
    Except ErrorObject Catalogo :=
  if id = 0 then .error (plainError "ID de subcategoría requerido")
  else
    match faults (.countPorSubcategoria id) with
    | some e => .error e
    | none =>
      if countPositive
          (countText (cat.productos.filter (fun p => p.subcategoria_id == some id)).length) then
        .error
          (plainError "No se puede eliminar la subcategoría porque tiene productos asociados")
      else
        match faults (.deleteSubcategoria id) with
        | some e => .error e
        | none =>
          if (cat.subcategorias.filter (fun s => s.id == id)).length = 0 then
            .error (plainError "Subcategoría no encontrada")
          else
            .ok { cat with subcategorias := cat.subcategorias.filter (fun s => s.id != id) }

/-- The method `CategoryService.eliminarSubcategoria`. -/
def eliminarSubcategoria (faults : CatFaults) (cat : Catalogo) (id : Nat) :
    Catalogo × Payload :=
  match eliminarSubcategoriaTry faults cat id with
  | .ok cat' => (cat', [("success", .bool true)])
  | .error e => (cat, failureOf e)

/-! ## Theorems: authorisation wrappers and error translator -/

/-- The engine error raised by `this.requireAuth(sessionValidator)(token)` passes
every test of `handle` and is answered by `handleGenericError`. -/
theorem handle_notAFunction (env : Env) :
    handle env (typeError "this.requireAuth(...) is not a function") =
      .ok (handleGenericError env
        (createError "TypeError" (.str "this.requireAuth(...) is not a function"))) := by
  rfl

/-- Whatever the request, the validator and the operation, a handler built by
`withAuth` calls neither and answers with the generic error response. -/
theorem withAuth_run (env : Env) (sv : SessionValidator) (op : Operation) (ev : JsVal)
    (data : RequestData) :
    withAuth env sv op ev data =
      ⟨[], [], .ok (handleGenericError env
        (createError "TypeError" (.str "this.requireAuth(...) is not a function")))⟩ := by
  rfl

/-- Whatever the request, the validator and the operation, a handler built by
`withAdminAuth` calls neither and answers with the generic error response. -/
theorem withAdminAuth_run (env : Env) (sv : SessionValidator) (op : Operation) (ev : JsVal)
    (data : RequestData) :
    withAdminAuth env sv op ev data =
      ⟨[], [], .ok (handleGenericError env
        (createError "TypeError" (.str "this.requireAuth(...) is not a function")))⟩ := by
  rfl

/-- The response of `handleGenericError` reports `success: false`. -/
theorem handleGenericError_success (env : Env) (e : ErrorObject) :
    (handleGenericError env e).get "success" = .bool false := by
  rfl

/-- C2 (code defect). A request carrying a token that the session validator
accepts: the claim says the handler built by `withAuth` invokes the operation
once with the data extended by the user and returns its result. The handler
instead never reaches the validator or the operation, because it calls the
promise returned by the `async` method `requireAuth` as if it were the checking
function; it answers with a failure response. -/
theorem withAuth_accepted_token_skips_operation :
    withAuth ⟨"2024-01-01T00:00:00.000Z", false⟩
      (fun _ => .ok ⟨.bool true, .undefined, some ⟨.num 1, .str "ana", .str "usuario"⟩⟩)
      (fun _ _ => .ok [("success", .bool true)])
      .object (some [("token", .str "abc"), ("nombre", .str "Bebidas")])
    = ⟨[], [], .ok [("success", .bool false), ("timestamp", .str "2024-01-01T00:00:00.000Z"),
        ("message", .str "this.requireAuth(...) is not a function")]⟩ := by
  decide

/-- C8. The handlers returned by `withAuth` and `withAdminAuth` never throw:
for every environment, session validator, wrapped operation (whatever either
returns or throws), event and request data, the handler resolves to a result
value. -/
theorem handlers_never_throw (env : Env) (sv : SessionValidator) (op : Operation)
    (ev : JsVal) (data : RequestData) :
    (∃ r, (withAuth env sv op ev data).outcome = .ok r) ∧
    (∃ r, (withAdminAuth env sv op ev data).outcome = .ok r) := by
  rw [withAuth_run, withAdminAuth_run]
  exact ⟨⟨_, rfl⟩, ⟨_, rfl⟩⟩

/-- Every response produced by `errorResponse` lacks a property named `error`. -/
theorem errorResponse_has_no_error (env : Env) (message errors data : JsVal) :
    (errorResponse env message errors data).has "error" = false := by
  unfold errorResponse createApiResponse optField
  cases hd : data.nullish <;> cases hm : message.nullish <;> cases he : errors.nullish <;>
    simp [Payload.has, List.lookup, JsVal.nullish]

/-- Every response produced by `ErrorHandler.handle` reports `success: false`
and lacks a property named `error`: the message, when there is one, is under
`message`. -/
theorem handle_response_shape (env : Env) (error : Thrown) (r : Payload)
    (h : handle env error = .ok r) :
    r.get "success" = .bool false ∧ r.has "error" = false := by
  have key : ∀ m e d, (errorResponse env m e d).get "success" = .bool false ∧
      (errorResponse env m e d).has "error" = false :=
    fun m e d => ⟨rfl, errorResponse_has_no_error env m e d⟩
  cases error with
  | nullish => simp [handle] at h
  | error e =>
    simp only [handle] at h
    split at h
    · cases h; exact key _ _ _
    · split at h
      · cases h
      · cases h
        unfold handleDatabaseError
        repeat (first | exact key _ _ _ | split)
      · split at h
        · cases h
        · cases h; exact key _ _ _
        · split at h
          · cases h
          · cases h; exact key _ _ _
          · split at h
            · cases h; exact key _ _ _
            · cases h; exact key _ _ _

/-- C9 (code defect). The business error raised by `registrarVenta` for
insufficient stock, passed through `ErrorHandler.handle`: the claim says the
failure has the shape `success: false, error: message`. The response carries
the message under `message`; it has no property named `error`, the one every
other failure path of the services fills and the interface reads. -/
theorem handle_carries_message_not_error :
    handle ⟨"2024-01-01T00:00:00.000Z", true⟩
      (.error (createBusinessError (.str "Stock insuficiente para Cafe")))
    = .ok [("success", .bool false), ("timestamp", .str "2024-01-01T00:00:00.000Z"),
        ("message", .str "Stock insuficiente para Cafe")] := by
  decide

/-- C10. The handler built by `withAdminAuth` invokes the operation only when
the validator accepts the token of the request and the resolved user has the
admin role; when the token is missing, or the validator does not accept it, or
the user is no admin, the operation is not invoked and the handler resolves to
a failure response. -/
theorem withAdminAuth_gate (env : Env) (sv : SessionValidator) (op : Operation) (ev : JsVal)
    (data : RequestData) :
    ((withAdminAuth env sv op ev data).operationCalls = [] ∨
      ∃ r u, sv ((data.get "token").or (data.get "sessionToken")) = .ok r ∧
        r.success.truthy = true ∧ r.user = some u ∧ u.rol = .str ADMIN) ∧
    ((((data.get "token").or (data.get "sessionToken")).truthy = false ∨
      (∀ r, sv ((data.get "token").or (data.get "sessionToken")) = .ok r →
        r.success.truthy = false) ∨
      (∀ r u, sv ((data.get "token").or (data.get "sessionToken")) = .ok r →
        r.user = some u → u.rol ≠ .str ADMIN)) →
      (withAdminAuth env sv op ev data).operationCalls = [] ∧
      ∃ resp, (withAdminAuth env sv op ev data).outcome = .ok resp ∧
        resp.get "success" = .bool false) := by
  rw [withAdminAuth_run]
  exact ⟨Or.inl rfl, fun _ => ⟨rfl, _, rfl, handleGenericError_success _ _⟩⟩

/-- Witness for `withAdminAuth_gate`: a request of a standard user. -/
theorem withAdminAuth_gate_witness :
    (withAdminAuth ⟨"t", true⟩
        (fun _ => .ok ⟨.bool true, .undefined, some ⟨.num 2, .str "luis", .str "usuario"⟩⟩)
        (fun _ _ => .ok [("success", .bool true)]) .object
        (some [("token", .str "abc")])).operationCalls = [] ∧
    ∃ resp, (withAdminAuth ⟨"t", true⟩
        (fun _ => .ok ⟨.bool true, .undefined, some ⟨.num 2, .str "luis", .str "usuario"⟩⟩)
        (fun _ _ => .ok [("success", .bool true)]) .object
        (some [("token", .str "abc")])).outcome = .ok resp ∧
      resp.get "success" = .bool false :=
  (withAdminAuth_gate ⟨"t", true⟩
    (fun _ => .ok ⟨.bool true, .undefined, some ⟨.num 2, .str "luis", .str "usuario"⟩⟩)
    (fun _ _ => .ok [("success", .bool true)]) .object (some [("token", .str "abc")])).2
    (Or.inr (Or.inr (by
      intro r u h hu
      cases h
      cases hu
      decide)))

/-! ## Theorems: sale coordinator -/

/-- C1 (code defect). A sale of two lines whose second line asks for more than
the stock: the claim says that nothing of the sale is committed, the stock of
the product of line 1 and the movement log being as before the call. The sale
rows are rolled back, but the decrement of line 1 and its movement stay: they
were committed by the transaction `actualizarProducto` opens on a client of
its own. -/
theorem registrarVenta_failed_sale_keeps_decrement :
    registrarVenta ⟨"2024-01-01T00:00:00.000Z", false⟩ noFaults
      ⟨[⟨1, some "Cafe", 5⟩, ⟨2, some "Te", 0⟩], [], [], 2, 0⟩
      ⟨[⟨1, 1, 10⟩, ⟨2, 1, 10⟩], .str "efectivo", none, 7⟩
    = (⟨[⟨1, some "Cafe", 4⟩, ⟨2, some "Te", 0⟩],
        [⟨1, .salida, 1, 5, 4, "Ajuste manual"⟩], [], 2, 1⟩,
       .ok (.failure [("success", .bool false),
        ("timestamp", .str "2024-01-01T00:00:00.000Z"),
        ("message", .str "Stock insuficiente para Te. Stock disponible: 0, solicitado: 1")])) := by
  decide

/-- C3 (code defect). A sale of one line during which the store rejects the
`UPDATE` of the product, so that `actualizarProducto` reports failure: the
claim says the sale is rejected and no sale row is committed. The result of
`actualizarProducto` is not inspected: the sale row is committed, the sale
reports success, and the stock is not decremented. -/
theorem registrarVenta_ignores_failed_decrement :
    registrarVenta ⟨"2024-01-01T00:00:00.000Z", false⟩
      (fun stmt => if stmt = .updateProducto 1 then
        some ⟨.str "error", .str "Connection terminated unexpectedly", .str "08006", .undefined⟩
        else none)
      ⟨[⟨1, some "Cafe", 5⟩], [], [], 1, 0⟩
      ⟨[⟨1, 2, 10⟩], .str "efectivo", none, 7⟩
    = (⟨[⟨1, some "Cafe", 5⟩], [],
        [⟨1, 1, 2, 10, 20, .str "efectivo", 7, 0⟩], 1, 1⟩,
       .ok (.success [⟨1, 1, some "Cafe", 2, 10, 20⟩] 20 20 0)) := by
  decide

/-! ## Theorems: stock ledger -/

/-- C5 (code defect). The claim says a stored stock is never negative.
`agregarProducto` stores `stock || 0` without the clamp that
`actualizarProducto` applies: called with the stock -5 it commits a row whose
stock is -5. -/
theorem agregarProducto_stores_negative_stock :
    agregarProducto noFaults Db.vacia ⟨.str "Cafe", .num 1, some (-5)⟩
    = (⟨[⟨1, some "Cafe", -5⟩], [], [], 1, 0⟩, [("success", .bool true), ("id", .num 1)]) := by
  decide

/-! ## Theorems: session registry -/

/-- The rows of the session query: a session row with the token that is active
and not yet expired, joined with a user row of its `usuario_id`. -/
theorem mem_consultaSesion (st : AuthState) (now : Nat) (t : String) (s : Sesion)
    (u : Usuario) :
    (s, u) ∈ consultaSesion st now t ↔
      s ∈ st.sesiones ∧ s.token = t ∧ s.activa = true ∧ now < s.fecha_expiracion ∧
        u ∈ st.usuarios ∧ u.id = s.usuario_id := by
  simp only [consultaSesion, List.mem_flatMap, List.mem_filter, List.mem_map, Bool.and_eq_true,
    beq_iff_eq, decide_eq_true_eq, Prod.mk.injEq]
  constructor
  · rintro ⟨s', ⟨hs, ⟨ht, ha⟩, he⟩, u', ⟨hu, hid⟩, rfl, rfl⟩
    exact ⟨hs, ht, ha, he, hu, hid⟩
  · rintro ⟨hs, ht, ha, he, hu, hid⟩
    exact ⟨s, ⟨hs, ⟨ht, ha⟩, he⟩, u, ⟨hu, hid⟩, rfl, rfl⟩

/-- C4. In a well-formed registry and when the session query is answered,
`validarSesion(token)` reports success if and only if the token is in the
in-memory index and a durable session row of that token is active and not yet
expired; on success the user returned has the id of that session row and the
username and role of the user row it refers to. -/
theorem validarSesion_success_iff (st : AuthState) (now : Nat) (token : JsVal)
    (hwf : st.wellFormed = true) :
    ((validarSesion none st now token).2.success = .bool true ↔
      (enIndice st token = true ∧
        ∃ s ∈ st.sesiones, JsVal.str s.token = token ∧ s.activa = true ∧
          now < s.fecha_expiracion)) ∧
    ((validarSesion none st now token).2.success = .bool true →
      ∃ s ∈ st.sesiones, ∃ u ∈ st.usuarios, JsVal.str s.token = token ∧ s.activa = true ∧
        now < s.fecha_expiracion ∧ u.id = s.usuario_id ∧
        (validarSesion none st now token).2.user =
          some ⟨.num s.usuario_id, .str u.username, .str u.rol⟩) := by
  simp only [AuthState.wellFormed, Bool.and_eq_true, List.all_eq_true, List.any_eq_true,
    bne_iff_ne, beq_iff_eq] at hwf
  obtain ⟨hkeys, hfk⟩ := hwf
  by_cases hidx : enIndice st token = true
  · -- the token is a key of the map, hence a non-empty string
    obtain ⟨t, rfl⟩ : ∃ t, token = .str t := by
      cases token <;> simp [enIndice] at hidx
      exact ⟨_, rfl⟩
    have hne : t ≠ "" := by
      simp only [enIndice, List.any_eq_true, beq_iff_eq] at hidx
      obtain ⟨kv, hkv, rfl⟩ := hidx
      exact hkeys kv hkv
    have htr : (JsVal.str t).truthy = true := by simp [JsVal.truthy, hne]
    cases hq : consultaSesion st now t with
    | nil =>
      have hnone : ∀ s u, (s, u) ∉ consultaSesion st now t := by
        intro s u; rw [hq]; exact List.not_mem_nil _
      have hres : (validarSesion none st now (.str t)).2.success = .bool false := by
        simp [validarSesion, htr, hidx, JsVal.toStr, hq]
      constructor
      · constructor
        · intro h; rw [hres] at h; cases h
        · rintro ⟨_, s, hs, ht, ha, he⟩
          obtain ⟨u, hu, hid⟩ := hfk s hs
          cases ht
          exact absurd ((mem_consultaSesion st now _ s u).2 ⟨hs, rfl, ha, he, hu, hid⟩)
            (hnone s u)
      · intro h; rw [hres] at h; cases h
    | cons row rest =>
      obtain ⟨s, u⟩ := row
      have hmem : (s, u) ∈ consultaSesion st now t := by rw [hq]; exact List.mem_cons_self _ _
      obtain ⟨hs, ht, ha, he, hu, hid⟩ := (mem_consultaSesion st now t s u).1 hmem
      have hres : (validarSesion none st now (.str t)).2 =
          ⟨.bool true, .undefined, some ⟨.num s.usuario_id, .str u.username, .str u.rol⟩⟩ := by
        simp [validarSesion, htr, hidx, JsVal.toStr, hq]
      constructor
      · constructor
        · intro _; exact ⟨hidx, s, hs, by rw [ht], ha, he⟩
        · intro _; rw [hres]
      · intro _
        exact ⟨s, hs, u, hu, by rw [ht], ha, he, hid, by rw [hres]⟩
  · have hres : (validarSesion none st now token).2.success = .bool false := by
      simp [validarSesion, hidx]
    constructor
    · constructor
      · intro h; rw [hres] at h; cases h
      · rintro ⟨h, _⟩; exact absurd h hidx
    · intro h; rw [hres] at h; cases h

/-- Witness for `validarSesion_success_iff`: a registry holding one live session. -/
theorem validarSesion_success_iff_witness :
    (validarSesion none
      ⟨[("ab12", ⟨1, "ana", "admin", 0⟩)], [⟨1, "ab12", true, 100⟩], [⟨1, "ana", "admin"⟩]⟩
      50 (.str "ab12")).2.success = .bool true ↔
    (enIndice
      ⟨[("ab12", ⟨1, "ana", "admin", 0⟩)], [⟨1, "ab12", true, 100⟩], [⟨1, "ana", "admin"⟩]⟩
      (.str "ab12") = true ∧
      ∃ s ∈ [(⟨1, "ab12", true, 100⟩ : Sesion)], JsVal.str s.token = .str "ab12" ∧
        s.activa = true ∧ 50 < s.fecha_expiracion) :=
  (validarSesion_success_iff
    ⟨[("ab12", ⟨1, "ana", "admin", 0⟩)], [⟨1, "ab12", true, 100⟩], [⟨1, "ana", "admin"⟩]⟩
    50 (.str "ab12") (by decide)).1

/-! ## Theorems: `actualizarProducto` -/

/-- One successful iteration of the loop: the column pushed, the stock bound
and the movement inserted. -/
theorem procesarCampo_ok (faults : Faults) (id : Nat) (cur : Producto) (acc acc' : UpdateAcc)
    (key : String) (value : JsVal)
    (h : procesarCampo faults id cur acc key value = .ok acc') :
    acc'.fields = acc.fields ++ (if key ∈ allowedFields then [key] else []) ∧
    acc'.stock = stockDeCampo acc.stock (key, value) ∧
    acc'.movimientos = acc.movimientos ++ movimientosDeCampo id cur.stock (key, value) := by
  unfold procesarCampo at h
  by_cases hs : key = "stock"
  · subst hs
    rw [if_pos rfl] at h
    by_cases hv : validateNonNegInt value ≠ cur.stock
    · rw [if_pos hv] at h
      cases hf : faults (.insertMovimiento id) with
      | some e => simp [hf] at h
      | none =>
        simp only [hf] at h
        cases h
        simp [allowedFields, stockDeCampo, movimientosDeCampo, hv]
    · rw [if_neg hv] at h
      cases h
      simp [allowedFields, stockDeCampo, movimientosDeCampo, hv]
  · simp only [hs, if_false] at h
    have hm : movimientosDeCampo id cur.stock (key, value) = [] := by
      simp [movimientosDeCampo, hs]
    have hst : stockDeCampo acc.stock (key, value) = acc.stock := by
      simp [stockDeCampo, hs]
    rw [hm, hst]
    by_cases hn : key = "nombre"
    · subst hn
      rw [if_pos rfl] at h
      cases hv : validateNombre value with
      | error e => simp [hv] at h
      | ok v => simp only [hv] at h; cases h; simp [allowedFields]
    · simp only [hn, if_false] at h
      by_cases hd : key = "descripcion"
      · subst hd
        rw [if_pos rfl] at h
        cases hv : validateNombre value with
        | error e => simp [hv] at h
        | ok v => simp only [hv] at h; cases h; simp [allowedFields]
      · simp only [hd, if_false] at h
        by_cases ha : key ∈ allowedFields
        · simp only [ha, if_true] at h
          cases h; simp [ha]
        · simp only [ha, if_false] at h
          by_cases hi : key ∈ inheritedKeys
          · simp [hi] at h
          · simp only [hi, if_false] at h
            cases h; simp [ha]

/-- A successful run of the loop: the columns pushed, the stock bound and the
movements inserted, entry by entry. -/
theorem procesarCampos_ok (faults : Faults) (id : Nat) (cur : Producto) :
    ∀ (l : List (String × JsVal)) (acc acc' : UpdateAcc),
      procesarCampos faults id cur l acc = .ok acc' →
      acc'.fields = acc.fields ++ (l.map Prod.fst).filter (fun k => decide (k ∈ allowedFields)) ∧
      acc'.stock = l.foldl stockDeCampo acc.stock ∧
      acc'.movimientos = acc.movimientos ++ l.flatMap (movimientosDeCampo id cur.stock) := by
  intro l
  induction l with
  | nil =>
    intro acc acc' h
    simp only [procesarCampos] at h
    cases h
    simp
  | cons kv rest ih =>
    intro acc acc' h
    obtain ⟨key, value⟩ := kv
    simp only [procesarCampos] at h
    cases hstep : procesarCampo faults id cur acc key value with
    | error e => simp [hstep] at h
    | ok mid =>
      simp only [hstep] at h
      obtain ⟨hf, hs, hm⟩ := procesarCampo_ok faults id cur acc mid key value hstep
      obtain ⟨hf', hs', hm'⟩ := ih mid acc' h
      refine ⟨?_, ?_, ?_⟩
      · rw [hf', hf]
        by_cases ha : key ∈ allowedFields <;> simp [List.filter_cons, ha]
      · rw [hs', hs]; rfl
      · rw [hm', hm]; simp [List.flatMap_cons]

/-- Entries none of which is keyed `stock` insert no movement and bind no stock. -/
theorem sinStock (id : Nat) (actual : Int) :
    ∀ (l : List (String × JsVal)) (previo : Option Int), (∀ kv ∈ l, kv.1 ≠ "stock") →
      l.flatMap (movimientosDeCampo id actual) = [] ∧ l.foldl stockDeCampo previo = previo := by
  intro l
  induction l with
  | nil => intro previo _; simp
  | cons kv rest ih =>
    intro previo h
    have hk : kv.1 ≠ "stock" := h kv (List.mem_cons_self _ _)
    obtain ⟨h1, h2⟩ := ih previo (fun x hx => h x (List.mem_cons_of_mem _ hx))
    constructor
    · simp [List.flatMap_cons, movimientosDeCampo, hk, h1]
    · simp [List.foldl_cons, stockDeCampo, hk, h2]

/-- A patch without the key `stock`. -/
theorem lookup_stock_none :
    ∀ (l : List (String × JsVal)), l.lookup "stock" = none → ∀ kv ∈ l, kv.1 ≠ "stock" := by
  intro l
  induction l with
  | nil => intro _ kv hkv; cases hkv
  | cons x rest ih =>
    intro h kv hkv
    obtain ⟨k, v⟩ := x
    by_cases hk : k = "stock"
    · subst hk; simp [List.lookup] at h
    · have hb : ("stock" == k) = false := by simp [Ne.symm hk]
      simp only [List.lookup, hb] at h
      rcases List.mem_cons.1 hkv with rfl | hmem
      · exact hk
      · exact ih h kv hmem

/-- When no column is pushed twice, the patch has at most one entry keyed
`stock`: the loop inserts the movement of that entry only and binds its
validated value. -/
theorem unSoloStock (id : Nat) (actual : Int) (v : JsVal) :
    ∀ (l : List (String × JsVal)) (previo : Option Int),
      ((l.map Prod.fst).filter (fun k => decide (k ∈ allowedFields))).Nodup →
      l.lookup "stock" = some v →
      l.flatMap (movimientosDeCampo id actual) = movimientosDeCampo id actual ("stock", v) ∧
      l.foldl stockDeCampo previo = some (validateNonNegInt v) := by
  intro l
  induction l with
  | nil => intro _ _ h; simp [List.lookup] at h
  | cons x rest ih =>
    intro previo hnd h
    obtain ⟨k, x⟩ := x
    by_cases hk : k = "stock"
    · subst hk
      simp only [List.lookup, beq_self_eq_true, Option.some.injEq] at h
      subst h
      have hin : "stock" ∈ allowedFields := by decide
      simp only [List.map_cons, List.filter_cons, hin, decide_True, if_true,
        List.nodup_cons, List.mem_filter, List.mem_map, not_and, not_exists] at hnd
      have hrest : ∀ kv ∈ rest, kv.1 ≠ "stock" := by
        intro kv hkv heq
        have := hnd.1 ⟨kv, hkv, heq⟩
        simp at this
      obtain ⟨h1, h2⟩ := sinStock id actual rest (some (validateNonNegInt x)) hrest
      constructor
      · simp [List.flatMap_cons, h1]
      · simp only [List.foldl_cons, stockDeCampo, if_true]
        exact h2
    · have hb : ("stock" == k) = false := by simp [Ne.symm hk]
      simp only [List.lookup, hb] at h
      have hnd' : ((rest.map Prod.fst).filter (fun k => decide (k ∈ allowedFields))).Nodup := by
        simp only [List.map_cons, List.filter_cons] at hnd
        split at hnd
        · exact (List.nodup_cons.1 hnd).2
        · exact hnd
      obtain ⟨h1, h2⟩ := ih (stockDeCampo previo (k, x)) hnd' h
      constructor
      · simp [List.flatMap_cons, movimientosDeCampo, hk, h1]
      · simp only [List.foldl_cons]; exact h2

/-- What a committed `actualizarProducto` did: the product was found, the loop
ran to its end without pushing a column twice, and the rows committed are the
updated product and the movements of the loop. -/
theorem actualizarProductoTry_ok (faults : Faults) (db db' : Db) (id : Nat)
    (updateData : Payload) (h : actualizarProductoTry faults db id updateData = .ok db') :
    ∃ cur acc, obtenerProductoPorId faults db id = some cur ∧
      procesarCampos faults id cur updateData ⟨[], none, none, []⟩ = .ok acc ∧
      acc.fields.Nodup ∧
      db' = { db with
        productos := db.productos.map (aplicarUpdate acc id)
        movimientos := db.movimientos ++ acc.movimientos } := by
  unfold actualizarProductoTry at h
  split at h
  · cases h
  · split at h
    · cases h
    · rename_i cur hcur
      split at h
      · cases h
      · rename_i acc hacc
        split at h
        · cases h
        · split at h
          · cases h
          · split at h
            · cases h
            · rename_i hnd
              cases h
              exact ⟨cur, acc, hcur, hacc, not_not.1 hnd, rfl⟩

/-- The result object tells whether `actualizarProducto` committed. -/
theorem actualizarProducto_success (faults : Faults) (db : Db) (id : Nat)
    (updateData : Payload)
    (h : (actualizarProducto faults db id updateData).2 = [("success", .bool true)]) :
    actualizarProductoTry faults db id updateData =
      .ok (actualizarProducto faults db id updateData).1 := by
  unfold actualizarProducto at h ⊢
  cases htry : actualizarProductoTry faults db id updateData with
  | ok db' => rfl
  | error e => simp [htry, failureOf] at h

/-- C7. For every call of `actualizarProducto` that finds the product and
whose patch contains `stock`. When the call completes: if the coerced new stock
differs from the current stock, exactly one movement is appended, with the old
stock as `stock_anterior`, the new stock as `stock_nuevo`, the quantity
`|new - old| > 0` and the type entry when the stock grows and exit otherwise, so
that `stock_nuevo - stock_anterior` is the quantity for an entry and its
opposite for an exit; if the stock is unchanged no movement is appended. When
the call does not complete it is rolled back and commits nothing. -/
theorem actualizarProducto_stock_movement (faults : Faults) (db : Db) (id : Nat)
    (updateData : Payload) (p : Producto) (v : JsVal)
    (hp : obtenerProductoPorId faults db id = some p)
    (hv : updateData.lookup "stock" = some v) :
    ((actualizarProducto faults db id updateData).2 = [("success", .bool true)] →
      (validateNonNegInt v ≠ p.stock →
        (actualizarProducto faults db id updateData).1.movimientos =
          db.movimientos ++
            [⟨id, if validateNonNegInt v > p.stock then .entrada else .salida,
              |validateNonNegInt v - p.stock|, p.stock, validateNonNegInt v,
              "Ajuste manual"⟩] ∧
        0 < |validateNonNegInt v - p.stock| ∧
        (validateNonNegInt v > p.stock →
          validateNonNegInt v - p.stock = |validateNonNegInt v - p.stock|) ∧
        (¬ validateNonNegInt v > p.stock →
          validateNonNegInt v - p.stock = -|validateNonNegInt v - p.stock|)) ∧
      (validateNonNegInt v = p.stock →
        (actualizarProducto faults db id updateData).1.movimientos = db.movimientos)) ∧
    ((actualizarProducto faults db id updateData).2 ≠ [("success", .bool true)] →
      (actualizarProducto faults db id updateData).1 = db) := by
  constructor
  · intro hok
    obtain ⟨cur, acc, hcur, hacc, hnd, hdb⟩ :=
      actualizarProductoTry_ok faults db _ id updateData
        (actualizarProducto_success faults db id updateData hok)
    rw [hp] at hcur
    cases hcur
    obtain ⟨hf, _, hm⟩ := procesarCampos_ok faults id p updateData _ acc hacc
    simp only [List.nil_append] at hf hm
    rw [hf] at hnd
    obtain ⟨hmov, _⟩ := unSoloStock id p.stock v updateData none hnd hv
    rw [hdb]
    simp only [hm, hmov]
    constructor
    · intro hne
      refine ⟨?_, abs_pos.2 (sub_ne_zero.2 hne), ?_, ?_⟩
      · simp [movimientosDeCampo, hne, movimientoAjuste]
      · intro hgt; exact (abs_of_pos (sub_pos.2 hgt)).symm
      · intro hle
        rw [abs_of_nonpos (by omega)]; omega
    · intro heq
      simp [movimientosDeCampo, heq]
  · intro hfail
    unfold actualizarProducto at hfail ⊢
    cases htry : actualizarProductoTry faults db id updateData with
    | ok db' => simp [htry] at hfail
    | error e => rfl

/-- Witness for `actualizarProducto_stock_movement`: the stock of a product is
set from 10 to 7. -/
theorem actualizarProducto_stock_movement_witness :
    (actualizarProducto noFaults ⟨[⟨1, some "Cafe", 10⟩], [], [], 1, 0⟩ 1
      [("stock", .str "7")]).1.movimientos =
      [] ++ [⟨1, if validateNonNegInt (.str "7") > 10 then .entrada else .salida,
        |validateNonNegInt (.str "7") - 10|, 10, validateNonNegInt (.str "7"),
        "Ajuste manual"⟩] :=
  (((actualizarProducto_stock_movement noFaults ⟨[⟨1, some "Cafe", 10⟩], [], [], 1, 0⟩ 1
    [("stock", .str "7")] ⟨1, some "Cafe", 10⟩ (.str "7") (by decide) (by decide)).1
    (by decide)).1 (by decide)).1

/-! ## Theorems: the ledger invariant -/

/-- The balance of two lists of movements put together. -/
theorem saldoLista_append (a b : List Movimiento) (id : Nat) :
    saldoLista (a ++ b) id = saldoLista a id + saldoLista b id := by
  simp [saldoLista, List.filter_append, List.map_append, List.sum_append]

/-- The balance of the movement `actualizarProducto` inserts for a `stock`
entry: the change of the stock, for the product updated. -/
theorem saldoLista_movimientosDeCampo (id id' : Nat) (actual : Int) (v : JsVal) :
    saldoLista (movimientosDeCampo id actual ("stock", v)) id' =
      if id = id' then validateNonNegInt v - actual else 0 := by
  unfold movimientosDeCampo
  by_cases hne : validateNonNegInt v ≠ actual
  · rw [if_pos ⟨rfl, hne⟩]
    by_cases hid : id = id'
    · subst hid
      by_cases hpos : validateNonNegInt v - actual > 0
      · simp [saldoLista, movimientoAjuste, Movimiento.conSigno, hpos, abs_of_pos hpos]
      · have hle : validateNonNegInt v - actual ≤ 0 := by omega
        simp [saldoLista, movimientoAjuste, Movimiento.conSigno, hpos, abs_of_nonpos hle]
    · simp [saldoLista, movimientoAjuste, hid]
  · rw [if_neg (fun h => hne h.2)]
    have : validateNonNegInt v = actual := not_not.1 hne
    by_cases hid : id = id' <;> simp [saldoLista, hid, this]

/-- The validated stock is never negative. -/
theorem validateNonNegInt_nonneg (v : JsVal) : 0 ≤ validateNonNegInt v := by
  unfold validateNonNegInt
  split
  · split
    · assumption
    · exact le_refl 0
  · exact le_refl 0

/-- The product `obtenerProductoPorId` returns is the row the list holds for
that id. -/
theorem obtenerProductoPorId_some (faults : Faults) (db : Db) (id : Nat) (p : Producto)
    (h : obtenerProductoPorId faults db id = some p) :
    db.productos.find? (fun q => q.id == id) = some p := by
  unfold obtenerProductoPorId at h
  split at h
  · cases h
  · exact h

/-- The stock on record after the `UPDATE` of `actualizarProducto`. -/
theorem stockEnLista_update (ps : List Producto) (acc : UpdateAcc) (id id' : Nat)
    (cur : Producto) (hcur : ps.find? (fun q => q.id == id) = some cur) :
    stockEnLista (ps.map (aplicarUpdate acc id)) id' =
      if id = id' then acc.stock.getD cur.stock else stockEnLista ps id' := by
  have hcomp : ((fun q : Producto => q.id == id') ∘ aplicarUpdate acc id) =
      (fun q : Producto => q.id == id') := by
    funext q
    simp only [Function.comp, aplicarUpdate]
    split <;> rfl
  unfold stockEnLista
  rw [List.find?_map, hcomp]
  by_cases hid : id = id'
  · subst hid
    rw [hcur]
    have : cur.id = id := by simpa using List.find?_some hcur
    simp [aplicarUpdate, this]
  · rw [if_neg hid]
    cases hf : ps.find? (fun q => q.id == id') with
    | none => rfl
    | some q =>
      have : q.id = id' := by simpa using List.find?_some hf
      have hq : q.id ≠ id := fun h => hid (h.symm.trans this)
      simp [aplicarUpdate, hq]

/-- The ids of the rows are untouched by the `UPDATE`. -/
theorem map_id_update (ps : List Producto) (acc : UpdateAcc) (id : Nat) :
    (ps.map (aplicarUpdate acc id)).map (fun p => p.id) = ps.map (fun p => p.id) := by
  rw [List.map_map]
  apply List.map_congr_left
  intro p _
  simp only [Function.comp, aplicarUpdate]
  split <;> rfl

/-- A committed `actualizarProducto` keeps the ledger invariant. -/
theorem actualizarProducto_inv (faults : Faults) (db : Db) (id : Nat) (updateData : Payload)
    (hinv : LedgerInv db) : LedgerInv (actualizarProducto faults db id updateData).1 := by
  unfold actualizarProducto
  cases htry : actualizarProductoTry faults db id updateData with
  | error e => exact hinv
  | ok db' =>
    obtain ⟨cur, acc, hcur, hacc, hnd, rfl⟩ := actualizarProductoTry_ok faults db db' id _ htry
    have hfind := obtenerProductoPorId_some faults db id cur hcur
    have hcurid : cur.id = id := by simpa using List.find?_some hfind
    have hcurmem : cur ∈ db.productos := List.mem_of_find?_eq_some hfind
    obtain ⟨hf, hs, hm⟩ := procesarCampos_ok faults id cur updateData _ acc hacc
    simp only [List.nil_append] at hf hm
    rw [hf] at hnd
    -- the stock bound and the movements inserted, by cases on the key `stock`
    have hfacts : (acc.stock = none ∧ acc.movimientos = []) ∨
        ∃ v, acc.stock = some (validateNonNegInt v) ∧
          acc.movimientos = movimientosDeCampo id cur.stock ("stock", v) := by
      cases hl : updateData.lookup "stock" with
      | none =>
        obtain ⟨h1, h2⟩ := sinStock id cur.stock updateData none (lookup_stock_none _ hl)
        exact Or.inl ⟨by rw [hs, h2], by rw [hm, h1]⟩
      | some v =>
        obtain ⟨h1, h2⟩ := unSoloStock id cur.stock v updateData none hnd hl
        exact Or.inr ⟨v, by rw [hs, h2], by rw [hm, h1]⟩
    have hmovid : ∀ m ∈ acc.movimientos, m.producto_id = id := by
      rcases hfacts with ⟨_, h⟩ | ⟨v, _, h⟩
      · rw [h]; intro m hm; cases hm
      · rw [h]; intro m hm
        unfold movimientosDeCampo at hm
        split at hm
        · simp only [List.mem_singleton] at hm; rw [hm]; rfl
        · cases hm
    refine ⟨?_, ?_, ?_, ?_, ?_⟩
    · intro p hp
      simp only [List.mem_map] at hp
      obtain ⟨q, hq, rfl⟩ := hp
      have := hinv.ids_le q hq
      simp only [aplicarUpdate]
      split <;> exact this
    · intro m hmem
      simp only [List.mem_append] at hmem
      rcases hmem with h | h
      · exact hinv.movs_le m h
      · rw [hmovid m h, ← hcurid]; exact hinv.ids_le cur hcurmem
    · show ((db.productos.map (aplicarUpdate acc id)).map (fun p => p.id)).Nodup
      rw [map_id_update]; exact hinv.nodup
    · intro p hp
      simp only [List.mem_map] at hp
      obtain ⟨q, hq, rfl⟩ := hp
      have hq0 := hinv.nonneg q hq
      simp only [aplicarUpdate]
      split
      · rcases hfacts with ⟨h, _⟩ | ⟨v, h, _⟩
        · simp [h, hq0]
        · simp [h, validateNonNegInt_nonneg]
      · exact hq0
    · intro id'
      show saldoLista (db.movimientos ++ acc.movimientos) id' =
        stockEnLista (db.productos.map (aplicarUpdate acc id)) id'
      rw [saldoLista_append, stockEnLista_update _ _ _ _ cur hfind, hinv.saldo id']
      have hcurstock : stockEnLista db.productos id = cur.stock := by
        simp [stockEnLista, hfind]
      rcases hfacts with ⟨h1, h2⟩ | ⟨v, h1, h2⟩
      · rw [h1, h2]
        by_cases hid : id = id'
        · subst hid; simp [saldoLista, hcurstock]
        · simp [saldoLista, hid]
      · rw [h1, h2, saldoLista_movimientosDeCampo]
        by_cases hid : id = id'
        · subst hid; simp [hcurstock]
        · simp [hid]

/-- Drawing ids from the sequence does not disturb the ledger invariant. -/
theorem LedgerInv.seq_mono (db : Db) (n : Nat) (hinv : LedgerInv db) (hn : db.productoSeq ≤ n) :
    LedgerInv { db with productoSeq := n } :=
  ⟨fun p hp => le_trans (hinv.ids_le p hp) hn, fun m hm => le_trans (hinv.movs_le m hm) hn,
    hinv.nodup, hinv.nonneg, hinv.saldo⟩

/-- No row and no movement carries an id the sequence has not drawn yet. -/
theorem LedgerInv.fresh (db : Db) (hinv : LedgerInv db) :
    db.productos.find? (fun q => q.id == db.productoSeq + 1) = none ∧
    saldoLista db.movimientos (db.productoSeq + 1) = 0 := by
  have h1 : db.productos.find? (fun q => q.id == db.productoSeq + 1) = none := by
    rw [List.find?_eq_none]
    intro p hp
    have := hinv.ids_le p hp
    simp only [beq_iff_eq]
    omega
  refine ⟨h1, ?_⟩
  rw [hinv.saldo, stockEnLista, h1]

/-- The committed rows of a successful `agregarProducto`. -/
theorem agregarProductoTry_ok (faults : Faults) (db db' : Db) (data : ProductoData) (id : Nat)
    (h : agregarProductoTry faults db data = .ok (db', id)) :
    ∃ nombre,
      db' = { db with
        productos := db.productos ++ [⟨db.productoSeq + 1, some nombre, data.stock.getD 0⟩]
        movimientos := db.movimientos ++
          (if data.stock.getD 0 > 0 then
            [⟨db.productoSeq + 1, .entrada, data.stock.getD 0, 0, data.stock.getD 0,
              "Stock inicial"⟩]
          else [])
        productoSeq := db.productoSeq + 1 } := by
  unfold agregarProductoTry at h
  split at h
  · cases h
  · rename_i nombre _
    split at h
    · cases h
    · split at h
      · cases h
      · simp only at h
        split at h
        · rename_i hpos
          split at h
          · cases h
          · cases h
            exact ⟨nombre, by simp [hpos]⟩
        · rename_i hpos
          cases h
          exact ⟨nombre, by simp [hpos]⟩

/-- An `agregarProducto` whose stock is not negative keeps the ledger invariant. -/
theorem agregarProducto_inv (faults : Faults) (db : Db) (data : ProductoData)
    (hinv : LedgerInv db) (hstock : 0 ≤ data.stock.getD 0) :
    LedgerInv (agregarProducto faults db data).1 := by
  unfold agregarProducto
  cases htry : agregarProductoTry faults db data with
  | error e =>
    simp only
    split
    · exact hinv.seq_mono db _ (Nat.le_succ _)
    · exact hinv.seq_mono db _ (le_refl _)
  | ok r =>
    obtain ⟨db', id⟩ := r
    obtain ⟨nombre, rfl⟩ := agregarProductoTry_ok faults db db' data id htry
    obtain ⟨hfresh, hsaldo0⟩ := hinv.fresh db
    refine ⟨?_, ?_, ?_, ?_, ?_⟩
    · intro p hp
      simp only [List.mem_append, List.mem_singleton] at hp
      rcases hp with h | rfl
      · exact le_trans (hinv.ids_le p h) (Nat.le_succ _)
      · exact le_refl _
    · intro m hm
      simp only [List.mem_append] at hm
      rcases hm with h | h
      · exact le_trans (hinv.movs_le m h) (Nat.le_succ _)
      · split at h
        · simp only [List.mem_singleton] at h; rw [h]
        · cases h
    · show ((db.productos ++
        [(⟨db.productoSeq + 1, some nombre, data.stock.getD 0⟩ : Producto)]).map
        (fun p => p.id)).Nodup
      rw [List.map_append, List.nodup_append]
      refine ⟨hinv.nodup, by simp, ?_⟩
      rw [List.disjoint_left]
      intro a ha hb
      rw [List.mem_map] at ha
      obtain ⟨p, hp, rfl⟩ := ha
      simp only [List.map_cons, List.map_nil, List.mem_singleton] at hb
      have := hinv.ids_le p hp
      omega
    · intro p hp
      simp only [List.mem_append, List.mem_singleton] at hp
      rcases hp with h | rfl
      · exact hinv.nonneg p h
      · exact hstock
    · intro id'
      show saldoLista (db.movimientos ++ _) id' = stockEnLista (db.productos ++ _) id'
      rw [saldoLista_append]
      by_cases hid : db.productoSeq + 1 = id'
      · subst hid
        rw [hsaldo0]
        simp only [stockEnLista, List.find?_append, hfresh, Option.none_or]
        by_cases hpos : data.stock.getD 0 > 0
        · simp [saldoLista, Movimiento.conSigno, hpos]
        · have : data.stock.getD 0 = 0 := by omega
          simp [saldoLista, this]
      · rw [hinv.saldo id']
        have hnone : List.find? (fun q : Producto => q.id == id')
            [⟨db.productoSeq + 1, some nombre, data.stock.getD 0⟩] = none := by
          have hb : (db.productoSeq + 1 == id') = false := by simp [hid]
          simp [List.find?, hb]
        simp only [stockEnLista, List.find?_append, hnone, Option.or_none]
        by_cases hpos : data.stock.getD 0 > 0
        · simp [saldoLista, hpos, hid]
        · simp [saldoLista, hpos]

/-- The committed rows of a successful `eliminarProducto`. -/
theorem eliminarProductoTry_ok (faults : Faults) (db db' : Db) (id : Nat)
    (h : eliminarProductoTry faults db id = .ok db') :
    ∃ cur, obtenerProductoPorId faults db id = some cur ∧
      db' = { db with
        productos := db.productos.filter (fun p => p.id != id)
        movimientos := db.movimientos ++
          (if cur.stock > 0 then [⟨id, .salida, cur.stock, cur.stock, 0, "Producto eliminado"⟩]
          else []) } := by
  have hborrar : ∀ cierre, borrarFila faults db id cierre = .ok db' →
      db' = { db with
        productos := db.productos.filter (fun p => p.id != id)
        movimientos := db.movimientos ++ cierre } := by
    intro cierre hb
    unfold borrarFila at hb
    split at hb
    · cases hb
    · split at hb
      · cases hb
      · cases hb; rfl
  unfold eliminarProductoTry at h
  split at h
  · cases h
  · split at h
    · cases h
    · rename_i cur hcur
      split at h
      · rename_i hpos
        split at h
        · cases h
        · exact ⟨cur, hcur, by rw [hborrar _ h]; simp [hpos]⟩
      · rename_i hpos
        exact ⟨cur, hcur, by rw [hborrar _ h]; simp [hpos]⟩

/-- The stock on record after the `DELETE` of `eliminarProducto`. -/
theorem stockEnLista_delete (ps : List Producto) (id id' : Nat) :
    stockEnLista (ps.filter (fun p => p.id != id)) id' =
      if id = id' then 0 else stockEnLista ps id' := by
  induction ps with
  | nil => simp [stockEnLista]
  | cons p rest ih =>
    by_cases hp : p.id = id
    · have hf : (p :: rest).filter (fun q => q.id != id) = rest.filter (fun q => q.id != id) := by
        simp [List.filter_cons, hp]
      rw [hf, ih]
      by_cases hid : id = id'
      · simp [hid]
      · have hb : (p.id == id') = false := by simp [hp, hid]
        simp [hid, stockEnLista, List.find?_cons, hb]
    · have hf : (p :: rest).filter (fun q => q.id != id) =
          p :: rest.filter (fun q => q.id != id) := by
        simp [List.filter_cons, hp]
      rw [hf]
      by_cases hp' : p.id = id'
      · have hid : id ≠ id' := fun h => hp (hp'.trans h.symm)
        simp [stockEnLista, List.find?_cons, hp', hid]
      · have hb : (p.id == id') = false := by simp [hp']
        have h1 : stockEnLista (p :: rest.filter (fun q => q.id != id)) id' =
            stockEnLista (rest.filter (fun q => q.id != id)) id' := by
          simp [stockEnLista, List.find?_cons, hb]
        have h2 : stockEnLista (p :: rest) id' = stockEnLista rest id' := by
          simp [stockEnLista, List.find?_cons, hb]
        rw [h1, h2, ih]

/-- A committed `eliminarProducto` keeps the ledger invariant. -/
theorem eliminarProducto_inv (faults : Faults) (db : Db) (id : Nat) (hinv : LedgerInv db) :
    LedgerInv (eliminarProducto faults db id).1 := by
  unfold eliminarProducto
  cases htry : eliminarProductoTry faults db id with
  | error e => exact hinv
  | ok db' =>
    obtain ⟨cur, hcur, rfl⟩ := eliminarProductoTry_ok faults db db' id htry
    have hfind := obtenerProductoPorId_some faults db id cur hcur
    have hcurid : cur.id = id := by simpa using List.find?_some hfind
    have hcurmem : cur ∈ db.productos := List.mem_of_find?_eq_some hfind
    have hcur0 := hinv.nonneg cur hcurmem
    have hcurstock : stockEnLista db.productos id = cur.stock := by
      simp [stockEnLista, hfind]
    refine ⟨?_, ?_, ?_, ?_, ?_⟩
    · intro p hp
      exact hinv.ids_le p (List.mem_filter.1 hp).1
    · intro m hm
      simp only [List.mem_append] at hm
      rcases hm with h | h
      · exact hinv.movs_le m h
      · split at h
        · simp only [List.mem_singleton] at h
          rw [h]; show id ≤ db.productoSeq
          rw [← hcurid]; exact hinv.ids_le cur hcurmem
        · cases h
    · show ((db.productos.filter (fun p => p.id != id)).map (fun p => p.id)).Nodup
      exact hinv.nodup.sublist ((List.filter_sublist _).map _)
    · intro p hp
      exact hinv.nonneg p (List.mem_filter.1 hp).1
    · intro id'
      show saldoLista (db.movimientos ++ _) id' =
        stockEnLista (db.productos.filter (fun p => p.id != id)) id'
      rw [saldoLista_append, stockEnLista_delete, hinv.saldo id']
      by_cases hid : id = id'
      · subst hid
        rw [if_pos rfl, hcurstock]
        by_cases hpos : cur.stock > 0
        · simp [saldoLista, Movimiento.conSigno, hpos]
        · have : cur.stock = 0 := by omega
          simp [saldoLista, this]
      · rw [if_neg hid]
        by_cases hpos : cur.stock > 0
        · simp [saldoLista, hpos, hid]
        · simp [saldoLista, hpos]

/-- Any sequence of ledger calls whose `agregarProducto` stocks are not negative
keeps the ledger invariant. -/
theorem runOps_inv : ∀ (ops : List (Faults × Op)) (db : Db),
    altasNoNegativas ops = true → LedgerInv db → LedgerInv (runOps ops db) := by
  intro ops
  induction ops with
  | nil => intro db _ hinv; exact hinv
  | cons fo rest ih =>
    intro db hops hinv
    obtain ⟨faults, op⟩ := fo
    simp only [altasNoNegativas, List.all_cons, Bool.and_eq_true] at hops
    obtain ⟨hop, hrest⟩ := hops
    simp only [runOps]
    apply ih _ hrest
    cases op with
    | agregar data =>
      exact agregarProducto_inv faults db data hinv (by simpa using hop)
    | actualizar id updateData => exact actualizarProducto_inv faults db id updateData hinv
    | eliminar id => exact eliminarProducto_inv faults db id hinv

/-- The empty database satisfies the ledger invariant. -/
theorem ledgerInv_vacia : LedgerInv Db.vacia :=
  ⟨fun _ h => absurd h (List.not_mem_nil _), fun _ h => absurd h (List.not_mem_nil _),
    List.nodup_nil, fun _ h => absurd h (List.not_mem_nil _), fun _ => rfl⟩

/-- With ids not repeated, the stock a list holds for the id of one of its rows
is the stock of that row. -/
theorem stockEnLista_mem : ∀ (ps : List Producto) (p : Producto),
    (ps.map (fun q => q.id)).Nodup → p ∈ ps → stockEnLista ps p.id = p.stock := by
  intro ps
  induction ps with
  | nil => intro p _ hp; cases hp
  | cons q rest ih =>
    intro p hnd hp
    simp only [List.map_cons, List.nodup_cons, List.mem_map, not_exists, not_and] at hnd
    rcases List.mem_cons.1 hp with rfl | hmem
    · simp [stockEnLista, List.find?_cons]
    · have hne : q.id ≠ p.id := fun h => hnd.1 p hmem h.symm
      have hb : (q.id == p.id) = false := by simp [hne]
      have : stockEnLista (q :: rest) p.id = stockEnLista rest p.id := by
        simp [stockEnLista, List.find?_cons, hb]
      rw [this]
      exact ih p hnd.2 hmem

/-- C6 as stated fails. After `agregarProducto` with the initial stock 10 the
product has the stock 10 and its movements add up to 10, the initial stock
being logged as an entry; the stock minus the initial stock is 0. -/
theorem saldo_counts_initial_stock :
    (runOps [(noFaults, .agregar ⟨.str "Cafe", .num 1, some 10⟩)] Db.vacia).productos
      = [⟨1, some "Cafe", 10⟩] ∧
    saldoMovimientos (runOps [(noFaults, .agregar ⟨.str "Cafe", .num 1, some 10⟩)] Db.vacia) 1
      = 10 ∧
    saldoMovimientos (runOps [(noFaults, .agregar ⟨.str "Cafe", .num 1, some 10⟩)] Db.vacia) 1
      ≠ 10 - 10 := by
  decide

/-- C6 (amended). After any sequence of `agregarProducto`, `actualizarProducto`
and `eliminarProducto` calls on an empty store, whatever the store rejects, in
which no `agregarProducto` is given a negative stock, the signed quantities of
the movements recorded for a product (entry positive, exit negative) add up to
the stock of the product. -/
theorem saldo_equals_stock (ops : List (Faults × Op)) (h : altasNoNegativas ops = true) :
    ∀ p ∈ (runOps ops Db.vacia).productos,
      saldoMovimientos (runOps ops Db.vacia) p.id = p.stock := by
  intro p hp
  have hinv := runOps_inv ops Db.vacia h ledgerInv_vacia
  unfold saldoMovimientos
  rw [hinv.saldo p.id]
  exact stockEnLista_mem _ p hinv.nodup hp

/-- Witness for `saldo_equals_stock`: a product created with the stock 10 and
set to 7, next to a second product created and deleted; the movements of the
first add up to 7. -/
theorem saldo_equals_stock_witness :
    saldoMovimientos (runOps
      [(noFaults, .agregar ⟨.str "Cafe", .num 1, some 10⟩),
       (noFaults, .actualizar 1 [("stock", .str "7")]),
       (noFaults, .agregar ⟨.str "Te", .num 1, some 3⟩),
       (noFaults, .eliminar 2)] Db.vacia) 1 = 7 :=
  saldo_equals_stock
    [(noFaults, .agregar ⟨.str "Cafe", .num 1, some 10⟩),
     (noFaults, .actualizar 1 [("stock", .str "7")]),
     (noFaults, .agregar ⟨.str "Te", .num 1, some 3⟩),
     (noFaults, .eliminar 2)] (by decide) ⟨1, some "Cafe", 7⟩ (by decide)

/-- A patch that sets the stock only is committed whenever the product is found
and the store rejects neither the movement nor the update. -/
theorem actualizarProducto_stock_only_commits (faults : Faults) (db : Db) (id : Nat)
    (p : Producto) (v : JsVal) (hid : id ≠ 0)
    (hp : obtenerProductoPorId faults db id = some p)
    (hmov : faults (.insertMovimiento id) = none)
    (hupd : faults (.updateProducto id) = none) :
    (actualizarProducto faults db id [("stock", v)]).2 = [("success", .bool true)] := by
  unfold actualizarProducto actualizarProductoTry
  rw [if_neg hid, hp]
  by_cases hne : validateNonNegInt v ≠ p.stock
  · simp [procesarCampos, procesarCampo, hne, hmov, hupd]
  · simp [procesarCampos, procesarCampo, hne, hupd]

/-! ## Theorems: expiry, logout and login -/

/-- A token absent from the in-memory index is not validated. -/
theorem validarSesion_not_in_index (qf : Option ErrorObject) (st : AuthState) (now : Nat)
    (token : JsVal) (h : enIndice st token = false) :
    validarSesion qf st now token = (st, ⟨.bool false, .str "Sesión inválida", none⟩) := by
  simp [validarSesion, h]

/-- An answer of `validarSesion` is a success only when the session query
returned a row. -/
theorem validarSesion_success_row (qf : Option ErrorObject) (st : AuthState) (now : Nat)
    (token : JsVal) (h : (validarSesion qf st now token).2.success ≠ .bool false) :
    ∃ row rest, consultaSesion st now token.toStr = row :: rest := by
  unfold validarSesion at h
  split at h
  · exact absurd rfl h
  · split at h
    · exact absurd rfl h
    · split at h
      · exact absurd rfl h
      · rename_i sesion u rest hq
        exact ⟨(sesion, u), rest, hq⟩

/-- When every durable row of a token is expired at `now`, validating the token
at `now` or later fails, whatever the index holds and whatever the store does. -/
theorem validarSesion_expired_fails (qf : Option ErrorObject) (st : AuthState)
    (now now' : Nat) (t : String)
    (hexp : ∀ s ∈ st.sesiones, s.token = t → s.fecha_expiracion ≤ now) (hle : now ≤ now') :
    (validarSesion qf st now' (.str t)).2.success = .bool false := by
  by_contra h
  obtain ⟨row, rest, hq⟩ := validarSesion_success_row qf st now' (.str t) h
  obtain ⟨s, u⟩ := row
  have hmem : (s, u) ∈ consultaSesion st now' t := by
    simp only [JsVal.toStr] at hq
    rw [hq]; exact List.mem_cons_self _ _
  obtain ⟨hs, ht, _, he, _, _⟩ := (mem_consultaSesion st now' t s u).1 hmem
  have := hexp s hs ht
  omega

/-- Calls other than `login` add no session row and move no expiry: rows of a
token that are all expired stay so. -/
theorem runAuthOps_expired (now : Nat) (t : String) :
    ∀ (ops : List AuthOp) (st : AuthState),
      (∀ s ∈ st.sesiones, s.token = t → s.fecha_expiracion ≤ now) →
      ∀ s ∈ (runAuthOps ops st).sesiones, s.token = t → s.fecha_expiracion ≤ now := by
  intro ops
  induction ops with
  | nil => intro st h; exact h
  | cons op rest ih =>
    intro st h
    simp only [runAuthOps]
    apply ih
    cases op with
    | validarSesion qf n token =>
      have hs : (validarSesion qf st n token).1.sesiones = st.sesiones := by
        unfold validarSesion
        split
        · rfl
        · split
          · rfl
          · split
            · cases token <;> rfl
            · rfl
      simp only [AuthOp.run, hs]
      exact h
    | logout qf token =>
      intro s hs ht
      cases qf with
      | some e => exact h s hs ht
      | none =>
        have hs' : s ∈ st.sesiones.map (desactivar token) := by
          cases token <;> exact hs
        obtain ⟨s0, hs0, rfl⟩ := List.mem_map.1 hs'
        have key : (desactivar token s0).token = s0.token ∧
            (desactivar token s0).fecha_expiracion = s0.fecha_expiracion := by
          unfold desactivar; split <;> exact ⟨rfl, rfl⟩
        rw [key.2]
        exact h s0 hs0 (key.1 ▸ ht)
    | limpiarSesionesExpiradas qf n =>
      intro s hs ht
      cases qf with
      | some e => exact h s hs ht
      | none => exact h s (List.mem_filter.1 hs).1 ht

/-- What `validarSesion` does when the token is in the index and the session
query returns no row: it deletes the token from the index and reports an
expired session; the tables are the ones it found. -/
theorem validarSesion_expiry (st : AuthState) (now : Nat) (t : String) (hne : t ≠ "")
    (hidx : enIndice st (.str t) = true) (hq : consultaSesion st now t = []) :
    validarSesion none st now (.str t) =
      ({ st with sesionesActivas := st.sesionesActivas.filter (fun kv => kv.1 != t) },
        ⟨.bool false, .str "Sesión expirada", none⟩) := by
  have htr : (JsVal.str t).truthy = true := by simp [JsVal.truthy, hne]
  unfold validarSesion
  rw [if_neg (by simp [htr, hidx])]
  simp only [JsVal.toStr, hq, borrarDeIndice]

/-- A token deleted from the index is no longer in it. -/
theorem enIndice_borrarDeIndice (st : AuthState) (t : String) :
    enIndice { st with sesionesActivas := st.sesionesActivas.filter (fun kv => kv.1 != t) }
      (.str t) = false := by
  simp [enIndice]

/-- C11. A token that is in the in-memory index while every durable row of it
is expired: validating it fails, whatever the store does, and evicts the token
from the index once the session query is answered; every later
`validarSesion` call with that token fails too, whatever calls other than
`login` are made in between and whatever the store does. -/
theorem validarSesion_expired_token (st : AuthState) (now : Nat) (t : String)
    (hidx : enIndice st (.str t) = true) (hne : t ≠ "")
    (hexp : ∀ s ∈ st.sesiones, s.token = t → s.fecha_expiracion ≤ now) :
    (∀ qf, (validarSesion qf st now (.str t)).2.success = .bool false) ∧
    enIndice (validarSesion none st now (.str t)).1 (.str t) = false ∧
    (∀ qf ops qf' now', (∀ op ∈ ops, op.desde now = true) → now ≤ now' →
      (validarSesion qf' (runAuthOps ops (validarSesion qf st now (.str t)).1) now'
        (.str t)).2.success = .bool false) := by
  refine ⟨fun qf => validarSesion_expired_fails qf st now now t hexp (le_refl _), ?_, ?_⟩
  · have hq : consultaSesion st now t = [] := by
      cases hc : consultaSesion st now t with
      | nil => rfl
      | cons row rest =>
        obtain ⟨s, u⟩ := row
        have hmem : (s, u) ∈ consultaSesion st now t := by rw [hc]; exact List.mem_cons_self _ _
        obtain ⟨hs, ht, _, he, _, _⟩ := (mem_consultaSesion st now t s u).1 hmem
        have := hexp s hs ht
        omega
    rw [validarSesion_expiry st now t hne hidx hq]
    exact enIndice_borrarDeIndice st t
  · intro qf ops qf' now' _ hle
    apply validarSesion_expired_fails qf' _ now now' t _ hle
    apply runAuthOps_expired now t ops
    have hs : (validarSesion qf st now (.str t)).1.sesiones = st.sesiones := by
      unfold validarSesion
      split
      · rfl
      · split
        · rfl
        · split <;> rfl
    rw [hs]; exact hexp

/-- Witness for `validarSesion_expired_token`: a session that expired at 100 is
validated at 200, and again at 300 after a sweep. -/
theorem validarSesion_expired_token_witness :
    enIndice (validarSesion none
      ⟨[("ab12", ⟨1, "ana", "admin", 0⟩)], [⟨1, "ab12", true, 100⟩], [⟨1, "ana", "admin"⟩]⟩
      200 (.str "ab12")).1 (.str "ab12") = false ∧
    (validarSesion none (runAuthOps [.limpiarSesionesExpiradas none 250]
      (validarSesion none
        ⟨[("ab12", ⟨1, "ana", "admin", 0⟩)], [⟨1, "ab12", true, 100⟩], [⟨1, "ana", "admin"⟩]⟩
        200 (.str "ab12")).1) 300 (.str "ab12")).2.success = .bool false :=
  ⟨(validarSesion_expired_token
      ⟨[("ab12", ⟨1, "ana", "admin", 0⟩)], [⟨1, "ab12", true, 100⟩], [⟨1, "ana", "admin"⟩]⟩
      200 "ab12" (by decide) (by decide) (by decide)).2.1,
    (validarSesion_expired_token
      ⟨[("ab12", ⟨1, "ana", "admin", 0⟩)], [⟨1, "ab12", true, 100⟩], [⟨1, "ana", "admin"⟩]⟩
      200 "ab12" (by decide) (by decide) (by decide)).2.2 none
      [.limpiarSesionesExpiradas none 250] none 300 (by decide) (by decide)⟩

/-- C12 as stated fails. A session that expired at 100 is validated at 200: the
token leaves the in-memory index, but the durable row is the one found, its
active flag still true. -/
theorem validarSesion_leaves_row_active :
    validarSesion none
      ⟨[("ab12", ⟨1, "ana", "admin", 0⟩)], [⟨1, "ab12", true, 100⟩], [⟨1, "ana", "admin"⟩]⟩
      200 (.str "ab12")
    = (⟨[], [⟨1, "ab12", true, 100⟩], [⟨1, "ana", "admin"⟩]⟩,
       ⟨.bool false, .str "Sesión expirada", none⟩) := by
  decide

/-- C12 (amended). When `validarSesion` finds that a session has expired (the
token is in the index and the session query returns no row), the token is
evicted from the in-memory index and the call fails with `Sesión expirada`;
the durable rows are left as they were, the active flag included. -/
theorem validarSesion_expiry_evicts_only (st : AuthState) (now : Nat) (t : String)
    (hne : t ≠ "") (hidx : enIndice st (.str t) = true)
    (hq : consultaSesion st now t = []) :
    (validarSesion none st now (.str t)).2 = ⟨.bool false, .str "Sesión expirada", none⟩ ∧
    enIndice (validarSesion none st now (.str t)).1 (.str t) = false ∧
    (validarSesion none st now (.str t)).1.sesiones = st.sesiones ∧
    (validarSesion none st now (.str t)).1.usuarios = st.usuarios := by
  rw [validarSesion_expiry st now t hne hidx hq]
  exact ⟨rfl, enIndice_borrarDeIndice st t, rfl, rfl⟩

/-- Witness for `validarSesion_expiry_evicts_only`: the session that expired at
100, validated at 200. -/
theorem validarSesion_expiry_evicts_only_witness :
    (validarSesion none
      ⟨[("ab12", ⟨1, "ana", "admin", 0⟩)], [⟨1, "ab12", true, 100⟩], [⟨1, "ana", "admin"⟩]⟩
      200 (.str "ab12")).1.sesiones = [⟨1, "ab12", true, 100⟩] :=
  (validarSesion_expiry_evicts_only
    ⟨[("ab12", ⟨1, "ana", "admin", 0⟩)], [⟨1, "ab12", true, 100⟩], [⟨1, "ana", "admin"⟩]⟩
    200 "ab12" (by decide) (by decide) (by decide)).2.2.1

/-- The `UPDATE` of `logout` applied twice is the `UPDATE` applied once. -/
theorem desactivar_idem (token : Option String) (s : Sesion) :
    desactivar token (desactivar token s) = desactivar token s := by
  unfold desactivar
  by_cases h : some s.token = token <;> simp [h]

/-- C13 as stated fails. The store refuses the connection while `logout` sends
its `UPDATE`: the call reports `success: false` with the message of the error,
and neither the index nor the session row changes. -/
theorem logout_fails_when_store_rejects :
    logout (some ⟨.str "Error", .str "connect ECONNREFUSED 127.0.0.1:5432",
        .str "ECONNREFUSED", .undefined⟩)
      ⟨[("ab12", ⟨1, "ana", "admin", 0⟩)], [⟨1, "ab12", true, 100⟩], [⟨1, "ana", "admin"⟩]⟩
      (some "ab12")
    = (⟨[("ab12", ⟨1, "ana", "admin", 0⟩)], [⟨1, "ab12", true, 100⟩], [⟨1, "ana", "admin"⟩]⟩,
       [("success", .bool false), ("error", .str "connect ECONNREFUSED 127.0.0.1:5432")]) := by
  decide

/-- C13 (amended). Whenever the store executes the `UPDATE`, `logout(token)`
returns `success: true` for every state of the registry and every token, known
or not, revoked or not; afterwards every durable row of the token is inactive
and the token is absent from the index, and a second `logout` returns the same
and leaves the same state. When the store rejects the `UPDATE`, `logout`
returns `success: false` with the message and changes nothing. -/
theorem logout_idempotent (st : AuthState) (token : Option String) :
    (logout none st token).2 = [("success", .bool true)] ∧
    logout none (logout none st token).1 token = logout none st token ∧
    (∀ s ∈ (logout none st token).1.sesiones, some s.token = token → s.activa = false) ∧
    enIndice (logout none st token).1 (tokenVal token) = false ∧
    (∀ e, logout (some e) st token = (st, failureOf e)) := by
  refine ⟨rfl, ?_, ?_, ?_, fun e => rfl⟩
  · cases token with
    | none => simp [logout, borrarDeIndice, tokenVal, desactivar]
    | some t =>
      simp only [logout, borrarDeIndice, tokenVal, List.map_map, List.filter_filter,
        Bool.and_self]
      congr 2
      apply List.map_congr_left
      intro s _
      exact desactivar_idem (some t) s
  · intro s hs ht
    have hs' : s ∈ st.sesiones.map (desactivar token) := by
      cases token <;> exact hs
    obtain ⟨s0, _, rfl⟩ := List.mem_map.1 hs'
    unfold desactivar at ht ⊢
    split
    · rfl
    · rename_i hne
      rw [if_neg hne] at ht
      exact absurd ht hne
  · cases token with
    | none => rfl
    | some t => simp [logout, borrarDeIndice, tokenVal, enIndice]

/-- Witness for `logout_idempotent`: a second `logout` of a live session changes
nothing more. -/
theorem logout_idempotent_witness :
    logout none (logout none
      ⟨[("ab12", ⟨1, "ana", "admin", 0⟩)], [⟨1, "ab12", true, 100⟩], [⟨1, "ana", "admin"⟩]⟩
      (some "ab12")).1 (some "ab12") =
    logout none
      ⟨[("ab12", ⟨1, "ana", "admin", 0⟩)], [⟨1, "ab12", true, 100⟩], [⟨1, "ana", "admin"⟩]⟩
      (some "ab12") :=
  (logout_idempotent
    ⟨[("ab12", ⟨1, "ana", "admin", 0⟩)], [⟨1, "ab12", true, 100⟩], [⟨1, "ana", "admin"⟩]⟩
    (some "ab12")).2.1

/-- C14. A login with a wrong password for an existing username and a login
with a username that does not exist resolve to the same result and leave the
same state, whatever the store does; when the store answers, that result is
the failure with the one message `Credenciales incorrectas`. -/
theorem login_same_failure (env : LoginEnv) (st : AuthState)
    (username₁ password₁ username₂ password₂ : String)
    (_hexists : ∃ u ∈ st.usuarios, u.username = username₁)
    (hwrong : ∀ u ∈ st.usuarios, u.username = username₁ → env.verifica u password₁ = false)
    (habsent : ∀ u ∈ st.usuarios, u.username ≠ username₂) :
    login env st username₁ password₁ = login env st username₂ password₂ ∧
    (env.selectFault = none →
      login env st username₁ password₁ = (st, .failure "Credenciales incorrectas")) := by
  have h1 : consultaLogin env st username₁ password₁ = [] := by
    simp only [consultaLogin, List.filter_eq_nil_iff, Bool.and_eq_true, beq_iff_eq, not_and,
      Bool.not_eq_true]
    exact hwrong
  have h2 : consultaLogin env st username₂ password₂ = [] := by
    simp only [consultaLogin, List.filter_eq_nil_iff, Bool.and_eq_true, beq_iff_eq, not_and,
      Bool.not_eq_true]
    intro u hu hname
    exact absurd hname (habsent u hu)
  constructor
  · unfold login
    rw [h1, h2]
  · intro hsel
    unfold login
    rw [hsel, h1]

/-- Witness for `login_same_failure`: the user `ana` with a wrong password and
the unknown user `bob`. -/
theorem login_same_failure_witness :
    login ⟨fun u p => u.id == 1 && p == "secreto", none, none, fun _ => 0, 5, true, 1000⟩
        ⟨[], [], [⟨1, "ana", "admin"⟩]⟩ "ana" "clave" =
      login ⟨fun u p => u.id == 1 && p == "secreto", none, none, fun _ => 0, 5, true, 1000⟩
        ⟨[], [], [⟨1, "ana", "admin"⟩]⟩ "bob" "clave" :=
  (login_same_failure
    ⟨fun u p => u.id == 1 && p == "secreto", none, none, fun _ => 0, 5, true, 1000⟩
    ⟨[], [], [⟨1, "ana", "admin"⟩]⟩ "ana" "clave" "bob" "clave"
    ⟨⟨1, "ana", "admin"⟩, by decide, by decide⟩ (by decide) (by decide)).1

/-- The hexadecimal digits are pairwise distinct characters of `0123456789abcdef`. -/
theorem hexDigit_spec :
    (∀ a b : Fin 16, hexDigit a.val = hexDigit b.val → a = b) ∧
    (∀ a : Fin 16, hexDigit a.val ∈ "0123456789abcdef".toList) := by
  decide

/-- The hexadecimal digits of a byte determine the byte. -/
theorem hexByte_injective (a b : Fin 256) (h : hexByte a = hexByte b) : a = b := by
  simp only [hexByte, List.cons.injEq, and_true] at h
  have ha1 : a.val / 16 < 16 := by omega
  have ha2 : a.val % 16 < 16 := by omega
  have hb1 : b.val / 16 < 16 := by omega
  have hb2 : b.val % 16 < 16 := by omega
  have e1 := hexDigit_spec.1 ⟨_, ha1⟩ ⟨_, hb1⟩ h.1
  have e2 := hexDigit_spec.1 ⟨_, ha2⟩ ⟨_, hb2⟩ h.2
  simp only [Fin.mk.injEq] at e1 e2
  apply Fin.ext
  omega

/-- The hexadecimal text of a sequence of bytes determines the sequence. -/
theorem flatMap_hexByte_injective :
    ∀ (l₁ l₂ : List (Fin 256)), l₁.flatMap hexByte = l₂.flatMap hexByte → l₁ = l₂ := by
  intro l₁
  induction l₁ with
  | nil =>
    intro l₂ h
    cases l₂ with
    | nil => rfl
    | cons b bs => simp [List.flatMap_cons, hexByte] at h
  | cons a as ih =>
    intro l₂ h
    cases l₂ with
    | nil => simp [List.flatMap_cons, hexByte] at h
    | cons b bs =>
      simp only [List.flatMap_cons, hexByte, List.cons_append, List.nil_append,
        List.cons.injEq] at h
      obtain ⟨h1, h2, h3⟩ := h
      have hab : a = b := hexByte_injective a b (by simp [hexByte, h1, h2])
      rw [hab, ih bs h3]

/-- The hexadecimal text of `n` bytes has `2 * n` characters, all hexadecimal
digits. -/
theorem flatMap_hexByte_chars (l : List (Fin 256)) :
    (l.flatMap hexByte).length = 2 * l.length ∧
    ∀ c ∈ l.flatMap hexByte, c ∈ "0123456789abcdef".toList := by
  induction l with
  | nil => simp
  | cons a as ih =>
    constructor
    · simp only [List.flatMap_cons, List.length_append, ih.1, hexByte, List.length_cons,
        List.length_nil]
      omega
    · intro c hc
      simp only [List.flatMap_cons, List.mem_append, hexByte, List.mem_cons,
        List.mem_singleton, List.not_mem_nil, or_false] at hc
      rcases hc with (rfl | rfl) | hc
      · exact hexDigit_spec.2 ⟨a.val / 16, by omega⟩
      · exact hexDigit_spec.2 ⟨a.val % 16, by omega⟩
      · exact ih.2 c hc

/-- The value stored by `sesionesActivas.set(token, value)` is the one read back
under the token. -/
theorem lookup_ponerEnIndice (indice : List (String × SesionActiva)) (token : String)
    (value : SesionActiva) : (ponerEnIndice indice token value).lookup token = some value := by
  unfold ponerEnIndice
  split
  · rename_i hany
    induction indice with
    | nil => simp at hany
    | cons kv rest ih =>
      by_cases hk : kv.1 = token
      · obtain ⟨k, v⟩ := kv
        simp only at hk
        subst hk
        show List.lookup k ((if (k, v).1 = k then (k, value) else (k, v)) :: _) = _
        rw [if_pos rfl]
        simp [List.lookup]
      · have hb : (token == kv.1) = false := by simp [Ne.symm hk]
        have hrest : (rest.any fun kv => kv.1 == token) = true := by
          simpa [hk] using hany
        simp only [List.map_cons, if_neg hk]
        obtain ⟨k, v⟩ := kv
        simp only [List.lookup] 
        simp only at hb
        rw [hb]
        exact ih hrest
  · rename_i hany
    induction indice with
    | nil => simp [List.lookup]
    | cons kv rest ih =>
      obtain ⟨k, v⟩ := kv
      have hk : k ≠ token := by
        intro h; apply hany; simp [h]
      have hb : (token == k) = false := by simp [Ne.symm hk]
      have hrest : ¬ (rest.any fun kv => kv.1 == token) = true := by
        intro h; apply hany; simp only [List.any_cons, h, Bool.or_true]
      simp only [List.cons_append, List.lookup, hb]
      exact ih hrest

/-- C15. On a credential match, when the store executes both statements, `login`
generates the token as the hexadecimal text of the 32 random bytes (64
hexadecimal characters, from which the 256 bits can be read back), appends a
session row for the id of the user and the token, stores the token in the
in-memory index with the id, username and role of the user, and returns
success with the user and the token. -/
theorem login_issues_session (env : LoginEnv) (st : AuthState) (username password : String)
    (user : Usuario) (rest : List Usuario)
    (hsel : env.selectFault = none) (hins : env.insertFault = none)
    (hmatch : consultaLogin env st username password = user :: rest) :
    (login env st username password).2 =
      .success user (generarToken env.randomBytes) user.rol ∧
    (login env st username password).1.sesiones =
      st.sesiones ++
        [⟨user.id, generarToken env.randomBytes, env.activaDefault, env.expiracionDefault⟩] ∧
    (login env st username password).1.sesionesActivas.lookup (generarToken env.randomBytes) =
      some ⟨user.id, user.username, user.rol, env.dateNow⟩ ∧
    (generarToken env.randomBytes).length = 64 ∧
    (∀ c ∈ (generarToken env.randomBytes).toList, c ∈ "0123456789abcdef".toList) ∧
    (∀ other : Fin 32 → Fin 256,
      generarToken other = generarToken env.randomBytes → other = env.randomBytes) := by
  have hlogin : login env st username password =
      ({ st with
          sesiones := st.sesiones ++
            [⟨user.id, generarToken env.randomBytes, env.activaDefault,
              env.expiracionDefault⟩]
          sesionesActivas := ponerEnIndice st.sesionesActivas (generarToken env.randomBytes)
            ⟨user.id, user.username, user.rol, env.dateNow⟩ },
        .success user (generarToken env.randomBytes) user.rol) := by
    unfold login
    rw [hsel, hmatch, hins]
  rw [hlogin]
  refine ⟨rfl, rfl, lookup_ponerEnIndice _ _ _, ?_, ?_, ?_⟩
  · show (String.mk ((List.ofFn env.randomBytes).flatMap hexByte)).length = 64
    rw [String.length_mk, (flatMap_hexByte_chars _).1, List.length_ofFn]
  · intro c hc
    exact (flatMap_hexByte_chars (List.ofFn env.randomBytes)).2 c hc
  · intro other h
    exact List.ofFn_injective (flatMap_hexByte_injective _ _ (congrArg String.data h))

/-- Witness for `login_issues_session`: the user `ana` logs in with her
password. -/
theorem login_issues_session_witness :
    (login ⟨fun u p => u.id == 1 && p == "secreto", none, none, fun _ => 171, 5, true, 1000⟩
      ⟨[], [], [⟨1, "ana", "admin"⟩]⟩ "ana" "secreto").2 =
      .success ⟨1, "ana", "admin"⟩
        (generarToken (fun _ => 171)) "admin" :=
  (login_issues_session
    ⟨fun u p => u.id == 1 && p == "secreto", none, none, fun _ => 171, 5, true, 1000⟩
    ⟨[], [], [⟨1, "ana", "admin"⟩]⟩ "ana" "secreto" ⟨1, "ana", "admin"⟩ [] rfl rfl
    (by decide)).1

/-! ## Theorems: results of `registrarVenta` -/

/-- A business error with a non-empty message is answered with that message,
whichever branch of `handle` its text selects. -/
theorem handle_businessError (env : Env) (m : String) (hm : m ≠ "") :
    handle env (.error (createBusinessError (.str m))) =
      .ok (errorResponse env (.str m) .null .null) := by
  have htr : (JsVal.str m).truthy = true := by simp [JsVal.truthy, hm]
  have hor : ∀ d, (JsVal.str m).or d = .str m := by intro d; simp [JsVal.or, htr]
  simp only [handle, createBusinessError, createError, JsVal.toStr, JsVal.truthy,
    isDatabaseCode, isAuthError, isAuthorizationError, callIncludesOpt]
  simp only [reduceCtorEq, if_false, false_or, Bool.false_eq_true, JsVal.str.injEq]
  rw [if_neg (by decide), if_neg (by decide)]
  cases strIncludes m "credenciales"
  · cases strIncludes m "sesión"
    · simp only
      rw [if_neg (by decide)]
      cases strIncludes m "autorizado"
      · cases strIncludes m "permisos"
        · simp [handleBusinessError]
        · simp [handleAuthorizationError, hor]
      · simp [handleAuthorizationError, hor]
    · simp [handleAuthError, hor]
  · simp [handleAuthError, hor]

/-- The validator `Validators.id` returns its argument, which is at least 1. -/
theorem Validators.id_ok (value v : Int) (fieldName : String)
    (h : Validators.id value fieldName = .ok v) : v = value ∧ 1 ≤ value := by
  simp only [Validators.id, Validators.integer, Validators.number] at h
  split at h
  · cases h
  · cases h; exact ⟨rfl, by omega⟩

/-- The validator `Validators.integer` with the minimum 1 returns its argument,
which is at least 1. -/
theorem Validators.integer_ok (value v : Int) (fieldName : String)
    (h : Validators.integer value fieldName (some 1) = .ok v) : v = value ∧ 1 ≤ value :=
  Validators.id_ok value v fieldName h

/-- The validator `Validators.positiveNumber` returns its argument, which is
not negative. -/
theorem Validators.positiveNumber_ok (value v : Int) (fieldName : String)
    (h : Validators.positiveNumber value fieldName = .ok v) : v = value ∧ 0 ≤ value := by
  simp only [Validators.positiveNumber, Validators.number] at h
  split at h
  · cases h
  · cases h; exact ⟨rfl, by omega⟩

/-- The stock update leaves the committed sale rows alone. -/
theorem actualizarProducto_ventas (faults : Faults) (db : Db) (id : Nat) (updateData : Payload) :
    (actualizarProducto faults db id updateData).1.ventas = db.ventas := by
  unfold actualizarProducto
  cases htry : actualizarProductoTry faults db id updateData with
  | error e => rfl
  | ok db' =>
    obtain ⟨cur, acc, _, _, _, rfl⟩ := actualizarProductoTry_ok faults db db' id _ htry
    rfl

/-- A line that is processed adds one item to `ventaItems`, carrying the
product id, quantity and unit price of the line and their product as subtotal,
and adds the subtotal to `totalVenta`; the committed sale rows stay as they
are. -/
theorem procesarItem_ok (faults : Faults) (cab : Cabecera) (acc acc' : VentaAcc)
    (item : LineItem) (h : procesarItem faults cab acc item = .ok acc') :
    1 ≤ item.productoId ∧
    (∃ ventaId nombre, acc'.ventaItems = acc.ventaItems ++
      [⟨ventaId, item.productoId.toNat, nombre, item.cantidad, item.precioUnitario,
        item.cantidad * item.precioUnitario⟩]) ∧
    acc'.totalVenta = acc.totalVenta + item.cantidad * item.precioUnitario ∧
    acc'.db.ventas = acc.db.ventas := by
  unfold procesarItem at h
  split at h
  · cases h
  · rename_i vid hvid
    obtain ⟨rfl, hid⟩ := Validators.id_ok _ _ _ hvid
    split at h
    · cases h
    · rename_i vc hvc
      obtain ⟨rfl, _⟩ := Validators.integer_ok _ _ _ hvc
      split at h
      · cases h
      · rename_i vp hvp
        obtain ⟨rfl, _⟩ := Validators.positiveNumber_ok _ _ _ hvp
        split at h
        · cases h
        · rename_i producto _
          split at h
          · cases h
          · split at h
            · cases h
            · cases h
              exact ⟨hid, ⟨_, _, rfl⟩, rfl, actualizarProducto_ventas _ _ _ _⟩

/-- The items of `ventaItems` as the claim reads them: product id, quantity,
unit price and subtotal. -/
theorem procesarItems_ok (faults : Faults) (cab : Cabecera) :
    ∀ (items : List LineItem) (acc acc' : VentaAcc),
      procesarItems faults cab items acc = (acc', none) →
      acc'.ventaItems.map
          (fun it => ((it.productoId : Int), it.cantidad, it.precioUnitario, it.subtotal)) =
        acc.ventaItems.map
          (fun it => ((it.productoId : Int), it.cantidad, it.precioUnitario, it.subtotal)) ++
        items.map (fun i =>
          (i.productoId, i.cantidad, i.precioUnitario, i.cantidad * i.precioUnitario)) ∧
      acc'.totalVenta =
        acc.totalVenta + (items.map (fun i => i.cantidad * i.precioUnitario)).sum ∧
      acc'.db.ventas = acc.db.ventas := by
  intro items
  induction items with
  | nil =>
    intro acc acc' h
    simp only [procesarItems, Prod.mk.injEq, and_true] at h
    subst h
    simp
  | cons item rest ih =>
    intro acc acc' h
    simp only [procesarItems] at h
    cases hstep : procesarItem faults cab acc item with
    | error e => simp [hstep] at h
    | ok mid =>
      simp only [hstep] at h
      obtain ⟨hid, ⟨ventaId, nombre, hitems⟩, htot, hv⟩ :=
        procesarItem_ok faults cab acc mid item hstep
      obtain ⟨h1, h2, h3⟩ := ih mid acc' h
      refine ⟨?_, ?_, ?_⟩
      · rw [h1, hitems]
        simp [Int.toNat_of_nonneg (by omega : 0 ≤ item.productoId)]
      · rw [h2, htot]; simp [List.sum_cons]; ring
      · rw [h3, hv]

/-- The discount validated before the loop is the discount passed, zero when
none is passed. -/
theorem validarCabecera_descuento (data : VentaData) (cab : Cabecera)
    (h : validarCabecera data = .ok cab) : cab.descuento = data.descuentoTotal.getD 0 := by
  unfold validarCabecera at h
  split at h
  · cases h
  · split at h
    · cases h
    · split at h
      · cases h
      · split at h
        · cases h
        · rename_i vd hvd
          cases h
          exact (Validators.positiveNumber_ok _ _ _ hvd).1

/-- The loop over the lines, cut where the first lines have been processed. -/
theorem procesarItems_append (faults : Faults) (cab : Cabecera) :
    ∀ (pre rest : List LineItem) (acc0 acc : VentaAcc),
      procesarItems faults cab pre acc0 = (acc, none) →
      procesarItems faults cab (pre ++ rest) acc0 = procesarItems faults cab rest acc := by
  intro pre
  induction pre with
  | nil =>
    intro rest acc0 acc h
    simp only [procesarItems, Prod.mk.injEq, and_true] at h
    subst h
    rfl
  | cons item more ih =>
    intro rest acc0 acc h
    simp only [procesarItems, List.cons_append] at h ⊢
    cases hstep : procesarItem faults cab acc0 item with
    | error e => simp [hstep] at h
    | ok mid =>
      simp only [hstep] at h ⊢
      exact ih rest mid acc h

/-- C16. A sale in which, the lines before it having been processed, a line
asks for more than the stock read for its product: `registrarVenta` fails with
the business error `Stock insuficiente para` followed by the name of the
product, the response has `success: false`, and no sale row of the sale is
committed. When that line is the first one, as in a single-line sale, the
database is exactly as before: no sale row, no movement, the stock unchanged. -/
theorem registrarVenta_insufficient_stock (env : Env) (faults : Faults) (db : Db)
    (data : VentaData) (cab : Cabecera) (pre post : List LineItem) (item : LineItem)
    (acc : VentaAcc) (p : Producto)
    (hcab : validarCabecera data = .ok cab)
    (hsplit : data.productos = pre ++ item :: post)
    (hpre : procesarItems faults cab pre ⟨db, [], [], 0⟩ = (acc, none))
    (hid : 1 ≤ item.productoId) (hcant : 1 ≤ item.cantidad) (hprecio : 0 ≤ item.precioUnitario)
    (hp : obtenerProductoPorId faults acc.db item.productoId.toNat = some p)
    (hstock : p.stock < item.cantidad) :
    (registrarVenta env faults db data).2 =
      .ok (.failure (errorResponse env (.str
        ("Stock insuficiente para " ++ nombreTexto p.nombre ++ ". Stock disponible: "
          ++ toString p.stock ++ ", solicitado: " ++ toString item.cantidad)) .null .null)) ∧
    (errorResponse env (.str
        ("Stock insuficiente para " ++ nombreTexto p.nombre ++ ". Stock disponible: "
          ++ toString p.stock ++ ", solicitado: " ++ toString item.cantidad)) .null .null).get
      "success" = .bool false ∧
    (registrarVenta env faults db data).1.ventas = db.ventas ∧
    (pre = [] → (registrarVenta env faults db data).1 = db) := by
  have hitem : procesarItem faults cab acc item = .error (createBusinessError (.str
      ("Stock insuficiente para " ++ nombreTexto p.nombre ++ ". Stock disponible: "
        ++ toString p.stock ++ ", solicitado: " ++ toString item.cantidad))) := by
    unfold procesarItem
    have h1 : Validators.id item.productoId "Producto ID" = .ok item.productoId := by
      simp [Validators.id, Validators.integer, Validators.number]; omega
    have h2 : Validators.integer item.cantidad "Cantidad" (some 1) = .ok item.cantidad := by
      simp [Validators.integer, Validators.number]; omega
    have h3 : Validators.positiveNumber item.precioUnitario "Precio unitario" =
        .ok item.precioUnitario := by
      simp [Validators.positiveNumber, Validators.number]; omega
    simp only [h1, h2, h3, hp]
    rw [if_pos hstock]
  have hloop : procesarItems faults cab data.productos ⟨db, [], [], 0⟩ =
      (acc, some (createBusinessError (.str
        ("Stock insuficiente para " ++ nombreTexto p.nombre ++ ". Stock disponible: "
          ++ toString p.stock ++ ", solicitado: " ++ toString item.cantidad)))) := by
    rw [hsplit, procesarItems_append faults cab pre (item :: post) _ acc hpre]
    simp only [procesarItems, hitem]
  have hmsg : ("Stock insuficiente para " ++ nombreTexto p.nombre ++ ". Stock disponible: "
      ++ toString p.stock ++ ", solicitado: " ++ toString item.cantidad) ≠ "" := by
    intro h
    have := congrArg String.length h
    simp only [String.length_append] at this
    have h0 : ", solicitado: ".length = 14 := by decide
    have h1 : "".length = 0 := by decide
    omega
  have hventas := (procesarItems_ok faults cab pre _ acc hpre).2.2
  have hres : registrarVenta env faults db data =
      (acc.db, .ok (.failure (errorResponse env (.str
        ("Stock insuficiente para " ++ nombreTexto p.nombre ++ ". Stock disponible: "
          ++ toString p.stock ++ ", solicitado: " ++ toString item.cantidad)) .null .null))) := by
    unfold registrarVenta
    simp only [hcab, hloop, handle_businessError env _ hmsg, Except.map]
  rw [hres]
  refine ⟨rfl, rfl, hventas, ?_⟩
  intro hnil
  subst hnil
  simp only [procesarItems, Prod.mk.injEq, and_true] at hpre
  rw [← hpre]

/-- Witness for `registrarVenta_insufficient_stock`: a single line asking for 5
units against the stock 2. -/
theorem registrarVenta_insufficient_stock_witness :
    (registrarVenta ⟨"t", false⟩ noFaults ⟨[⟨1, some "Cafe", 2⟩], [], [], 1, 0⟩
      ⟨[⟨1, 5, 10⟩], .str "efectivo", none, 7⟩).1 = ⟨[⟨1, some "Cafe", 2⟩], [], [], 1, 0⟩ :=
  (registrarVenta_insufficient_stock ⟨"t", false⟩ noFaults ⟨[⟨1, some "Cafe", 2⟩], [], [], 1, 0⟩
    ⟨[⟨1, 5, 10⟩], .str "efectivo", none, 7⟩ ⟨7, .str "efectivo", 0⟩ [] [] ⟨1, 5, 10⟩
    ⟨⟨[⟨1, some "Cafe", 2⟩], [], [], 1, 0⟩, [], [], 0⟩ ⟨1, some "Cafe", 2⟩
    (by decide) (by decide) (by decide) (by decide) (by decide) (by decide) (by decide)
    (by decide)).2.2.2 rfl

/-! ## Theorems: `agregarProducto` and the coercions -/

/-- C18. For a call of `agregarProducto` that passes the validations and whose
product row the store accepts. With an initial stock above zero and the
movement accepted, the product row is committed together with exactly one
movement of type entry with the quantity `stock`, `stock_anterior` 0 and
`stock_nuevo` `stock`. With an initial stock above zero and the movement
rejected, neither a product row nor a movement is committed and the call
returns the failure. With the stock zero or omitted, the product row is
committed and no movement is inserted. -/
theorem agregarProducto_initial_movement (faults : Faults) (db : Db) (data : ProductoData)
    (nombre : String) (hn : nombreRequerido data.nombre = .ok nombre)
    (hc : data.categoria_id.truthy = true) (hins : faults .insertProducto = none) :
    (0 < data.stock.getD 0 → faults (.insertMovimiento (db.productoSeq + 1)) = none →
      agregarProducto faults db data =
        ({ db with
            productos := db.productos ++
              [⟨db.productoSeq + 1, some nombre, data.stock.getD 0⟩]
            movimientos := db.movimientos ++
              [⟨db.productoSeq + 1, .entrada, data.stock.getD 0, 0, data.stock.getD 0,
                "Stock inicial"⟩]
            productoSeq := db.productoSeq + 1 },
          [("success", .bool true), ("id", .num (db.productoSeq + 1 : Nat))])) ∧
    (0 < data.stock.getD 0 → ∀ e, faults (.insertMovimiento (db.productoSeq + 1)) = some e →
      (agregarProducto faults db data).1.productos = db.productos ∧
      (agregarProducto faults db data).1.movimientos = db.movimientos ∧
      (agregarProducto faults db data).2 = [("success", .bool false), ("error", e.message)]) ∧
    (¬ 0 < data.stock.getD 0 →
      agregarProducto faults db data =
        ({ db with
            productos := db.productos ++
              [⟨db.productoSeq + 1, some nombre, data.stock.getD 0⟩]
            productoSeq := db.productoSeq + 1 },
          [("success", .bool true), ("id", .num (db.productoSeq + 1 : Nat))])) := by
  have hc' : (!data.categoria_id.truthy) = false := by simp [hc]
  refine ⟨?_, ?_, ?_⟩
  · intro hpos hmov
    simp [agregarProducto, agregarProductoTry, hn, hc', hins, hpos, hmov]
  · intro hpos e hmov
    simp [agregarProducto, agregarProductoTry, hn, hc', hins, hpos, hmov, failureOf]
  · intro hpos
    simp [agregarProducto, agregarProductoTry, hn, hc', hins, hpos]

/-- Witness for `agregarProducto_initial_movement`: a product created with the
stock 10 in an empty store. -/
theorem agregarProducto_initial_movement_witness :
    agregarProducto noFaults Db.vacia ⟨.str " Cafe ", .num 1, some 10⟩ =
      (⟨[⟨1, some "Cafe", 10⟩], [⟨1, .entrada, 10, 0, 10, "Stock inicial"⟩], [], 1, 0⟩,
        [("success", .bool true), ("id", .num 1)]) :=
  (agregarProducto_initial_movement noFaults Db.vacia ⟨.str " Cafe ", .num 1, some 10⟩ "Cafe"
    (by decide) (by decide) rfl).1 (by decide) rfl

/-! ## Theorems: rate limiter -/

/-- C20 as stated fails. With the limit 2 and the window 10, the calls of one
user at the times 0, 9, 11 and 12 are all accepted: the call at 11 finds the
window of 0 elapsed and opens a new one. Three calls are accepted between 9
and 19, an interval of the length of the window. -/
theorem rateLimit_window_is_not_sliding :
    runRate 2 10 [⟨0, 1⟩, ⟨9, 1⟩, ⟨11, 1⟩, ⟨12, 1⟩] RateState.vacio = [true, true, true, true] ∧
    aceptadasEntre [⟨0, 1⟩, ⟨9, 1⟩, ⟨11, 1⟩, ⟨12, 1⟩]
      (runRate 2 10 [⟨0, 1⟩, ⟨9, 1⟩, ⟨11, 1⟩, ⟨12, 1⟩] RateState.vacio) 1 9 (9 + 10) = 3 ∧
    ¬ (3 ≤ 2) := by
  decide

/-- A call of another user leaves the entry of a user as it is. -/
theorem rateLimit_other_user (maxRequests windowMs : Nat) (st : RateState)
    (now userId other : Nat) (h : other ≠ userId) :
    (rateLimit maxRequests windowMs st now userId).1 other = st other := by
  unfold rateLimit
  split
  · simp [RateState.set, h]
  · split
    · simp [RateState.set, h]
    · split
      · rfl
      · simp [RateState.set, h]

/-- Inside a window the entry of the user decides the call: it is rejected with
the count unchanged once the count has reached the limit, and accepted with the
count raised by one before. -/
theorem rateLimit_in_window (maxRequests windowMs : Nat) (st : RateState) (now userId : Nat)
    (e : RateEntry) (he : st userId = some e) (hnow : now ≤ e.resetTime) :
    (maxRequests ≤ e.count →
      rateLimit maxRequests windowMs st now userId =
        (st, .error (createAuthorizationError (.str "Límite de peticiones excedido")))) ∧
    (e.count < maxRequests →
      rateLimit maxRequests windowMs st now userId =
        (st.set userId ⟨e.count + 1, e.resetTime⟩, .ok true)) := by
  unfold rateLimit
  rw [he]
  have hnot : ¬ now > e.resetTime := by omega
  constructor
  · intro h
    simp only [hnot, if_false]
    rw [if_pos h]
  · intro h
    simp only [hnot, if_false]
    rw [if_neg (by omega)]

/-- Calls made inside the window of a user whose count is `c`: of the calls of
that user, the first `max maxRequests 1 - c` are accepted and no more. -/
theorem runRate_in_window (maxRequests windowMs userId : Nat) :
    ∀ (calls : List RateCall) (st : RateState) (e : RateEntry),
      st userId = some e → 1 ≤ e.count → e.count ≤ max maxRequests 1 →
      (∀ c ∈ calls, c.now ≤ e.resetTime) →
      aceptadasDe calls (runRate maxRequests windowMs calls st) userId =
        min (llamadasDe calls userId) (max maxRequests 1 - e.count) := by
  intro calls
  induction calls with
  | nil => intro st e _ _ _ _; simp [aceptadasDe, llamadasDe, runRate]
  | cons c rest ih =>
    intro st e he h1 hK hwin
    have hrest : ∀ c' ∈ rest, c'.now ≤ e.resetTime :=
      fun c' hc' => hwin c' (List.mem_cons_of_mem _ hc')
    by_cases hu : c.userId = userId
    · have hc : c.now ≤ e.resetTime := hwin c (List.mem_cons_self _ _)
      have hcalls : llamadasDe (c :: rest) userId = llamadasDe rest userId + 1 := by
        simp [llamadasDe, List.filter_cons, hu]
      obtain ⟨hrej, hacc⟩ := rateLimit_in_window maxRequests windowMs st c.now userId e he hc
      by_cases hfull : maxRequests ≤ e.count
      · have hstep := hrej hfull
        have hrun : runRate maxRequests windowMs (c :: rest) st =
            false :: runRate maxRequests windowMs rest st := by
          simp only [runRate, hu, hstep]
        have hacc' : aceptadasDe (c :: rest) (runRate maxRequests windowMs (c :: rest) st)
            userId = aceptadasDe rest (runRate maxRequests windowMs rest st) userId := by
          rw [hrun]; simp [aceptadasDe, List.zip_cons_cons, List.filter_cons]
        rw [hacc', ih st e he h1 hK hrest, hcalls]
        have : max maxRequests 1 - e.count = 0 := by omega
        rw [this]; simp
      · have hlt : e.count < maxRequests := by omega
        have hstep := hacc hlt
        have hrun : runRate maxRequests windowMs (c :: rest) st =
            true :: runRate maxRequests windowMs rest
              (st.set userId ⟨e.count + 1, e.resetTime⟩) := by
          simp only [runRate, hu, hstep]
        have hacc' : aceptadasDe (c :: rest) (runRate maxRequests windowMs (c :: rest) st)
            userId = aceptadasDe rest (runRate maxRequests windowMs rest
              (st.set userId ⟨e.count + 1, e.resetTime⟩)) userId + 1 := by
          rw [hrun]; simp [aceptadasDe, List.zip_cons_cons, List.filter_cons, hu]
        have hnew : (st.set userId ⟨e.count + 1, e.resetTime⟩) userId =
            some ⟨e.count + 1, e.resetTime⟩ := by simp [RateState.set]
        rw [hacc', ih _ ⟨e.count + 1, e.resetTime⟩ hnew (by simp) (by simp; omega) hrest,
          hcalls]
        simp only
        omega
    · have hcalls : llamadasDe (c :: rest) userId = llamadasDe rest userId := by
        simp [llamadasDe, List.filter_cons, hu]
      have hst : (rateLimit maxRequests windowMs st c.now c.userId).1 userId = some e := by
        rw [rateLimit_other_user _ _ _ _ _ _ (Ne.symm hu)]; exact he
      have hacc' : aceptadasDe (c :: rest) (runRate maxRequests windowMs (c :: rest) st)
          userId = aceptadasDe rest (runRate maxRequests windowMs rest
            (rateLimit maxRequests windowMs st c.now c.userId).1) userId := by
        simp only [runRate]
        cases hstep : rateLimit maxRequests windowMs st c.now c.userId with
        | mk st' r =>
          cases r <;> simp [aceptadasDe, List.zip_cons_cons, List.filter_cons, hu]
      rw [hacc', ih _ e hst h1 hK hrest, hcalls]

/-- C20 (amended). The limiter counts the calls of each user in a fixed window:
a call of a user who has no entry, or whose window has elapsed, opens a window
of the length `windowMs` and is accepted; of the `n` calls of that user made
until the window ends, `min n (max maxRequests 1)` are accepted, so at most
`maxRequests` when that is not zero; inside a window every call made once the
count has reached `maxRequests` is rejected and leaves the map as it is; a
rejection is always the `AuthorizationError`; a call of one user never changes
the entry of another. -/
theorem rateLimit_fixed_window (maxRequests windowMs : Nat) (st : RateState)
    (t0 userId : Nat) (calls : List RateCall)
    (hopen : st userId = none ∨ ∃ e, st userId = some e ∧ e.resetTime < t0)
    (hwin : ∀ c ∈ calls, c.now ≤ t0 + windowMs) :
    aceptadasDe (⟨t0, userId⟩ :: calls)
        (runRate maxRequests windowMs (⟨t0, userId⟩ :: calls) st) userId =
      min (llamadasDe (⟨t0, userId⟩ :: calls) userId) (max maxRequests 1) ∧
    (∀ st' now e, st' userId = some e → now ≤ e.resetTime → maxRequests ≤ e.count →
      rateLimit maxRequests windowMs st' now userId =
        (st', .error (createAuthorizationError (.str "Límite de peticiones excedido")))) ∧
    (∀ st' now e, (rateLimit maxRequests windowMs st' now userId).2 = .error e →
      e = createAuthorizationError (.str "Límite de peticiones excedido")) ∧
    (∀ st' now other, other ≠ userId →
      (rateLimit maxRequests windowMs st' now userId).1 other = st' other) := by
  refine ⟨?_, ?_, ?_, ?_⟩
  · have hstep : rateLimit maxRequests windowMs st t0 userId =
        (st.set userId ⟨1, t0 + windowMs⟩, .ok true) := by
      unfold rateLimit
      rcases hopen with h | ⟨e, h, hlt⟩
      · rw [h]
      · rw [h]; simp only; rw [if_pos hlt]
    have hrun : runRate maxRequests windowMs (⟨t0, userId⟩ :: calls) st =
        true :: runRate maxRequests windowMs calls (st.set userId ⟨1, t0 + windowMs⟩) := by
      simp only [runRate, hstep]
    have hcalls : llamadasDe (⟨t0, userId⟩ :: calls) userId = llamadasDe calls userId + 1 := by
      simp [llamadasDe, List.filter_cons]
    have hacc : aceptadasDe (⟨t0, userId⟩ :: calls)
        (runRate maxRequests windowMs (⟨t0, userId⟩ :: calls) st) userId =
        aceptadasDe calls (runRate maxRequests windowMs calls
          (st.set userId ⟨1, t0 + windowMs⟩)) userId + 1 := by
      rw [hrun]; simp [aceptadasDe, List.zip_cons_cons, List.filter_cons]
    have hnew : (st.set userId ⟨1, t0 + windowMs⟩) userId = some ⟨1, t0 + windowMs⟩ := by
      simp [RateState.set]
    rw [hacc, runRate_in_window maxRequests windowMs userId calls _ ⟨1, t0 + windowMs⟩ hnew
      (le_refl _) (by simp) hwin, hcalls]
    simp only
    omega
  · intro st' now e he hnow hfull
    exact (rateLimit_in_window maxRequests windowMs st' now userId e he hnow).1 hfull
  · intro st' now e h
    unfold rateLimit at h
    split at h
    · cases h
    · split at h
      · cases h
      · split at h
        · simp only [Except.error.injEq] at h; exact h.symm
        · cases h
  · intro st' now other h
    exact rateLimit_other_user maxRequests windowMs st' now userId other h

/-- Witness for `rateLimit_fixed_window`: with the limit 2 and the window 10, of
the four calls of user 1 at the times 0, 3, 5 and 10 two are accepted. -/
theorem rateLimit_fixed_window_witness :
    aceptadasDe [⟨0, 1⟩, ⟨3, 1⟩, ⟨4, 2⟩, ⟨5, 1⟩, ⟨10, 1⟩]
        (runRate 2 10 [⟨0, 1⟩, ⟨3, 1⟩, ⟨4, 2⟩, ⟨5, 1⟩, ⟨10, 1⟩] RateState.vacio) 1 =
      min (llamadasDe [⟨0, 1⟩, ⟨3, 1⟩, ⟨4, 2⟩, ⟨5, 1⟩, ⟨10, 1⟩] 1) (max 2 1) :=
  (rateLimit_fixed_window 2 10 RateState.vacio 0 1 [⟨3, 1⟩, ⟨4, 2⟩, ⟨5, 1⟩, ⟨10, 1⟩]
    (Or.inl rfl) (by decide)).1

/-! ## Theorems: the generic error, `requireAuth` and `requireAdmin` -/

/-- C23 as stated fails outside production. A process started with `NODE_ENV`
`test` is not in development mode, and for an error of none of the recognised
kinds the translator answers with the message of the error itself. -/
theorem handle_exposes_message_outside_production :
    environment (.str "test") ≠ .str "development" ∧
    handle (Env.ofNodeEnv "2025-01-01T00:00:00.000Z" (.str "test"))
        (.error (plainError "connect ETIMEDOUT 10.0.0.5:5432")) =
      .ok [("success", .bool false), ("timestamp", .str "2025-01-01T00:00:00.000Z"),
        ("message", .str "connect ETIMEDOUT 10.0.0.5:5432")] := by
  decide

/-- C23 (amended). For every error that matches none of the recognised kinds
(validation, storage code, authentication, authorization, business), whenever
the environment is production mode (`NODE_ENV` is `production`) the translator
returns a failure whose message is the generic internal-error text; the
response holds `success`, `timestamp` and that message only, so nothing of the
error itself is exposed. -/
theorem handle_generic_in_production (env : Env) (e : ErrorObject)
    (hval : ¬ (e.name = .str "ValidationError" ∨ e.validationErrors.truthy = true))
    (hdb : isDatabaseCode e.code = .ok false)
    (hauth : isAuthError e = .ok false)
    (hautz : isAuthorizationError e = .ok false)
    (hbus : e.name ≠ .str "BusinessError")
    (hprod : env.isProduction = true) :
    handle env (.error e) =
      .ok [("success", .bool false), ("timestamp", .str env.timestamp),
        ("message", .str "Error interno del servidor")] := by
  simp only [handle, if_neg hval, hdb, hauth, hautz, if_neg hbus, handleGenericError, hprod,
    if_true]
  rfl

/-- Witness for `handle_generic_in_production`: a timeout error in a process
started with `NODE_ENV` `production`. -/
theorem handle_generic_in_production_witness :
    handle (Env.ofNodeEnv "2025-01-01T00:00:00.000Z" (.str "production"))
        (.error (plainError "connect ETIMEDOUT 10.0.0.5:5432")) =
      .ok [("success", .bool false), ("timestamp", .str "2025-01-01T00:00:00.000Z"),
        ("message", .str "Error interno del servidor")] :=
  handle_generic_in_production (Env.ofNodeEnv "2025-01-01T00:00:00.000Z" (.str "production"))
    (plainError "connect ETIMEDOUT 10.0.0.5:5432")
    (by decide) (by decide) (by decide) (by decide) (by decide) (by decide)

/-- C24. The function that `requireAuth(sessionValidator)` resolves to, applied
to a token that is absent or a string. When the token is missing (`undefined`,
`null` or the empty string) the validator is not called and the call fails
with the `AuthenticationError` for a required token. When the validator
resolves to a result whose `success` is falsy the call fails with an
`AuthenticationError` carrying the error of the result, or the text for an
invalid session. When the validator resolves to a result whose `success` is
truthy the call returns the `user` of that result, after one call of the
validator with the token. -/
theorem requireAuth_check (sessionValidator : SessionValidator) (token : JsVal)
    (htoken : token = .undefined ∨ token = .null ∨ ∃ t, token = .str t) :
    (token.truthy = false →
      (requireAuth sessionValidator).value token =
        ⟨[], .error (.error (createError "AuthenticationError"
          (.str "Token de sesión requerido")))⟩) ∧
    (∀ r, token.truthy = true → sessionValidator token = .ok r → r.success.truthy = false →
      (requireAuth sessionValidator).value token =
        ⟨[token], .error (.error (createError "AuthenticationError"
          (r.error.or (.str "Sesión inválida"))))⟩) ∧
    (∀ r, token.truthy = true → sessionValidator token = .ok r → r.success.truthy = true →
      (requireAuth sessionValidator).value token = ⟨[token], .ok r.user⟩) := by
  have hcatch : ∀ e, requireAuthCatch token (.error e) = .error e := by
    intro e
    rcases htoken with h | h | ⟨t, h⟩ <;> subst h <;> rfl
  refine ⟨?_, ?_, ?_⟩
  · intro hfalsy
    simp [requireAuth, requireAuthCheck, hfalsy, hcatch, createAuthError]
  · intro r htruthy hsv hr
    simp [requireAuth, requireAuthCheck, htruthy, hsv, hr, hcatch, createAuthError]
  · intro r htruthy hsv hr
    simp [requireAuth, requireAuthCheck, htruthy, hsv, hr]

/-- Witness for `requireAuth_check`: no token, a token the validator turns
down, and a token the validator accepts. -/
theorem requireAuth_check_witness :
    (requireAuth (fun _ => .ok ⟨.bool true, .undefined, some ⟨.num 1, .str "ana", .str "admin"⟩⟩)).value
        .undefined =
      ⟨[], .error (.error (createError "AuthenticationError"
        (.str "Token de sesión requerido")))⟩ ∧
    (requireAuth (fun _ => .ok ⟨.bool false, .str "Sesión expirada", none⟩)).value (.str "ab12") =
      ⟨[.str "ab12"], .error (.error (createError "AuthenticationError"
        (.str "Sesión expirada")))⟩ ∧
    (requireAuth (fun _ => .ok ⟨.bool true, .undefined, some ⟨.num 1, .str "ana", .str "admin"⟩⟩)).value
        (.str "ab12") =
      ⟨[.str "ab12"], .ok (some ⟨.num 1, .str "ana", .str "admin"⟩)⟩ :=
  ⟨(requireAuth_check _ .undefined (Or.inl rfl)).1 rfl,
    (requireAuth_check (fun _ => .ok ⟨.bool false, .str "Sesión expirada", none⟩) (.str "ab12")
      (Or.inr (Or.inr ⟨"ab12", rfl⟩))).2.1 _ (by decide) rfl (by decide),
    (requireAuth_check
      (fun _ => .ok ⟨.bool true, .undefined, some ⟨.num 1, .str "ana", .str "admin"⟩⟩)
      (.str "ab12") (Or.inr (Or.inr ⟨"ab12", rfl⟩))).2.2 _ (by decide) rfl (by decide)⟩

/-- C25. For every user object, `requireAdmin(user)` throws an
`AuthorizationError` if and only if `user.rol` is not the string `admin`, and
it returns `true` if and only if `user.rol` is that string. -/
theorem requireAdmin_iff (user : User) :
    ((∃ e, requireAdmin (some user) = .error (.error e) ∧ e.name = .str "AuthorizationError")
      ↔ user.rol ≠ .str "admin") ∧
    (requireAdmin (some user) = .ok true ↔ user.rol = .str "admin") := by
  by_cases h : user.rol = .str "admin"
  · have hok : requireAdmin (some user) = .ok true := by simp [requireAdmin, ADMIN, h]
    simp [hok, h]
  · have herr : requireAdmin (some user) =
        .error (.error (createAuthorizationError
          (.str "Se requieren permisos de administrador"))) := by
      simp [requireAdmin, ADMIN, h]
    simp [herr, h, createAuthorizationError, createError]

/-! ## Theorems: `eliminarProducto` and the required fields of `agregarProducto` -/

/-- A product that the lookup finds is matched by the `DELETE`. -/
theorem borrarFila_found (faults : Faults) (db : Db) (id : Nat) (p : Producto)
    (cierre : List Movimiento) (hp : obtenerProductoPorId faults db id = some p)
    (hdel : faults (.deleteProducto id) = none) :
    borrarFila faults db id cierre =
      .ok { db with
        productos := db.productos.filter (fun q => q.id != id)
        movimientos := db.movimientos ++ cierre } := by
  have hfind := obtenerProductoPorId_some faults db id p hp
  have hpid : p.id = id := by simpa using List.find?_some hfind
  have hmem : p ∈ db.productos.filter (fun q => q.id == id) :=
    List.mem_filter.2 ⟨List.mem_of_find?_eq_some hfind, by simp [hpid]⟩
  have hlen : (db.productos.filter (fun q => q.id == id)).length ≠ 0 := by
    intro h0
    rw [List.length_eq_zero] at h0
    rw [h0] at hmem
    exact absurd hmem (List.not_mem_nil _)
  unfold borrarFila
  rw [hdel]
  simp only [if_neg hlen]

/-- C22. For a call of `eliminarProducto` with an id. When no row has the id,
the call fails with the not-found error and the store is unchanged. When the
lookup finds the product with a stock above zero and the store executes the
two statements, the call commits exactly one movement of type exit with the
quantity and `stock_anterior` equal to the full stock and `stock_nuevo` 0,
together with the deletion of the row. When the stock is 0 it commits the
deletion and no movement. Whatever the store rejects, either nothing is
committed or the deletion and the closing movement (when the stock is above
zero) are committed together. -/
theorem eliminarProducto_closing_movement (faults : Faults) (db : Db) (id : Nat)
    (hid : id ≠ 0) :
    ((∀ p ∈ db.productos, p.id ≠ id) →
      eliminarProducto faults db id = (db, failureOf (plainError "Producto no encontrado"))) ∧
    (∀ p, obtenerProductoPorId faults db id = some p → 0 < p.stock →
      faults (.insertMovimiento id) = none → faults (.deleteProducto id) = none →
      eliminarProducto faults db id =
        ({ db with
            productos := db.productos.filter (fun q => q.id != id)
            movimientos := db.movimientos ++
              [⟨id, .salida, p.stock, p.stock, 0, "Producto eliminado"⟩] },
          [("success", .bool true)])) ∧
    (∀ p, obtenerProductoPorId faults db id = some p → p.stock = 0 →
      faults (.deleteProducto id) = none →
      eliminarProducto faults db id =
        ({ db with productos := db.productos.filter (fun q => q.id != id) },
          [("success", .bool true)])) ∧
    ((eliminarProducto faults db id).1 = db ∨
      ∃ p, obtenerProductoPorId faults db id = some p ∧
        (eliminarProducto faults db id).1 =
          { db with
            productos := db.productos.filter (fun q => q.id != id)
            movimientos := db.movimientos ++
              (if p.stock > 0 then [⟨id, .salida, p.stock, p.stock, 0, "Producto eliminado"⟩]
              else []) }) := by
  refine ⟨?_, ?_, ?_, ?_⟩
  · intro habs
    have hnone : obtenerProductoPorId faults db id = none := by
      unfold obtenerProductoPorId
      split
      · rfl
      · rw [List.find?_eq_none]
        intro p hp
        simpa using habs p hp
    simp [eliminarProducto, eliminarProductoTry, hid, hnone]
  · intro p hp hpos hmov hdel
    simp [eliminarProducto, eliminarProductoTry, hid, hp, hpos, hmov,
      borrarFila_found faults db id p _ hp hdel]
  · intro p hp h0 hdel
    have hpos : ¬ p.stock > 0 := by omega
    simp [eliminarProducto, eliminarProductoTry, hid, hp, hpos,
      borrarFila_found faults db id p _ hp hdel]
  · unfold eliminarProducto
    cases htry : eliminarProductoTry faults db id with
    | error e => exact Or.inl rfl
    | ok db' => exact Or.inr (eliminarProductoTry_ok faults db db' id htry)

/-- Witness for `eliminarProducto_closing_movement`: the deletion of a product
with the stock 7. -/
theorem eliminarProducto_closing_movement_witness :
    eliminarProducto noFaults ⟨[⟨1, some "Cafe", 7⟩, ⟨2, some "Te", 0⟩], [], [], 2, 0⟩ 1 =
      (⟨[⟨2, some "Te", 0⟩], [⟨1, .salida, 7, 7, 0, "Producto eliminado"⟩], [], 2, 0⟩,
        [("success", .bool true)]) :=
  (eliminarProducto_closing_movement noFaults
    ⟨[⟨1, some "Cafe", 7⟩, ⟨2, some "Te", 0⟩], [], [], 2, 0⟩ 1 (by decide)).2.1
    ⟨1, some "Cafe", 7⟩ (by decide) (by decide) rfl rfl

/-- C27. A call of `agregarProducto` whose name is missing, empty or only white
space, or whose category id is missing (falsy), returns a failure and commits
nothing: neither a product row nor a movement. For a name with other
characters and a category id that is present the two validations pass, and
once the store executes the statements the call succeeds and the product row
is stored with the trimmed name. -/
theorem agregarProducto_required_fields (faults : Faults) (db : Db) (data : ProductoData) :
    ((data.nombre = .undefined ∨ data.nombre = .null ∨
        (∃ s, data.nombre = .str s ∧ jsTrim s = "") ∨ data.categoria_id.truthy = false) →
      (agregarProducto faults db data).1 = db ∧
      (agregarProducto faults db data).2.get "success" = .bool false) ∧
    (∀ s, data.nombre = .str s → jsTrim s ≠ "" → data.categoria_id.truthy = true →
      nombreRequerido data.nombre = .ok (jsTrim s) ∧
      (faults .insertProducto = none →
        faults (.insertMovimiento (db.productoSeq + 1)) = none →
        (agregarProducto faults db data).2 =
          [("success", .bool true), ("id", .num (db.productoSeq + 1 : Nat))] ∧
        (agregarProducto faults db data).1.productos =
          db.productos ++ [⟨db.productoSeq + 1, some (jsTrim s), data.stock.getD 0⟩])) := by
  refine ⟨?_, ?_⟩
  · intro h
    have hfail : ∃ e, agregarProductoTry faults db data = .error e ∧
        agregarProductoDrawsId faults data = false := by
      cases hn : nombreRequerido data.nombre with
      | error e => exact ⟨e, by simp [agregarProductoTry, hn], by simp [agregarProductoDrawsId, hn]⟩
      | ok nombre =>
        have hc : data.categoria_id.truthy = false := by
          rcases h with h | h | ⟨s, h, hs⟩ | h
          · rw [h] at hn; cases hn
          · rw [h] at hn; cases hn
          · rw [h] at hn; simp [nombreRequerido, hs] at hn
          · exact h
        exact ⟨plainError "La categoría es requerida",
          by simp [agregarProductoTry, hn, hc], by simp [agregarProductoDrawsId, hn, hc]⟩
    obtain ⟨e, he, hd⟩ := hfail
    simp [agregarProducto, he, hd, failureOf, Payload.get]
  · intro s hs htrim hc
    have hn : nombreRequerido data.nombre = .ok (jsTrim s) := by
      simp [hs, nombreRequerido, htrim]
    refine ⟨hn, ?_⟩
    intro hins hmov
    by_cases hpos : data.stock.getD 0 > 0
    · simp [agregarProducto, agregarProductoTry, hn, hc, hins, hmov, hpos]
    · simp [agregarProducto, agregarProductoTry, hn, hc, hins, hpos]

/-- Witness for `agregarProducto_required_fields`: a name of two blanks is
turned down and nothing is stored, and a name with blanks around it is stored
trimmed. -/
theorem agregarProducto_required_fields_witness :
    ((agregarProducto noFaults Db.vacia ⟨.str "  ", .num 1, some 10⟩).1 = Db.vacia ∧
      (agregarProducto noFaults Db.vacia ⟨.str "  ", .num 1, some 10⟩).2.get "success" =
        .bool false) ∧
    (agregarProducto noFaults Db.vacia ⟨.str " Cafe ", .num 1, some 10⟩).1.productos =
      [⟨1, some "Cafe", 10⟩] :=
  ⟨(agregarProducto_required_fields noFaults Db.vacia ⟨.str "  ", .num 1, some 10⟩).1
      (Or.inr (Or.inr (Or.inl ⟨"  ", rfl, by decide⟩))),
    (((agregarProducto_required_fields noFaults Db.vacia ⟨.str " Cafe ", .num 1, some 10⟩).2
      " Cafe " rfl (by decide) (by decide)).2 rfl rfl).2⟩

/-! ## Theorems: the user validators and `agregarUsuario` -/

/-- The character class of the username pattern is the ASCII letters, the
digits and the underscore. -/
theorem isUsernameChar_iff (c : Char) :
    isUsernameChar c = true ↔ (c.isAlphanum = true ∨ c = '_') := by
  have h95 : c = '_' ↔ c.toNat = 95 := by
    constructor
    · intro h; subst h; rfl
    · intro h
      apply Char.ext
      apply UInt32.ext
      simpa [Char.toNat] using h
  rw [h95]
  simp only [isUsernameChar, Char.isAlphanum, Char.isAlpha, Char.isUpper, Char.isLower,
    Char.isDigit, Bool.or_eq_true, Bool.and_eq_true, decide_eq_true_eq, beq_iff_eq,
    UInt32.le_def, ge_iff_le, Char.toNat, BitVec.le_def, UInt32.toNat]
  have e1 : (UInt32.toBitVec 65).toNat = 65 := rfl
  have e2 : (UInt32.toBitVec 90).toNat = 90 := rfl
  have e3 : (UInt32.toBitVec 97).toNat = 97 := rfl
  have e4 : (UInt32.toBitVec 122).toNat = 122 := rfl
  have e5 : (UInt32.toBitVec 48).toNat = 48 := rfl
  have e6 : (UInt32.toBitVec 57).toNat = 57 := rfl
  rw [e1, e2, e3, e4, e5, e6]
  omega

/-- A character of the username pattern is not white space and is one code unit. -/
theorem isUsernameChar_plain (c : Char) (h : isUsernameChar c = true) :
    isJsWhitespace c = false ∧ c.toNat < 0x10000 := by
  simp only [isUsernameChar, Bool.or_eq_true, Bool.and_eq_true, decide_eq_true_eq,
    beq_iff_eq] at h
  constructor
  · simp only [isJsWhitespace, Bool.or_eq_false_iff, Bool.and_eq_false_iff, beq_eq_false_iff_ne,
      decide_eq_false_iff_not, ne_eq]
    omega
  · omega

/-- Nothing is dropped from a list with no white space. -/
theorem dropWhile_noWhitespace (l : List Char) (h : ∀ c ∈ l, isJsWhitespace c = false) :
    l.dropWhile isJsWhitespace = l := by
  cases l with
  | nil => rfl
  | cons c cs => simp [List.dropWhile, h c (List.mem_cons_self c cs)]

/-- A string with no white space is its own trim. -/
theorem jsTrim_noWhitespace (s : String) (h : ∀ c ∈ s.toList, isJsWhitespace c = false) :
    jsTrim s = s := by
  unfold jsTrim
  rw [dropWhile_noWhitespace _ h, dropWhile_noWhitespace _ (fun c hc => h c (List.mem_reverse.1 hc)),
    List.reverse_reverse]
  rfl

/-- A string of single code units has as many code units as characters. -/
theorem jsLength_plain (s : String) (h : ∀ c ∈ s.toList, c.toNat < 0x10000) :
    jsLength s = s.length := by
  have hl : ∀ l : List Char, (∀ c ∈ l, c.toNat < 0x10000) →
      (l.map (fun c => if c.toNat < 0x10000 then 1 else 2)).sum = l.length := by
    intro l
    induction l with
    | nil => intro _; rfl
    | cons c cs ih =>
      intro hcs
      have hc := hcs c (List.mem_cons_self c cs)
      have := ih (fun d hd => hcs d (List.mem_cons_of_mem c hd))
      simp only [List.map_cons, List.sum_cons, List.length_cons, if_pos hc, this]
      omega
  unfold jsLength
  rw [hl _ h]
  rfl

/-- C26. The call `Validators.username(value)` returns `value` unchanged if and
only if `value` is a string of 3 to 50 characters, each an ASCII letter, a
digit or the underscore; it throws if and only if `value` is not such a
string. -/
theorem username_accepts_iff (value : JsVal) :
    (Validators.username .clase value none = .ok value ↔
      ∃ s, value = .str s ∧ 3 ≤ s.length ∧ s.length ≤ 50 ∧
        ∀ c ∈ s.toList, c.isAlphanum = true ∨ c = '_') ∧
    ((∃ e, Validators.username .clase value none = .error e) ↔
      ¬ ∃ s, value = .str s ∧ 3 ≤ s.length ∧ s.length ≤ 50 ∧
        ∀ c ∈ s.toList, c.isAlphanum = true ∨ c = '_') := by
  have hplain : ∀ s : String, s.toList.all isUsernameChar = true →
      jsTrim s = s ∧ jsLength s = s.length := by
    intro s hall
    rw [List.all_eq_true] at hall
    exact ⟨jsTrim_noWhitespace s (fun c hc => (isUsernameChar_plain c (hall c hc)).1),
      jsLength_plain s (fun c hc => (isUsernameChar_plain c (hall c hc)).2)⟩
  have hchars : ∀ s : String, (∀ c ∈ s.toList, c.isAlphanum = true ∨ c = '_') ↔
      s.toList.all isUsernameChar = true := by
    intro s
    rw [List.all_eq_true]
    exact forall₂_congr (fun c _ => (isUsernameChar_iff c).symm)
  by_cases hc : ∃ s, value = .str s ∧ 3 ≤ s.length ∧ s.length ≤ 50 ∧
      ∀ c ∈ s.toList, c.isAlphanum = true ∨ c = '_'
  · obtain ⟨s, rfl, h3, h50, hall⟩ := hc
    have hall' := (hchars s).1 hall
    obtain ⟨htrim, hlen⟩ := hplain s hall'
    have hne : s ≠ "" := by
      intro h0; subst h0; simp at h3
    have hlist : s.length = s.data.length := rfl
    have hnil : ¬ s.data = [] := by
      intro hl
      rw [hl] at hlist
      simp at hlist
      omega
    have hdata : ∀ x ∈ s.data, isUsernameChar x = true := List.all_eq_true.1 hall'
    have hok : Validators.username .clase (.str s) none = .ok (.str s) := by
      have h1 : ¬ s.length < USERNAME_MIN_LENGTH := by simp [USERNAME_MIN_LENGTH]; omega
      have h2 : ¬ s.length > USERNAME_MAX_LENGTH := by simp [USERNAME_MAX_LENGTH]; omega
      simp [Validators.username, Validators.required, Validators.stringLength, htrim, hlen, hne,
        h1, h2, usernameRegexTest, hnil]
      exact hdata
    refine ⟨⟨fun _ => ⟨s, rfl, h3, h50, hall⟩, fun _ => hok⟩, ?_⟩
    constructor
    · rintro ⟨e, he⟩
      rw [hok] at he
      cases he
    · intro hn
      exact absurd ⟨s, rfl, h3, h50, hall⟩ hn
  · have herr : ∃ e, Validators.username .clase value none = .error e := by
      cases value with
      | str s =>
        by_cases hreq : jsTrim s = ""
        · simp [Validators.username, Validators.required, hreq]
        · by_cases hmin : jsLength (jsTrim s) < USERNAME_MIN_LENGTH
          · simp [Validators.username, Validators.required, hreq, Validators.stringLength, hmin]
          · by_cases hmax : jsLength (jsTrim s) > USERNAME_MAX_LENGTH
            · simp [Validators.username, Validators.required, hreq, Validators.stringLength, hmin,
                hmax]
            · cases hre : usernameRegexTest s with
              | false =>
                simp [Validators.username, Validators.required, hreq, Validators.stringLength,
                  hmin, hmax, hre]
              | true =>
                exfalso
                apply hc
                simp only [usernameRegexTest, Bool.and_eq_true] at hre
                obtain ⟨htrim, hlen⟩ := hplain s hre.2
                rw [htrim, hlen] at hmin hmax
                simp only [USERNAME_MIN_LENGTH, USERNAME_MAX_LENGTH] at hmin hmax
                exact ⟨s, rfl, by omega, by omega, (hchars s).2 hre.2⟩
      | undefined => exact ⟨_, rfl⟩
      | null => exact ⟨_, rfl⟩
      | bool b => exact ⟨_, rfl⟩
      | num n => exact ⟨_, rfl⟩
      | double x => exact ⟨_, rfl⟩
      | object => exact ⟨_, rfl⟩
    refine ⟨⟨fun hok => ?_, fun h => absurd h hc⟩, ⟨fun _ => hc, fun _ => herr⟩⟩
    obtain ⟨e, he⟩ := herr
    rw [he] at hok
    cases hok

/-- C28 fails for every input. The three rules reach `validateObject` as
functions taken off the class and are called there without a receiver, so
each one throws on its first `this.required`; `validateObject` collects the
three errors and throws, and `agregarUsuario` returns the failure without
sending the insert. The input here has a valid username, a password of seven
characters and the role `usuario`, each accepted by its validator when called
on the class. -/
theorem agregarUsuario_never_validates :
    Validators.username .clase (.str "admin_2") none = .ok (.str "admin_2") ∧
    Validators.password .clase (.str "secreto") none = .ok (.str "secreto") ∧
    Validators.userRole .clase (.str "usuario") = .ok (.str "usuario") ∧
    (∀ (insertFault : Option ErrorObject) (usuarios : List UsuarioInsert) (data : Payload),
      agregarUsuario insertFault usuarios data =
        (usuarios,
          [("success", .bool false),
            ("error", .str ("Errores de validación: "
              ++ "username: Cannot read properties of undefined (reading required); "
              ++ "password: Cannot read properties of undefined (reading required); "
              ++ "rol: Cannot read properties of undefined (reading required)")),
            ("validationErrors", .object)])) ∧
    agregarUsuario none []
        [("username", .str "admin_2"), ("password", .str "secreto"), ("rol", .str "usuario")] =
      ([],
        [("success", .bool false),
          ("error", .str ("Errores de validación: "
            ++ "username: Cannot read properties of undefined (reading required); "
            ++ "password: Cannot read properties of undefined (reading required); "
            ++ "rol: Cannot read properties of undefined (reading required)")),
          ("validationErrors", .object)]) :=
  ⟨by decide, by decide, by decide, fun _ _ _ => rfl, rfl⟩

/-! ## Theorems: the client session manager -/

/-- A text without the separator is split into one part. -/
theorem splitChars_not_mem (sep : Char) (l : List Char) (h : sep ∉ l) :
    splitChars sep l = [l] := by
  induction l with
  | nil => rfl
  | cons c cs ih =>
    have hc : c ≠ sep := fun e => h (e ▸ List.mem_cons_self c cs)
    have hcs : sep ∉ cs := fun m => h (List.mem_cons_of_mem c m)
    simp [splitChars, hc, ih hcs]

/-- A token of `generarToken` is not empty and holds no dot. -/
theorem generarToken_plain (randomBytes : Fin 32 → Fin 256) :
    (JsVal.str (generarToken randomBytes)).truthy = true ∧
    '.' ∉ (generarToken randomBytes).toList := by
  have hchars := flatMap_hexByte_chars (List.ofFn randomBytes)
  constructor
  · have hlen : (generarToken randomBytes).length = 64 := by
      show (String.mk ((List.ofFn randomBytes).flatMap hexByte)).length = 64
      rw [String.length_mk, hchars.1, List.length_ofFn]
    have hne : generarToken randomBytes ≠ "" := by
      intro h0
      rw [h0] at hlen
      simp at hlen
    simp [JsVal.truthy, hne]
  · intro hdot
    have := hchars.2 '.' hdot
    revert this
    decide

/-- C29 fails for every token of the backend. The session manager reads the
token as three parts separated by dots; the 64 hexadecimal digits of
`generarToken` hold no dot, so right after `initSession` with a successful
login result `isTokenExpired()` is `true` and `isAuthenticated()` is `false`,
whatever the browser decodes and whatever the clock reads. -/
theorem isTokenExpired_backend_token (browser : Browser) (sm : SessionManager)
    (randomBytes : Fin 32 → Fin 256) (user : Usuario) (rol : String) :
    (initSession sm (.success user (generarToken randomBytes) rol)).2 = true ∧
    (isTokenExpired browser
      (initSession sm (.success user (generarToken randomBytes) rol)).1).2 = true ∧
    (isAuthenticated browser
      (initSession sm (.success user (generarToken randomBytes) rol)).1).2 = false := by
  obtain ⟨htruthy, hdot⟩ := generarToken_plain randomBytes
  have hexp : tokenExpired browser (.str (generarToken randomBytes)) = true := by
    have hsplit : splitChars '.' (generarToken randomBytes).data =
        [(generarToken randomBytes).data] := splitChars_not_mem '.' _ hdot
    simp [tokenExpired, htruthy, hsplit]
  refine ⟨rfl, ?_, ?_⟩
  · simp [isTokenExpired, initSession, getSessionToken, htruthy, hexp]
  · simp [isAuthenticated, isTokenExpired, initSession, getSessionToken, getCurrentUser,
      htruthy, hexp]

/-! ## Theorems: the statements of `listarVentas` -/

set_option maxRecDepth 100000 in
/-- C30 fails for the data statement. Its last two values are written into the
text as `LIMIT ${paramCount} OFFSET ${paramCount + 1}`, the numbers themselves
and not the placeholders `$n`. With no filter the text ends in
`LIMIT 1 OFFSET 2` and references no placeholder, while two parameters are
passed with it; with the three filters it references `$1`, `$2`, `$3` and ends
in `LIMIT 4 OFFSET 5`, while five parameters are passed. The count statement
references the placeholders of the filter values it is given. -/
theorem listarVentas_limit_offset_not_placeholders :
    (listarVentasConsultas (fun _ => some 0) ⟨none, none, none, none, none⟩).map
        (fun c => (placeholders c.query.toList, c.params,
          placeholders c.countQuery.toList, c.countParams)) =
      .ok ([], [.num 100, .num 0], [], []) ∧
    (listarVentasConsultas (fun _ => some 0) ⟨none, none, none, none, none⟩).map
        (fun c => c.query) =
      .ok (ventasSelect ++ " ORDER BY v.fecha DESC LIMIT 1 OFFSET 2") ∧
    (listarVentasConsultas (fun _ => some 0)
        ⟨some "2025-01-01", some "2025-01-31", some 20, some 2, some 7⟩).map
        (fun c => (placeholders c.query.toList, c.params,
          placeholders c.countQuery.toList, c.countParams)) =
      .ok ([1, 2, 3], [.fecha 0, .fecha 0, .num 7, .num 20, .num 20],
        [1, 2, 3], [.fecha 0, .fecha 0, .num 7]) ∧
    (listarVentasConsultas (fun _ => some 0)
        ⟨some "2025-01-01", some "2025-01-31", some 20, some 2, some 7⟩).map
        (fun c => c.query) =
      .ok (ventasSelect
        ++ " WHERE v.fecha >= $1 AND v.fecha <= $2 AND v.usuario_id = $3"
        ++ " ORDER BY v.fecha DESC LIMIT 4 OFFSET 5") := by
  decide

/-! ## Theorems: deletion of a category that is in use -/

/-- The decimal digit characters are read back as their values. -/
theorem digitValue_digitChar : ∀ k : Fin 10,
    digitValue 10 (Nat.digitChar k.val) = some k.val ∧
    48 ≤ (Nat.digitChar k.val).toNat ∧ (Nat.digitChar k.val).toNat ≤ 57 := by
  decide

/-- The decimal digits of a number are digits, and reading them gives the
number. -/
theorem toDigitsCore_spec : ∀ (fuel n : Nat) (ds : List Char), n < fuel →
    (∀ c ∈ ds, 48 ≤ c.toNat ∧ c.toNat ≤ 57) →
    readDigits 10 (Nat.toDigitsCore 10 fuel n ds) 0 = readDigits 10 ds n ∧
    Nat.toDigitsCore 10 fuel n ds ≠ [] ∧
    ∀ c ∈ Nat.toDigitsCore 10 fuel n ds, 48 ≤ c.toNat ∧ c.toNat ≤ 57 := by
  intro fuel
  induction fuel with
  | zero => intro n ds h; omega
  | succ fuel ih =>
    intro n ds hn hds
    have hd := digitValue_digitChar ⟨n % 10, Nat.mod_lt n (by decide)⟩
    have hds' : ∀ c ∈ Nat.digitChar (n % 10) :: ds, 48 ≤ c.toNat ∧ c.toNat ≤ 57 := by
      intro c hc
      rcases List.mem_cons.1 hc with rfl | hc
      · exact hd.2
      · exact hds c hc
    unfold Nat.toDigitsCore
    by_cases h0 : n / 10 = 0
    · simp only [h0, if_true]
      refine ⟨?_, List.cons_ne_nil _ _, hds'⟩
      have hn10 : n % 10 = n := Nat.mod_eq_of_lt (by omega)
      simp only [readDigits, hd.1]
      rw [hn10]
      simp
    · simp only [h0, if_false]
      have ih' := ih (n / 10) (Nat.digitChar (n % 10) :: ds) (by omega) hds'
      refine ⟨?_, ih'.2.1, ih'.2.2⟩
      rw [ih'.1]
      simp only [readDigits, hd.1]
      congr 1
      omega

/-- On a text of decimal digits `parseInt` reads all of them. -/
theorem parseIntChars_digits (c : Char) (cs : List Char)
    (h : ∀ d ∈ c :: cs, 48 ≤ d.toNat ∧ d.toNat ≤ 57) :
    parseIntChars (c :: cs) = some (readDigits 10 (c :: cs) 0 : Nat) := by
  have hc := h c (List.mem_cons_self c cs)
  have hws : isJsWhitespace c = false := by
    simp only [isJsWhitespace, Bool.or_eq_false_iff, Bool.and_eq_false_iff, beq_eq_false_iff_ne,
      decide_eq_false_iff_not, ne_eq]
    omega
  have hdv : (digitValue 10 c).isSome = true := by
    simp [digitValue, hc.1, hc.2]
  have hpu : parseUnsigned (c :: cs) = some (readDigits 10 (c :: cs) 0) := by
    unfold parseUnsigned
    split
    · rename_i rest heq
      have := h 'x' (by rw [heq]; simp)
      exact absurd this (by decide)
    · rename_i rest heq
      have := h 'X' (by rw [heq]; simp)
      exact absurd this (by decide)
    · simp [parseDigits, hdv]
  unfold parseIntChars
  have hdrop : (c :: cs).dropWhile isJsWhitespace = c :: cs := by
    simp [List.dropWhile, hws]
  rw [hdrop]
  split
  · rename_i rest heq
    have := h '-' (by rw [heq]; simp)
    exact absurd this (by decide)
  · rename_i rest heq
    have := h '+' (by rw [heq]; simp)
    exact absurd this (by decide)
  · simp [hpu]

/-- The decimal text of a count parses back to the count. -/
theorem parseInt_countText (n : Nat) : parseInt (countText n) = some (n : Int) := by
  have hspec := toDigitsCore_spec (n + 1) n [] (by omega)
    (fun c hc => absurd hc (List.not_mem_nil c))
  have hstr : (toString n).toList = Nat.toDigitsCore 10 (n + 1) n [] := rfl
  show parseIntChars (toString n).toList = some (n : Int)
  rw [hstr]
  cases hl : Nat.toDigitsCore 10 (n + 1) n [] with
  | nil => exact absurd hl hspec.2.1
  | cons c cs =>
    rw [hl] at hspec
    rw [parseIntChars_digits c cs hspec.2.2, hspec.1]
    simp [readDigits]

/-- The count of a selection with a row in it is positive. -/
theorem countPositive_filter {α : Type} (rows : List α) (p : α → Bool)
    (h : ∃ r ∈ rows, p r = true) : countPositive (countText (rows.filter p).length) = true := by
  obtain ⟨r, hr, hp⟩ := h
  have hpos : 0 < (rows.filter p).length :=
    List.length_pos_of_mem (List.mem_filter.2 ⟨hr, hp⟩)
  simp only [countPositive, parseInt_countText, decide_eq_true_eq]
  omega

/-- C21. A call of `eliminarCategoria` on a category that a product
references returns a failure and leaves every row of `categorias` and of
`subcategorias` as it was; once the store executes the count, the failure
carries the message that the category has products. A call of
`eliminarSubcategoria` on a subcategory that a product references likewise
returns a failure and deletes nothing. -/
theorem eliminar_in_use (faults : CatFaults) (cat : Catalogo) (id : Nat) :
    ((∃ p ∈ cat.productos, p.categoria_id = some id) →
      (eliminarCategoria faults cat id).1 = cat ∧
      (eliminarCategoria faults cat id).2.get "success" = .bool false ∧
      (id ≠ 0 → faults (.countPorCategoria id) = none →
        (eliminarCategoria faults cat id).2 =
          [("success", .bool false),
            ("error",
              .str "No se puede eliminar la categoría porque tiene productos asociados")])) ∧
    ((∃ p ∈ cat.productos, p.subcategoria_id = some id) →
      (eliminarSubcategoria faults cat id).1 = cat ∧
      (eliminarSubcategoria faults cat id).2.get "success" = .bool false ∧
      (id ≠ 0 → faults (.countPorSubcategoria id) = none →
        (eliminarSubcategoria faults cat id).2 =
          [("success", .bool false),
            ("error",
              .str "No se puede eliminar la subcategoría porque tiene productos asociados")])) := by
  constructor
  · rintro ⟨p, hp, hcat⟩
    have hcount := countPositive_filter cat.productos (fun q => q.categoria_id == some id)
      ⟨p, hp, by simp [hcat]⟩
    have herr : ∃ e, eliminarCategoriaTry faults cat id = .error e := by
      by_cases hid : id = 0
      · simp [eliminarCategoriaTry, hid]
      · cases hq : faults (.countPorCategoria id) with
        | some e => simp [eliminarCategoriaTry, hid, hq]
        | none => simp [eliminarCategoriaTry, hid, hq, hcount]
    obtain ⟨e, he⟩ := herr
    refine ⟨by simp [eliminarCategoria, he], by simp [eliminarCategoria, he, failureOf, Payload.get],
      ?_⟩
    intro hid hq
    simp [eliminarCategoria, eliminarCategoriaTry, hid, hq, hcount, failureOf, plainError,
      createError, JsVal.toStr]
  · rintro ⟨p, hp, hsub⟩
    have hcount := countPositive_filter cat.productos (fun q => q.subcategoria_id == some id)
      ⟨p, hp, by simp [hsub]⟩
    have herr : ∃ e, eliminarSubcategoriaTry faults cat id = .error e := by
      by_cases hid : id = 0
      · simp [eliminarSubcategoriaTry, hid]
      · cases hq : faults (.countPorSubcategoria id) with
        | some e => simp [eliminarSubcategoriaTry, hid, hq]
        | none => simp [eliminarSubcategoriaTry, hid, hq, hcount]
    obtain ⟨e, he⟩ := herr
    refine ⟨by simp [eliminarSubcategoria, he],
      by simp [eliminarSubcategoria, he, failureOf, Payload.get], ?_⟩
    intro hid hq
    simp [eliminarSubcategoria, eliminarSubcategoriaTry, hid, hq, hcount, failureOf, plainError,
      createError, JsVal.toStr]

/-- Witness for `eliminar_in_use`: the category 1 holds a subcategory and a
product, and the subcategory 5 holds that product. -/
theorem eliminar_in_use_witness :
    eliminarCategoria (fun _ => none)
        ⟨[⟨1, "Bebidas"⟩], [⟨5, "Calientes", 1⟩], [⟨9, some 1, some 5⟩]⟩ 1 =
      (⟨[⟨1, "Bebidas"⟩], [⟨5, "Calientes", 1⟩], [⟨9, some 1, some 5⟩]⟩,
        [("success", .bool false),
          ("error",
            .str "No se puede eliminar la categoría porque tiene productos asociados")]) ∧
    (eliminarSubcategoria (fun _ => none)
        ⟨[⟨1, "Bebidas"⟩], [⟨5, "Calientes", 1⟩], [⟨9, some 1, some 5⟩]⟩ 5).1 =
      ⟨[⟨1, "Bebidas"⟩], [⟨5, "Calientes", 1⟩], [⟨9, some 1, some 5⟩]⟩ :=
  ⟨Prod.ext
      ((eliminar_in_use (fun _ => none)
        ⟨[⟨1, "Bebidas"⟩], [⟨5, "Calientes", 1⟩], [⟨9, some 1, some 5⟩]⟩ 1).1
        ⟨⟨9, some 1, some 5⟩, by decide, rfl⟩).1
      (((eliminar_in_use (fun _ => none)
        ⟨[⟨1, "Bebidas"⟩], [⟨5, "Calientes", 1⟩], [⟨9, some 1, some 5⟩]⟩ 1).1
        ⟨⟨9, some 1, some 5⟩, by decide, rfl⟩).2.2 (by decide) rfl),
    ((eliminar_in_use (fun _ => none)
      ⟨[⟨1, "Bebidas"⟩], [⟨5, "Calientes", 1⟩], [⟨9, some 1, some 5⟩]⟩ 5).2
      ⟨⟨9, some 1, some 5⟩, by decide, rfl⟩).1⟩

/-! ## Theorems: numbers -/

theorem pow2_eq (k : Nat) : pow2 k = 2 ^ k := by
  unfold pow2
  exact Nat.one_shiftLeft k

theorem bitLengthAux_spec : ∀ (fuel n : Nat), n ≤ fuel → n ≠ 0 →
    2 ^ (bitLengthAux fuel n - 1) ≤ n ∧ n < 2 ^ bitLengthAux fuel n ∧ 1 ≤ bitLengthAux fuel n := by
  intro fuel
  induction fuel with
  | zero => intro n h h0; omega
  | succ fuel ih =>
    intro n hn h0
    unfold bitLengthAux
    rw [if_neg h0]
    by_cases h2 : n / 2 = 0
    · have h1 : n = 1 := by omega
      subst h1
      have : bitLengthAux fuel (1 / 2) = 0 := by
        cases fuel <;> simp [bitLengthAux]
      simp [this]
    · have := ih (n / 2) (by omega) h2
      obtain ⟨h3, h4, h5⟩ := this
      refine ⟨?_, ?_, by omega⟩
      · have : bitLengthAux fuel (n / 2) + 1 - 1 = (bitLengthAux fuel (n / 2) - 1) + 1 := by omega
        rw [this, pow_succ]
        omega
      · rw [pow_succ]
        omega

theorem bitLength_spec (n : Nat) (h0 : n ≠ 0) :
    2 ^ (bitLength n - 1) ≤ n ∧ n < 2 ^ bitLength n ∧ 1 ≤ bitLength n :=
  bitLengthAux_spec n n (le_refl n) h0

theorem divRound_one (n : Nat) : divRound n 1 = n := by
  simp [divRound, Nat.mod_one]

theorem divRound_ge (n d : Nat) : n / d ≤ divRound n d := by
  unfold divRound
  split
  · exact le_refl _
  · split <;> omega

theorem floorLog2_one (n : Nat) (h0 : n ≠ 0) :
    floorLog2 n 1 = ((bitLength n - 1 : Nat) : Int) := by
  obtain ⟨h1, h2, h3⟩ := bitLength_spec n h0
  have hb1 : bitLength 1 = 1 := by decide
  unfold floorLog2
  simp only [hb1]
  have hl : (0 : Int) ≤ (bitLength n : Int) - ((1 : Nat) : Int) := by omega
  have ht : ((bitLength n : Int) - ((1 : Nat) : Int)).toNat = bitLength n - 1 := by omega
  rw [if_pos hl, ht, pow2_eq, one_mul, if_pos h1]
  omega

theorem round_small (negative : Bool) (n : Nat) (h0 : n ≠ 0) (h : n < 2 ^ 53) :
    Double.round negative n 1 = .fin (Double.sign negative * (n : Int)) 1 := by
  obtain ⟨h1, h2, h3⟩ := bitLength_spec n h0
  have hL : bitLength n ≤ 53 := by
    by_contra hc
    have : 2 ^ 53 ≤ 2 ^ (bitLength n - 1) := Nat.pow_le_pow_right (by decide) (by omega)
    omega
  unfold Double.round
  rw [if_neg h0, floorLog2_one n h0]
  have he : max (((bitLength n - 1 : Nat) : Int) - 52) (-1074) = (bitLength n : Int) - 53 := by
    omega
  simp only [he]
  by_cases h53 : bitLength n = 53
  · have hz : (bitLength n : Int) - 53 = 0 := by omega
    simp only [hz]
    simp [pow2_eq, divRound_one, Double.sign]
  · have hneg : ¬ (0 : Int) ≤ (bitLength n : Int) - 53 := by omega
    have hno : ¬ ((971 : Int) < (bitLength n : Int) - 53 ∨
        ((bitLength n : Int) - 53 = 971 ∧ pow2 53 ≤ divRound (n * pow2 (-((bitLength n : Int) - 53)).toNat) 1)) := by
      omega
    simp only [if_neg hneg]
    rw [if_neg hno]
    simp only [divRound_one, pow2_eq]
    generalize (-((bitLength n : Int) - 53)).toNat = k
    unfold Double.ofFraction
    have hpos : 0 < 2 ^ k := Nat.pos_pow_of_pos k (by decide)
    have hnat : (Double.sign negative * ((n * 2 ^ k : Nat) : Int)).natAbs = n * 2 ^ k := by
      cases negative <;> simp [Double.sign, Int.natAbs_mul, Int.natAbs_pow]
    rw [hnat]
    have hg : Nat.gcd (n * 2 ^ k) (2 ^ k) = 2 ^ k := Nat.gcd_mul_left_left _ _
    rw [hg, Nat.div_self hpos]
    congr 1
    unfold Double.sign
    push_cast
    rw [← mul_assoc]
    exact Int.mul_ediv_cancel _ (by positivity)


theorem round_int_shape (negative : Bool) (n : Nat) (h0 : n ≠ 0) :
    Double.round negative n 1 = .inf negative ∨
      ∃ M : Nat, 1 ≤ M ∧ Double.round negative n 1 = .fin (Double.sign negative * (M : Int)) 1 := by
  by_cases hs : n < 2 ^ 53
  · exact Or.inr ⟨n, by omega, round_small negative n h0 hs⟩
  · obtain ⟨h1, h2, h3⟩ := bitLength_spec n h0
    have hL : 54 ≤ bitLength n := by
      by_contra hc
      have : 2 ^ bitLength n ≤ 2 ^ 53 := Nat.pow_le_pow_right (by decide) (by omega)
      omega
    unfold Double.round
    rw [if_neg h0, floorLog2_one n h0]
    have he : max (((bitLength n - 1 : Nat) : Int) - 52) (-1074) = ((bitLength n - 53 : Nat) : Int) := by
      omega
    simp only [he]
    have hnn : (0 : Int) ≤ ((bitLength n - 53 : Nat) : Int) := Int.ofNat_nonneg _
    simp only [if_pos hnn, Int.toNat_ofNat, one_mul, pow2_eq]
    split
    · exact Or.inl rfl
    · refine Or.inr ⟨divRound n (2 ^ (bitLength n - 53)) * 2 ^ (bitLength n - 53), ?_, rfl⟩
      have hpos : 0 < 2 ^ (bitLength n - 53) := Nat.pos_pow_of_pos _ (by decide)
      have hle : 2 ^ (bitLength n - 53) ≤ n :=
        le_trans (Nat.pow_le_pow_right (by decide) (by omega)) h1
      have hq : 1 ≤ n / 2 ^ (bitLength n - 53) := (Nat.one_le_div_iff hpos).2 hle
      have hm := divRound_ge n (2 ^ (bitLength n - 53))
      exact Nat.one_le_iff_ne_zero.2 (Nat.mul_ne_zero (by omega) (by omega))

theorem ofInt_zero : Double.ofInt 0 = .fin 0 1 := by decide

theorem ofInt_one : Double.ofInt 1 = .fin 1 1 := by decide

theorem ofInt_shape (n : Int) (h0 : n ≠ 0) :
    Double.ofInt n = .inf (decide (n < 0)) ∨
      ∃ M : Nat, 1 ≤ M ∧ Double.ofInt n = .fin (Double.sign (decide (n < 0)) * (M : Int)) 1 := by
  unfold Double.ofInt Double.ofRatio
  exact round_int_shape _ _ (by omega)

/-- The number of an integer inside the safe range is that integer. -/
theorem ofInt_small (n : Int) (h : n.natAbs < 2 ^ 53) : Double.ofInt n = .fin n 1 := by
  by_cases h0 : n = 0
  · subst h0; decide
  · unfold Double.ofInt Double.ofRatio
    rw [round_small _ _ (by omega) h]
    congr 1
    unfold Double.sign
    by_cases hn : n < 0
    · simp [hn, abs_of_neg hn]
    · simp [hn, abs_of_nonneg (not_lt.1 hn)]

/-- The comparison `parseInt(v) >= 0` on the number of an integer. -/
theorem ofInt_ge_zero (n : Int) : (Double.ofInt n).ge (Double.ofInt 0) = decide (0 ≤ n) := by
  rw [ofInt_zero]
  by_cases h0 : n = 0
  · subst h0; decide
  · rcases ofInt_shape n h0 with h | ⟨M, hM, h⟩
    · rw [h]
      by_cases hn : n < 0
      · simp [Double.ge, Double.lt, hn]
      · simp [Double.ge, Double.lt, hn]; omega
    · rw [h]
      by_cases hn : n < 0
      · have h1 : ¬ (0 : Int) ≤ n := by omega
        have h2 : 0 < M := hM
        simp [Double.ge, Double.lt, hn, Double.sign, h1, h2]
      · have h1 : (0 : Int) ≤ n := by omega
        have h2 : ¬ ((M : Int) < 0) := by omega
        simp [Double.ge, Double.lt, hn, Double.sign, h1, h2]

/-- The comparison `parseInt(v) >= 1` on the number of an integer. -/
theorem ofInt_ge_one (n : Int) : (Double.ofInt n).ge (Double.ofInt 1) = decide (1 ≤ n) := by
  rw [ofInt_one]
  by_cases h0 : n = 0
  · subst h0; decide
  · rcases ofInt_shape n h0 with h | ⟨M, hM, h⟩
    · rw [h]
      by_cases hn : n < 0
      · simp [Double.ge, Double.lt, hn]; omega
      · simp [Double.ge, Double.lt, hn]; omega
    · rw [h]
      by_cases hn : n < 0
      · have h1 : ¬ (1 : Int) ≤ n := by omega
        have h2 : -(M : Int) < 1 := by omega
        simp [Double.ge, Double.lt, hn, Double.sign, h1, h2]
      · have h1 : (1 : Int) ≤ n := by omega
        have h2 : M ≠ 0 := by omega
        simp [Double.ge, Double.lt, hn, Double.sign, h1, h2]

/-- The product of two integer numbers is the number of the exact product. -/
theorem mul_int (a c : Int) : (Double.fin a 1).mul (.fin c 1) = Double.ofInt (a * c) := by
  simp [Double.mul, Double.ofInt]

/-- The sum of two integer numbers is the number of the exact sum. -/
theorem add_int (a c : Int) : (Double.fin a 1).add (.fin c 1) = Double.ofInt (a + c) := by
  simp [Double.add, Double.ofInt]

/-- The running total over lines of integer quantities and prices is exact as
long as it stays inside the safe range. -/
theorem foldl_subtotales_exact :
    ∀ (productos : List Doble.LineItem) (lineas : List (Nat × Nat)) (inicio : Nat),
      productos.map (fun i =>
          ((Doble.numValue i.cantidad).toNumber, (Doble.numValue i.precioUnitario).toNumber)) =
        lineas.map (fun l => (Double.fin l.1 1, Double.fin l.2 1)) →
      inicio + (lineas.map (fun l => l.1 * l.2)).sum < 2 ^ 53 →
      productos.foldl
          (fun (total : Double) (i : Doble.LineItem) =>
            total.add ((Doble.numValue i.cantidad).toNumber.mul
              (Doble.numValue i.precioUnitario).toNumber))
          (Double.fin inicio 1) =
        Double.fin ((inicio + (lineas.map (fun l => l.1 * l.2)).sum : Nat) : Int) 1 := by
  intro productos
  induction productos with
  | nil =>
    intro lineas inicio hl _
    cases lineas with
    | nil => simp
    | cons l ls => simp at hl
  | cons item rest ih =>
    intro lineas inicio hl hsum
    cases lineas with
    | nil => simp at hl
    | cons l ls =>
      simp only [List.map_cons, List.cons.injEq, Prod.mk.injEq, List.sum_cons] at hl hsum
      obtain ⟨⟨hq, hp⟩, hrest⟩ := hl
      simp only [List.foldl_cons, hq, hp]
      have hprod : (((l.1 : Int) * (l.2 : Int)).natAbs) < 2 ^ 53 := by
        have : ((l.1 : Int) * (l.2 : Int)).natAbs = l.1 * l.2 := by
          rw [Int.natAbs_mul]
          simp
        rw [this]
        omega
      rw [mul_int, ofInt_small _ hprod, add_int]
      have hsuma : (((inicio : Int) + (l.1 : Int) * (l.2 : Int)).natAbs) < 2 ^ 53 := by
        have : ((inicio : Int) + (l.1 : Int) * (l.2 : Int)).natAbs = inicio + l.1 * l.2 := by
          have h2 : ((inicio : Int) + (l.1 : Int) * (l.2 : Int)) = ((inicio + l.1 * l.2 : Nat) : Int) := by
            push_cast
            rfl
          rw [h2, Int.natAbs_ofNat]
        rw [this]
        omega
      rw [ofInt_small _ hsuma]
      have h3 : ((inicio : Int) + (l.1 : Int) * (l.2 : Int)) = ((inicio + l.1 * l.2 : Nat) : Int) := by
        push_cast
        rfl
      rw [h3, ih ls (inicio + l.1 * l.2) hrest (by omega)]
      simp only [List.sum_cons, List.map_cons]
      congr 2
      omega

/-- The sum of the subtotals is the exact sum of quantity times unit price when
the quantities and prices are integers that are not negative and the exact sum
is inside the safe range. -/
theorem sumaSubtotales_exact (productos : List Doble.LineItem) (lineas : List (Nat × Nat))
    (hl : productos.map (fun i =>
        ((Doble.numValue i.cantidad).toNumber, (Doble.numValue i.precioUnitario).toNumber)) =
      lineas.map (fun l => (Double.fin l.1 1, Double.fin l.2 1)))
    (hsum : (lineas.map (fun l => l.1 * l.2)).sum < 2 ^ 53) :
    Doble.sumaSubtotales productos =
      .fin (((lineas.map (fun l => l.1 * l.2)).sum : Nat) : Int) 1 := by
  have h := foldl_subtotales_exact productos lineas 0 hl (by omega)
  unfold Doble.sumaSubtotales
  rw [ofInt_zero]
  simpa using h

/-! ## Theorems: totals of a sale -/

/-- A value that `Validators.number` accepts is returned as read. -/
theorem venta_number_ok (value : JsVal) (fieldName : String) (min max : Double)
    (x : Doble.NumValue) (h : Doble.Validators.number value fieldName min max = .ok x) :
    x = Doble.numValue value := by
  unfold Doble.Validators.number at h
  split at h
  · cases h
  · split at h
    · cases h
    · split at h
      · cases h
      · cases h
        rfl

/-- A value that `Validators.integer` accepts is a number, returned as read. -/
theorem venta_integer_ok (value : JsVal) (fieldName : String) (min max : Double) (x : Double)
    (h : Doble.Validators.integer value fieldName min max = .ok x) :
    Doble.numValue value = .number x := by
  unfold Doble.Validators.integer at h
  split at h
  · cases h
  · rename_i y hy
    have := venta_number_ok _ _ _ _ _ hy
    split at h
    · cases h
      exact this.symm
    · cases h
  · cases h

/-- A value that `Validators.positiveNumber` accepts is returned as read. -/
theorem venta_positiveNumber_ok (value : JsVal) (fieldName : String) (x : Doble.NumValue)
    (h : Doble.Validators.positiveNumber value fieldName = .ok x) :
    x = Doble.numValue value := by
  unfold Doble.Validators.positiveNumber at h
  split at h
  · cases h
  · rename_i y hy
    split at h
    · cases h
    · cases h
      exact venta_number_ok _ _ _ _ _ hy

/-- One line that passes adds one item, which carries the values of the line
as read, and adds the rounded product of quantity and price to the total. -/
theorem venta_procesarItem_ok (faults : Faults) (cab : Doble.Cabecera)
    (acc acc' : Doble.VentaAcc) (item : Doble.LineItem)
    (h : Doble.procesarItem faults cab acc item = .ok acc') :
    (∃ ventaId nombre, acc'.ventaItems = acc.ventaItems ++
      [⟨ventaId, (Doble.numValue item.productoId).toNumber, nombre,
        (Doble.numValue item.cantidad).toNumber, Doble.numValue item.precioUnitario,
        (Doble.numValue item.cantidad).toNumber.mul
          (Doble.numValue item.precioUnitario).toNumber⟩]) ∧
    acc'.totalVenta = acc.totalVenta.add
      ((Doble.numValue item.cantidad).toNumber.mul
        (Doble.numValue item.precioUnitario).toNumber) := by
  unfold Doble.procesarItem at h
  split at h
  · cases h
  · rename_i vid hvid
    have hid := venta_integer_ok _ _ _ _ _ hvid
    split at h
    · cases h
    · rename_i vc hvc
      have hc := venta_integer_ok _ _ _ _ _ hvc
      split at h
      · cases h
      · rename_i vp hvp
        have hp := venta_positiveNumber_ok _ _ _ hvp
        split at h
        · cases h
        · rename_i producto _
          split at h
          · cases h
          · split at h
            · cases h
            · cases h
              rw [hid, hc, ← hp]
              exact ⟨⟨_, _, rfl⟩, rfl⟩

/-- The loop over the lines: the items it adds and the total it reaches. -/
theorem venta_procesarItems_ok (faults : Faults) (cab : Doble.Cabecera) :
    ∀ (items : List Doble.LineItem) (acc acc' : Doble.VentaAcc),
      Doble.procesarItems faults cab items acc = (acc', none) →
      acc'.ventaItems.map
          (fun it => (it.productoId, it.cantidad, it.precioUnitario, it.subtotal)) =
        acc.ventaItems.map
          (fun it => (it.productoId, it.cantidad, it.precioUnitario, it.subtotal)) ++
        items.map (fun i =>
          ((Doble.numValue i.productoId).toNumber, (Doble.numValue i.cantidad).toNumber,
            Doble.numValue i.precioUnitario,
            (Doble.numValue i.cantidad).toNumber.mul
              (Doble.numValue i.precioUnitario).toNumber)) ∧
      acc'.totalVenta =
        items.foldl
          (fun total i =>
            total.add ((Doble.numValue i.cantidad).toNumber.mul
              (Doble.numValue i.precioUnitario).toNumber))
          acc.totalVenta := by
  intro items
  induction items with
  | nil =>
    intro acc acc' h
    simp only [Doble.procesarItems, Prod.mk.injEq, and_true] at h
    subst h
    simp
  | cons item rest ih =>
    intro acc acc' h
    simp only [Doble.procesarItems] at h
    cases hstep : Doble.procesarItem faults cab acc item with
    | error e => simp [hstep] at h
    | ok mid =>
      simp only [hstep] at h
      obtain ⟨⟨ventaId, nombre, hitems⟩, htot⟩ :=
        venta_procesarItem_ok faults cab acc mid item hstep
      obtain ⟨h1, h2⟩ := ih mid acc' h
      refine ⟨?_, ?_⟩
      · rw [h1, hitems]
        simp
      · rw [h2, htot]
        rfl

/-- The discount validated before the loop is the discount passed as read,
the number 0 when the discount passed is falsy. -/
theorem venta_validarCabecera_descuento (data : Doble.VentaData) (cab : Doble.Cabecera)
    (h : Doble.validarCabecera data = .ok cab) :
    cab.descuento = Doble.numValue (data.descuentoTotal.or (.num 0)) := by
  unfold Doble.validarCabecera at h
  split at h
  · cases h
  · split at h
    · cases h
    · split at h
      · cases h
      · split at h
        · cases h
        · rename_i vd hvd
          cases h
          exact venta_positiveNumber_ok _ _ _ hvd

/-- C17 as stated fails in the arithmetic of the program. One line of 94906267
units at the unit price 94906267 succeeds with `totalSinDescuento`
9007199515875288, while quantity times unit price is 9007199515875289: the
product is rounded to a double. -/
theorem registrarVenta_total_is_rounded :
    (Doble.registrarVenta ⟨"t", false⟩ noFaults ⟨[⟨1, some "Cafe", 100000000⟩], [], [], 1, 0⟩
      ⟨[⟨.num 1, .num 94906267, .num 94906267⟩], .str "efectivo", .undefined, .num 7⟩).2.2 =
      .ok (.success
        [⟨1, .fin 1 1, some "Cafe", .fin 94906267 1, .number (.fin 94906267 1),
          .fin 9007199515875288 1⟩]
        (.fin 9007199515875288 1) (.fin 9007199515875288 1) (.number (.fin 0 1))) ∧
    (94906267 : Int) * 94906267 = 9007199515875289 ∧
    Double.fin 9007199515875288 1 ≠ Double.fin (94906267 * 94906267) 1 := by
  decide

/-- C17 (amended). When `registrarVenta` returns success, `totalSinDescuento`
is the sum over the input lines of quantity times unit price as the program
computes it in double arithmetic: from 0, in input order, each product is
rounded to a double and added to the running total, which is rounded again.
`descuento` is the discount passed as validated (the number 0 when the discount
passed is falsy), `total` is the rounded difference of `totalSinDescuento` and
`descuento`, and `ventaItems` has one item per input line, in input order, with
the product id, quantity, unit price and rounded subtotal of the line. No bound
relates the discount to the total. When the quantities and unit prices are
integers that are not negative and their exact sum of products is below
`2 ^ 53`, `totalSinDescuento` is that exact sum. -/
theorem registrarVenta_totals (env : Env) (faults : Faults) (db : Db) (data : Doble.VentaData)
    (ventaItems : List Doble.VentaItem) (total totalSinDescuento : Double)
    (descuento : Doble.NumValue)
    (h : (Doble.registrarVenta env faults db data).2.2 =
      .ok (.success ventaItems total totalSinDescuento descuento)) :
    totalSinDescuento = Doble.sumaSubtotales data.productos ∧
    descuento = Doble.numValue (data.descuentoTotal.or (.num 0)) ∧
    total = totalSinDescuento.sub descuento.toNumber ∧
    ventaItems.map (fun it => (it.productoId, it.cantidad, it.precioUnitario, it.subtotal)) =
      data.productos.map (fun i =>
        ((Doble.numValue i.productoId).toNumber, (Doble.numValue i.cantidad).toNumber,
          Doble.numValue i.precioUnitario,
          (Doble.numValue i.cantidad).toNumber.mul
            (Doble.numValue i.precioUnitario).toNumber)) ∧
    (∀ lineas : List (Nat × Nat),
      data.productos.map (fun i =>
          ((Doble.numValue i.cantidad).toNumber, (Doble.numValue i.precioUnitario).toNumber)) =
        lineas.map (fun l => (Double.fin l.1 1, Double.fin l.2 1)) →
      (lineas.map (fun l => l.1 * l.2)).sum < 2 ^ 53 →
      totalSinDescuento = .fin (((lineas.map (fun l => l.1 * l.2)).sum : Nat) : Int) 1) := by
  unfold Doble.registrarVenta at h
  cases hcab : Doble.validarCabecera data with
  | error e =>
    simp only [hcab] at h
    cases hh : handle env (.error e) <;> simp [hh, Except.map] at h
  | ok cab =>
    simp only [hcab] at h
    cases hloop : Doble.procesarItems faults cab data.productos ⟨db, [], [], Double.ofInt 0⟩ with
    | mk acc err =>
      cases err with
      | some e =>
        simp only [hloop] at h
        cases hh : handle env (.error e) <;> simp [hh, Except.map] at h
      | none =>
        simp only [hloop, Except.ok.injEq, Doble.VentaResult.success.injEq] at h
        obtain ⟨rfl, rfl, rfl, rfl⟩ := h
        obtain ⟨h1, h2⟩ := venta_procesarItems_ok faults cab data.productos _ acc hloop
        have hsuma : acc.totalVenta = Doble.sumaSubtotales data.productos := h2
        refine ⟨hsuma, venta_validarCabecera_descuento data cab hcab, rfl, ?_, ?_⟩
        · simpa using h1
        · intro lineas hl hs
          rw [hsuma]
          exact sumaSubtotales_exact data.productos lineas hl hs

/-- Witness for `registrarVenta_totals`: three units at the price 0.1 with the
discount 50; the sale is not rejected, its `totalSinDescuento` is the double
0.30000000000000004 and its total is negative. -/
theorem registrarVenta_totals_witness :
    (Doble.registrarVenta ⟨"t", false⟩ noFaults ⟨[⟨1, some "Cafe", 5⟩], [], [], 1, 0⟩
      ⟨[⟨.num 1, .num 3, .str "0.1"⟩], .str "efectivo", .num 50, .num 7⟩).2.2 =
      .ok (.success
        [⟨1, .fin 1 1, some "Cafe", .fin 3 1,
          .number (.fin 3602879701896397 36028797018963968),
          .fin 1351079888211149 4503599627370496⟩]
        (.fin (-3497326585629901) 70368744177664) (.fin 1351079888211149 4503599627370496)
        (.number (.fin 50 1))) ∧
    Double.fin (-3497326585629901) 70368744177664 =
      (Double.fin 1351079888211149 4503599627370496).sub (.fin 50 1) ∧
    Double.toString (.fin 1351079888211149 4503599627370496) = "0.30000000000000004" :=
  ⟨by decide,
    (registrarVenta_totals ⟨"t", false⟩ noFaults ⟨[⟨1, some "Cafe", 5⟩], [], [], 1, 0⟩
      ⟨[⟨.num 1, .num 3, .str "0.1"⟩], .str "efectivo", .num 50, .num 7⟩
      [⟨1, .fin 1 1, some "Cafe", .fin 3 1,
        .number (.fin 3602879701896397 36028797018963968),
        .fin 1351079888211149 4503599627370496⟩]
      (.fin (-3497326585629901) 70368744177664) (.fin 1351079888211149 4503599627370496)
      (.number (.fin 50 1)) (by decide)).2.2.1,
    by decide⟩

/-! ## Theorems: coercion of the numeric fields -/

/-- The number `parseInt` returns when it reads the integer `n`. -/
theorem parseIntNumber_some (v : JsVal) (n : Int) (h : parseInt v = some n) :
    parseIntNumber v = Double.ofInt n := by
  simp [parseIntNumber, h]

/-- The number `parseInt` returns when it reads no integer is NaN. -/
theorem parseIntNumber_none (v : JsVal) (h : parseInt v = none) : parseIntNumber v = .nan := by
  simp [parseIntNumber, h]

/-- The number handed to the `UPDATE` for `stock`, `extracciones` and
`defectuosos`, by the integer that `parseInt` reads. -/
theorem validateNonNegIntNumber_cases (v : JsVal) :
    (∀ n, parseInt v = some n → 0 ≤ n → validateNonNegIntNumber v = Double.ofInt n) ∧
    (∀ n, parseInt v = some n → n < 0 → validateNonNegIntNumber v = Double.ofInt 0) ∧
    (parseInt v = none → validateNonNegIntNumber v = Double.ofInt 0) := by
  refine ⟨?_, ?_, ?_⟩
  · intro n hn h0
    simp [validateNonNegIntNumber, parseIntNumber_some v n hn, ofInt_ge_zero, h0]
  · intro n hn h0
    simp [validateNonNegIntNumber, parseIntNumber_some v n hn, ofInt_ge_zero, not_le.2 h0]
  · intro hn
    simp [validateNonNegIntNumber, parseIntNumber_none v hn, Double.ge]

/-- The number handed to the `UPDATE` for `cantidad`, by the integer that
`parseInt` reads. -/
theorem validateCantidad_cases (v : JsVal) :
    (∀ n, parseInt v = some n → 1 ≤ n → validateCantidad v = Double.ofInt n) ∧
    (∀ n, parseInt v = some n → n < 1 → validateCantidad v = Double.ofInt 1) ∧
    (parseInt v = none → validateCantidad v = Double.ofInt 1) := by
  refine ⟨?_, ?_, ?_⟩
  · intro n hn h1
    simp [validateCantidad, parseIntNumber_some v n hn, ofInt_ge_one, h1]
  · intro n hn h1
    simp [validateCantidad, parseIntNumber_some v n hn, ofInt_ge_one, not_le.2 h1]
  · intro hn
    simp [validateCantidad, parseIntNumber_none v hn, Double.ge]

/-- The number handed to the `UPDATE` for a price field, by the number that
`parseFloat` reads. -/
theorem validateNonNegFloat_cases (v : JsVal) :
    (parseFloat v = .nan → validateNonNegFloat v = Double.ofInt 0) ∧
    (∀ negative, parseFloat v = .inf negative →
      validateNonNegFloat v = if negative then Double.ofInt 0 else .inf false) ∧
    (∀ num den, parseFloat v = .fin num den →
      validateNonNegFloat v = if 0 ≤ num then .fin num den else Double.ofInt 0) := by
  refine ⟨?_, ?_, ?_⟩
  · intro h
    simp [validateNonNegFloat, h, Double.ge]
  · intro negative h
    cases negative <;> simp [validateNonNegFloat, h, Double.ge, Double.lt, ofInt_zero]
  · intro num den h
    by_cases h0 : 0 ≤ num
    · simp [validateNonNegFloat, h, Double.ge, Double.lt, ofInt_zero, h0]
    · simp [validateNonNegFloat, h, Double.ge, Double.lt, ofInt_zero, h0, not_le.1 h0]

/-- The stock of the ledger is the integer whose number is handed to the
`UPDATE`: the two are the same integer inside the safe range. -/
theorem validateNonNegIntNumber_ledger (v : JsVal) :
    validateNonNegIntNumber v = Double.ofInt (validateNonNegInt v) ∧
    ((validateNonNegInt v).natAbs < 2 ^ 53 →
      validateNonNegIntNumber v = .fin (validateNonNegInt v) 1) := by
  have h : validateNonNegIntNumber v = Double.ofInt (validateNonNegInt v) := by
    cases hp : parseInt v with
    | none =>
      rw [(validateNonNegIntNumber_cases v).2.2 hp]
      simp [validateNonNegInt, hp]
    | some n =>
      by_cases h0 : 0 ≤ n
      · rw [(validateNonNegIntNumber_cases v).1 n hp h0]
        simp [validateNonNegInt, hp, h0]
      · rw [(validateNonNegIntNumber_cases v).2.1 n hp (not_le.1 h0)]
        simp [validateNonNegInt, hp, h0]
  exact ⟨h, fun hs => by rw [h, ofInt_small _ hs]⟩

/-- The coerced number is never NaN and never below the floor of its field. -/
theorem validate_floor (x floor : Double) (hfloor : floor.ge floor = true) :
    ((if x.ge floor then x else floor).ge floor = true) ∧
    ((if x.ge floor then x else floor).isNaN = false) := by
  by_cases h : x.ge floor = true
  · rw [if_pos h]
    refine ⟨h, ?_⟩
    cases x <;> simp_all [Double.ge, Double.isNaN]
  · rw [if_neg h]
    refine ⟨hfloor, ?_⟩
    cases floor <;> simp_all [Double.ge, Double.isNaN]

/-- C19 as stated fails for `cantidad`. The text `abc` and the number -3 are
stored as 1, not 0, and the number 0, which `parseInt` reads as a number that
is not negative, is stored as 1. -/
theorem validateCantidad_defaults_to_one :
    validateNumeric "cantidad" (.str "abc") = some (.fin 1 1) ∧
    validateNumeric "cantidad" (.num (-3)) = some (.fin 1 1) ∧
    parseIntNumber (.num 0) = .fin 0 1 ∧
    (parseIntNumber (.num 0)).ge (Double.ofInt 0) = true ∧
    validateNumeric "cantidad" (.num 0) = some (.fin 1 1) := by
  decide

/-- C19 (amended). For every numeric field of a patch and every input value the
coercion yields a number without an error, which is never NaN. For `stock`,
`extracciones` and `defectuosos` that number is the one of the integer
`parseInt` reads when the integer is not negative, and 0 when `parseInt` gives
NaN or a negative integer; it is never below 0. For `cantidad` it is the
number of the integer `parseInt` reads when the integer is at least 1, and 1
otherwise; it is never below 1. For the four price fields it is the number
`parseFloat` reads when that is a finite number not below zero or the positive
infinity, and 0 when `parseFloat` gives NaN, a negative number or the negative
infinity; it is never below 0. -/
theorem validateNumeric_spec (key : String) (v : JsVal) (hkey : key ∈ numericFields) :
    (∃ x, validateNumeric key v = some x ∧ x.isNaN = false) ∧
    (key = "stock" ∨ key = "extracciones" ∨ key = "defectuosos" →
      (∀ n, parseInt v = some n → 0 ≤ n →
        parseIntNumber v = Double.ofInt n ∧ validateNumeric key v = some (Double.ofInt n)) ∧
      (∀ n, parseInt v = some n → n < 0 → validateNumeric key v = some (Double.ofInt 0)) ∧
      (parseInt v = none → validateNumeric key v = some (Double.ofInt 0)) ∧
      (∀ x, validateNumeric key v = some x → x.ge (Double.ofInt 0) = true)) ∧
    (key = "cantidad" →
      (∀ n, parseInt v = some n → 1 ≤ n →
        parseIntNumber v = Double.ofInt n ∧ validateNumeric key v = some (Double.ofInt n)) ∧
      (∀ n, parseInt v = some n → n < 1 → validateNumeric key v = some (Double.ofInt 1)) ∧
      (parseInt v = none → validateNumeric key v = some (Double.ofInt 1)) ∧
      (∀ x, validateNumeric key v = some x → x.ge (Double.ofInt 1) = true)) ∧
    (key = "precio_usd" ∨ key = "precio_cup" ∨ key = "oprecio_cup" ∨ key = "pxg_cup" →
      (∀ num den, parseFloat v = .fin num den → 0 ≤ num →
        validateNumeric key v = some (.fin num den)) ∧
      (∀ num den, parseFloat v = .fin num den → num < 0 →
        validateNumeric key v = some (Double.ofInt 0)) ∧
      (parseFloat v = .inf false → validateNumeric key v = some (.inf false)) ∧
      (parseFloat v = .inf true → validateNumeric key v = some (Double.ofInt 0)) ∧
      (parseFloat v = .nan → validateNumeric key v = some (Double.ofInt 0)) ∧
      (∀ x, validateNumeric key v = some x → x.ge (Double.ofInt 0) = true)) := by
  have hint : key = "stock" ∨ key = "extracciones" ∨ key = "defectuosos" →
      validateNumeric key v = some (validateNonNegIntNumber v) := by
    intro hk
    rcases hk with rfl | rfl | rfl <;> simp [validateNumeric]
  have hcant : key = "cantidad" → validateNumeric key v = some (validateCantidad v) := by
    intro hk
    subst hk
    simp [validateNumeric]
  have hprice : key = "precio_usd" ∨ key = "precio_cup" ∨ key = "oprecio_cup" ∨ key = "pxg_cup" →
      validateNumeric key v = some (validateNonNegFloat v) := by
    intro hk
    rcases hk with rfl | rfl | rfl | rfl <;> simp [validateNumeric]
  have hzero : (Double.ofInt 0).ge (Double.ofInt 0) = true := by decide
  have hone : (Double.ofInt 1).ge (Double.ofInt 1) = true := by decide
  refine ⟨?_, ?_, ?_, ?_⟩
  · simp only [numericFields, List.mem_cons, List.mem_singleton, List.not_mem_nil, or_false]
      at hkey
    rcases hkey with hk | hk | hk | hk | hk | hk | hk | hk
    · exact ⟨_, hint (Or.inl hk), (validate_floor _ _ hzero).2⟩
    · exact ⟨_, hcant hk, (validate_floor _ _ hone).2⟩
    · exact ⟨_, hprice (Or.inl hk), (validate_floor _ _ hzero).2⟩
    · exact ⟨_, hprice (Or.inr (Or.inl hk)), (validate_floor _ _ hzero).2⟩
    · exact ⟨_, hprice (Or.inr (Or.inr (Or.inl hk))), (validate_floor _ _ hzero).2⟩
    · exact ⟨_, hprice (Or.inr (Or.inr (Or.inr hk))), (validate_floor _ _ hzero).2⟩
    · exact ⟨_, hint (Or.inr (Or.inl hk)), (validate_floor _ _ hzero).2⟩
    · exact ⟨_, hint (Or.inr (Or.inr hk)), (validate_floor _ _ hzero).2⟩
  · intro hk
    rw [hint hk]
    refine ⟨?_, ?_, ?_, ?_⟩
    · intro n hn h0
      exact ⟨parseIntNumber_some v n hn,
        congrArg some ((validateNonNegIntNumber_cases v).1 n hn h0)⟩
    · intro n hn h0
      exact congrArg some ((validateNonNegIntNumber_cases v).2.1 n hn h0)
    · intro hn
      exact congrArg some ((validateNonNegIntNumber_cases v).2.2 hn)
    · intro x hx
      cases hx
      exact (validate_floor _ _ hzero).1
  · intro hk
    rw [hcant hk]
    refine ⟨?_, ?_, ?_, ?_⟩
    · intro n hn h1
      exact ⟨parseIntNumber_some v n hn, congrArg some ((validateCantidad_cases v).1 n hn h1)⟩
    · intro n hn h1
      exact congrArg some ((validateCantidad_cases v).2.1 n hn h1)
    · intro hn
      exact congrArg some ((validateCantidad_cases v).2.2 hn)
    · intro x hx
      cases hx
      exact (validate_floor _ _ hone).1
  · intro hk
    rw [hprice hk]
    refine ⟨?_, ?_, ?_, ?_, ?_, ?_⟩
    · intro num den h h0
      rw [(validateNonNegFloat_cases v).2.2 num den h, if_pos h0]
    · intro num den h h0
      rw [(validateNonNegFloat_cases v).2.2 num den h, if_neg (not_le.2 h0)]
    · intro h
      rw [(validateNonNegFloat_cases v).2.1 false h]
      rfl
    · intro h
      rw [(validateNonNegFloat_cases v).2.1 true h]
      rfl
    · intro h
      rw [(validateNonNegFloat_cases v).1 h]
    · intro x hx
      cases hx
      exact (validate_floor _ _ hzero).1

/-- Witness for `validateNumeric_spec`: the text `12px` given for `stock` is
stored as 12, the number `10 ^ 21`, which prints as `1e+21`, as 1, the
fraction 12.5 as 12, the text `12.5` given for a price as 12.5, and a text of
digits beyond the safe range as the double nearest to it. -/
theorem validateNumeric_spec_witness :
    validateNumeric "stock" (.str "12px") = some (Double.ofInt 12) ∧
    Double.ofInt 12 = .fin 12 1 ∧
    validateNumeric "stock" (.num 1000000000000000000000) = some (.fin 1 1) ∧
    validateNumeric "stock" (.double (.fin 25 2)) = some (.fin 12 1) ∧
    validateNumeric "precio_usd" (.str "12.5") = some (.fin 25 2) ∧
    validateNumeric "precio_usd" (.num (-4)) = some (.fin 0 1) ∧
    validateNumeric "stock" (.str "9007199254740993") = some (.fin 9007199254740992 1) :=
  ⟨(((validateNumeric_spec "stock" (.str "12px") (by decide)).2.1 (Or.inl rfl)).1 12
      (by decide) (by decide)).2,
    by decide, by decide, by decide, by decide, by decide, by decide⟩

end Inventario
